import Mathlib

/-!
# rocSOLVER dispatch drivers: a shallow embedding

The three drivers of `library/src/lapack`

* `rocsolver_geblttrf_npvt_batched_impl` (roclapack_geblttrf_npvt_batched.cpp),
* `rocsolver_geblttrs_npvt_impl` (roclapack_geblttrs_npvt.cpp),
* `rocsolver_sytrd_hetrd_impl` (roclapack_sytrd_hetrd.cpp)

are straight-line C++ functions that call services: the argument validator
(`*_argCheck`), the memory size planner (`*_getMemorySize`), the rocBLAS
workspace services (`rocblas_is_device_memory_size_query`,
`rocblas_set_optimal_device_memory_size`, `rocblas_device_malloc`),
`init_scalars` and the kernel template (`*_template`).

Each driver is embedded as a pure function of its arguments and of the device
memory contents.  It returns the status of the call, the ordered log of the
service calls it made, and the device memory contents after the call.  The
services are declared in headers and libraries outside these three files and
are parameters of the embedding.  The logging macro `ROCSOLVER_ENTER_TOP`,
which opens each driver, is left out: it is not one of the services above and
yields no value the driver uses.

Integers (`rocblas_int`, `rocblas_stride`) are `Int` and sizes (`size_t`) are
`Nat`: the drivers pass them on and do no arithmetic on them.

The clients are embedded where they compute: the test data and the shapes of
the no-pivot LU tests (testing_getf2_getrf_npvt.hpp), the parameters of the
sygvd/hegvd test suite (sygvd_hegvd_gtest.cpp) and the hipGraph sample
(example_graph.c).  There the 32-bit arithmetic of `rocblas_int` is written out
with `rocblas_int_wrap` wherever a product or a sum of sizes is formed.
-/

namespace RocSolver

/-! ## Data model -/

/-- The `rocblas_status` enumeration of rocBLAS (all fourteen values). -/
inductive rocblas_status where
  | rocblas_status_success
  | rocblas_status_invalid_handle
  | rocblas_status_not_implemented
  | rocblas_status_invalid_pointer
  | rocblas_status_invalid_size
  | rocblas_status_memory_error
  | rocblas_status_internal_error
  | rocblas_status_perf_degraded
  | rocblas_status_size_query_mismatch
  | rocblas_status_size_increased
  | rocblas_status_size_unchanged
  | rocblas_status_invalid_value
  | rocblas_status_continue
  | rocblas_status_check_numerics_fail
  deriving DecidableEq

open rocblas_status

/-- The `rocblas_fill` enumeration (the `uplo` flag of sytrd/hetrd). -/
inductive rocblas_fill where
  | rocblas_fill_upper
  | rocblas_fill_lower
  | rocblas_fill_full
  deriving DecidableEq

/-- The scalar type `T` a driver template is instantiated with by the C wrappers. -/
inductive ScalarType where
  | float
  | double
  | rocblas_float_complex
  | rocblas_double_complex
  deriving DecidableEq

/-- A caller-supplied data pointer, as an address; `0` is the null pointer. -/
abbrev Ptr := Nat

/-- The null data pointer. -/
def nullptr : Ptr := 0

/-- What a driver observes of a live `rocblas_handle` through the rocBLAS
workspace services: whether a device-memory size query is in progress, the
status `rocblas_set_optimal_device_memory_size` answers for a size list, and
whether `rocblas_device_malloc` can satisfy a size list (`!mem` is its
negation). -/
structure Handle where
  is_device_memory_size_query : Bool
  set_optimal_device_memory_size : List Nat → rocblas_status
  device_malloc : List Nat → Bool

/-- A `rocblas_handle` is a pointer: `none` is the null handle. -/
abbrev rocblas_handle := Option Handle

/-- Arguments of one call of `rocsolver_geblttrf_npvt_template<BATCHED, STRIDED, T>`,
in source order (the handle apart).  Workspace arguments hold the index `k` of
the sub-buffer `mem[k]` they were bound to. -/
structure geblttrf_npvt_template_args where
  BATCHED : Bool
  STRIDED : Bool
  nb : Int
  nblocks : Int
  A : Ptr
  shiftA : Int
  lda : Int
  strideA : Int
  B : Ptr
  shiftB : Int
  ldb : Int
  strideB : Int
  C : Ptr
  shiftC : Int
  ldc : Int
  strideC : Int
  info : Ptr
  batch_count : Int
  scalars : Nat
  work1 : Nat
  work2 : Nat
  work3 : Nat
  work4 : Nat
  pivotval : Nat
  pivotidx : Nat
  iipiv : Nat
  iinfo1 : Nat
  iinfo2 : Nat
  optim_mem : Bool
  deriving DecidableEq

/-- Arguments of one call of `rocsolver_geblttrs_npvt_template<BATCHED, STRIDED, T>`,
in source order (the handle apart). -/
structure geblttrs_npvt_template_args where
  BATCHED : Bool
  STRIDED : Bool
  nb : Int
  nblocks : Int
  nrhs : Int
  A : Ptr
  shiftA : Int
  lda : Int
  strideA : Int
  B : Ptr
  shiftB : Int
  ldb : Int
  strideB : Int
  C : Ptr
  shiftC : Int
  ldc : Int
  strideC : Int
  X : Ptr
  shiftX : Int
  ldx : Int
  strideX : Int
  batch_count : Int
  work1 : Nat
  work2 : Nat
  work3 : Nat
  work4 : Nat
  optim_mem : Bool
  deriving DecidableEq

/-- Arguments of one call of `rocsolver_sytrd_hetrd_template<BATCHED, T>`,
in source order (the handle apart). -/
structure sytrd_hetrd_template_args where
  BATCHED : Bool
  uplo : rocblas_fill
  n : Int
  A : Ptr
  shiftA : Int
  lda : Int
  strideA : Int
  D : Ptr
  strideD : Int
  E : Ptr
  strideE : Int
  tau : Ptr
  strideP : Int
  batch_count : Int
  scalars : Nat
  work : Nat
  norms : Nat
  tmptau_W : Nat
  workArr : Nat
  deriving DecidableEq

/-- One service call made by a driver.  `getMemorySize` records the boolean
template flags and the shape values handed to the planner; the two rocBLAS
workspace calls record the size list in argument order; `init_scalars` records
the sub-buffer index it is given; the last constructor is the kernel of the
no-pivot LU entry point with the arguments of the call. -/
inductive Event where
  | argCheck
  | getMemorySize (flags : List Bool) (shape : List Int)
  | set_optimal_device_memory_size (sizes : List Nat)
  | device_malloc (sizes : List Nat)
  | init_scalars (scalars : Nat)
  | geblttrf_npvt_template (a : geblttrf_npvt_template_args)
  | geblttrs_npvt_template (a : geblttrs_npvt_template_args)
  | sytrd_hetrd_template (a : sytrd_hetrd_template_args)
  | getf2_getrf_npvt_kernel (BATCHED STRIDED GETRF : Bool) (m n : Int) (A : Ptr) (lda stA : Int)
      (info : Ptr) (bc : Int)
  deriving DecidableEq

/-- What a call of a driver produces: the returned status, the ordered log of
service calls, and the device memory contents when the call returns. -/
structure Outcome (σ : Type) where
  status : rocblas_status
  log : List Event
  dev : σ

/-- Output of `rocsolver_geblttrf_npvt_getMemorySize`: the ten sizes it writes
through its pointer arguments, in that order, and the `optim_mem` flag. -/
structure geblttrf_npvt_sizes where
  size_scalars : Nat
  size_work1 : Nat
  size_work2 : Nat
  size_work3 : Nat
  size_work4 : Nat
  size_pivotval : Nat
  size_pivotidx : Nat
  size_iipiv : Nat
  size_iinfo1 : Nat
  size_iinfo2 : Nat
  optim_mem : Bool
  deriving DecidableEq

/-- Output of `rocsolver_geblttrs_npvt_getMemorySize`. -/
structure geblttrs_npvt_sizes where
  size_work1 : Nat
  size_work2 : Nat
  size_work3 : Nat
  size_work4 : Nat
  optim_mem : Bool
  deriving DecidableEq

/-- Output of `rocsolver_sytrd_hetrd_getMemorySize`, in the order of its
pointer arguments. -/
structure sytrd_hetrd_sizes where
  size_scalars : Nat
  size_work : Nat
  size_norms : Nat
  size_tmptau_W : Nat
  size_workArr : Nat
  deriving DecidableEq

/-- The ten sizes of the block-tridiagonal factorization in the order in which
the planner writes them. -/
def geblttrf_npvt_sizes.toList (s : geblttrf_npvt_sizes) : List Nat :=
  [s.size_scalars, s.size_work1, s.size_work2, s.size_work3, s.size_work4, s.size_pivotval,
    s.size_pivotidx, s.size_iipiv, s.size_iinfo1, s.size_iinfo2]

/-- The four sizes of the block-tridiagonal solve in the order in which the
planner writes them. -/
def geblttrs_npvt_sizes.toList (s : geblttrs_npvt_sizes) : List Nat :=
  [s.size_work1, s.size_work2, s.size_work3, s.size_work4]

/-- The five sizes of the tridiagonal reduction in the order in which the
planner writes them. -/
def sytrd_hetrd_sizes.toList (s : sytrd_hetrd_sizes) : List Nat :=
  [s.size_scalars, s.size_work, s.size_norms, s.size_tmptau_W, s.size_workArr]

/-- The helpers declared in roclapack_geblttrf_npvt.hpp, a header whose text is
not available: `rocsolver_geblttrf_npvt_argCheck`,
`rocsolver_geblttrf_npvt_getMemorySize<BATCHED, STRIDED, T>` and
`rocsolver_geblttrf_npvt_template<BATCHED, STRIDED, T>`, and `init_scalars`,
which it includes.  Arguments are in source order; `σ` is the type of device
memory contents, which only `init_scalars` and the kernel template can read or
write. -/
structure geblttrf_npvt_hpp (σ : Type) where
  argCheck : Handle → Int → Int → Int → Int → Int → Ptr → Ptr → Ptr → Ptr → Int → rocblas_status
  getMemorySize : Bool → Bool → ScalarType → Int → Int → Int → geblttrf_npvt_sizes
  init_scalars : ScalarType → Handle → Nat → σ → σ
  template : ScalarType → Handle → geblttrf_npvt_template_args → σ → rocblas_status × σ

/-- The helpers declared in roclapack_geblttrs_npvt.hpp (a header whose text is
not available), arguments in source order. -/
structure geblttrs_npvt_hpp (σ : Type) where
  argCheck : Handle → Int → Int → Int → Int → Int → Int → Int → Ptr → Ptr → Ptr → Ptr → rocblas_status
  getMemorySize : Bool → Bool → ScalarType → Int → Int → Int → Int → geblttrs_npvt_sizes
  template : ScalarType → Handle → geblttrs_npvt_template_args → σ → rocblas_status × σ

/-- The helpers declared in roclapack_sytrd_hetrd.hpp (a header whose text is
not available), and `init_scalars`; arguments in source order. -/
structure sytrd_hetrd_hpp (σ : Type) where
  argCheck : Handle → rocblas_fill → Int → Int → Ptr → Ptr → Ptr → Ptr → rocblas_status
  getMemorySize : Bool → ScalarType → Int → Int → sytrd_hetrd_sizes
  init_scalars : ScalarType → Handle → Nat → σ → σ
  template : ScalarType → Handle → sytrd_hetrd_template_args → σ → rocblas_status × σ

/-! ## The three drivers -/

/-- Embedding of `rocsolver_geblttrf_npvt_batched_impl<T>`
(roclapack_geblttrf_npvt_batched.cpp, lines 7-86). -/
def rocsolver_geblttrf_npvt_batched_impl {σ : Type} (hpp : geblttrf_npvt_hpp σ) (T : ScalarType)
    (handle : rocblas_handle) (nb nblocks : Int) (A : Ptr) (lda : Int) (B : Ptr) (ldb : Int)
    (C : Ptr) (ldc : Int) (info : Ptr) (batch_count : Int) (dev : σ) : Outcome σ :=
  match handle with
  | none => ⟨rocblas_status_invalid_handle, [], dev⟩
  | some h =>
    -- argument checking
    let st := hpp.argCheck h nb nblocks lda ldb ldc A B C info batch_count
    if st ≠ rocblas_status_continue then ⟨st, [Event.argCheck], dev⟩
    else
      -- working with unshifted arrays
      let shiftA : Int := 0
      let shiftB : Int := 0
      let shiftC : Int := 0
      -- normal execution
      let strideA : Int := 0
      let strideB : Int := 0
      let strideC : Int := 0
      -- memory workspace sizes
      let s := hpp.getMemorySize true false T nb nblocks batch_count
      let planned := [Event.argCheck, Event.getMemorySize [true, false] [nb, nblocks, batch_count]]
      if h.is_device_memory_size_query then
        let sizes := [s.size_scalars, s.size_work1, s.size_work2, s.size_work3, s.size_work4,
                      s.size_pivotval, s.size_pivotidx, s.size_iipiv, s.size_iinfo1, s.size_iinfo2]
        ⟨h.set_optimal_device_memory_size sizes,
          planned ++ [Event.set_optimal_device_memory_size sizes], dev⟩
      else
        -- memory workspace allocation
        let sizes := [s.size_scalars, s.size_work1, s.size_work2, s.size_work3, s.size_work4,
                      s.size_pivotval, s.size_pivotidx, s.size_iipiv, s.size_iinfo1, s.size_iinfo2]
        if !h.device_malloc sizes then
          ⟨rocblas_status_memory_error, planned ++ [Event.device_malloc sizes], dev⟩
        else
          let scalars := 0
          let work1 := 1
          let work2 := 2
          let work3 := 3
          let work4 := 4
          let pivotval := 5
          let pivotidx := 6
          let iipiv := 7
          let iinfo1 := 8
          let iinfo2 := 9
          let init := if s.size_scalars > 0 then [Event.init_scalars scalars] else []
          let dev1 := if s.size_scalars > 0 then hpp.init_scalars T h scalars dev else dev
          -- execution
          let a : geblttrf_npvt_template_args :=
            ⟨true, false, nb, nblocks, A, shiftA, lda, strideA, B, shiftB, ldb, strideB, C, shiftC,
              ldc, strideC, info, batch_count, scalars, work1, work2, work3, work4, pivotval,
              pivotidx, iipiv, iinfo1, iinfo2, s.optim_mem⟩
          let r := hpp.template T h a dev1
          ⟨r.1, planned ++ [Event.device_malloc sizes] ++ init ++ [Event.geblttrf_npvt_template a], r.2⟩

/-- Embedding of `rocsolver_geblttrs_npvt_impl<T>`
(roclapack_geblttrs_npvt.cpp, lines 7-74). -/
def rocsolver_geblttrs_npvt_impl {σ : Type} (hpp : geblttrs_npvt_hpp σ) (T : ScalarType)
    (handle : rocblas_handle) (nb nblocks nrhs : Int) (A : Ptr) (lda : Int) (B : Ptr) (ldb : Int)
    (C : Ptr) (ldc : Int) (X : Ptr) (ldx : Int) (dev : σ) : Outcome σ :=
  match handle with
  | none => ⟨rocblas_status_invalid_handle, [], dev⟩
  | some h =>
    -- argument checking
    let st := hpp.argCheck h nb nblocks nrhs lda ldb ldc ldx A B C X
    if st ≠ rocblas_status_continue then ⟨st, [Event.argCheck], dev⟩
    else
      -- working with unshifted arrays
      let shiftA : Int := 0
      let shiftB : Int := 0
      let shiftC : Int := 0
      let shiftX : Int := 0
      -- normal execution
      let strideA : Int := 0
      let strideB : Int := 0
      let strideC : Int := 0
      let strideX : Int := 0
      let batch_count : Int := 1
      -- memory workspace sizes
      let s := hpp.getMemorySize false false T nb nblocks nrhs batch_count
      let planned :=
        [Event.argCheck, Event.getMemorySize [false, false] [nb, nblocks, nrhs, batch_count]]
      if h.is_device_memory_size_query then
        let sizes := [s.size_work1, s.size_work2, s.size_work3, s.size_work4]
        ⟨h.set_optimal_device_memory_size sizes,
          planned ++ [Event.set_optimal_device_memory_size sizes], dev⟩
      else
        -- memory workspace allocation
        let sizes := [s.size_work1, s.size_work2, s.size_work3, s.size_work4]
        if !h.device_malloc sizes then
          ⟨rocblas_status_memory_error, planned ++ [Event.device_malloc sizes], dev⟩
        else
          let work1 := 0
          let work2 := 1
          let work3 := 2
          let work4 := 3
          -- execution
          let a : geblttrs_npvt_template_args :=
            ⟨false, false, nb, nblocks, nrhs, A, shiftA, lda, strideA, B, shiftB, ldb, strideB, C,
              shiftC, ldc, strideC, X, shiftX, ldx, strideX, batch_count, work1, work2, work3,
              work4, s.optim_mem⟩
          let r := hpp.template T h a dev
          ⟨r.1, planned ++ [Event.device_malloc sizes] ++ [Event.geblttrs_npvt_template a], r.2⟩

/-- Embedding of `rocsolver_sytrd_hetrd_impl<T>`
(roclapack_sytrd_hetrd.cpp, lines 7-73). -/
def rocsolver_sytrd_hetrd_impl {σ : Type} (hpp : sytrd_hetrd_hpp σ) (T : ScalarType)
    (handle : rocblas_handle) (uplo : rocblas_fill) (n : Int) (A : Ptr) (lda : Int)
    (D E tau : Ptr) (dev : σ) : Outcome σ :=
  let BATCHED := false
  match handle with
  | none => ⟨rocblas_status_invalid_handle, [], dev⟩
  | some h =>
    -- argument checking
    let st := hpp.argCheck h uplo n lda A D E tau
    if st ≠ rocblas_status_continue then ⟨st, [Event.argCheck], dev⟩
    else
      -- working with unshifted arrays
      let shiftA : Int := 0
      -- normal (non-batched non-strided) execution
      let strideA : Int := 0
      let strideD : Int := 0
      let strideE : Int := 0
      let strideP : Int := 0
      let batch_count : Int := 1
      -- memory workspace sizes
      let s := hpp.getMemorySize false T n batch_count
      let planned := [Event.argCheck, Event.getMemorySize [false] [n, batch_count]]
      if h.is_device_memory_size_query then
        let sizes := [s.size_scalars, s.size_work, s.size_norms, s.size_tmptau_W, s.size_workArr]
        ⟨h.set_optimal_device_memory_size sizes,
          planned ++ [Event.set_optimal_device_memory_size sizes], dev⟩
      else
        -- memory workspace allocation
        let sizes := [s.size_scalars, s.size_work, s.size_norms, s.size_tmptau_W, s.size_workArr]
        if !h.device_malloc sizes then
          ⟨rocblas_status_memory_error, planned ++ [Event.device_malloc sizes], dev⟩
        else
          let scalars := 0
          let work := 1
          let norms := 2
          let tmptau_W := 3
          let workArr := 4
          let init := if s.size_scalars > 0 then [Event.init_scalars scalars] else []
          let dev1 := if s.size_scalars > 0 then hpp.init_scalars T h scalars dev else dev
          -- execution
          let a : sytrd_hetrd_template_args :=
            ⟨BATCHED, uplo, n, A, shiftA, lda, strideA, D, strideD, E, strideE, tau, strideP,
              batch_count, scalars, work, norms, tmptau_W, workArr⟩
          let r := hpp.template T h a dev1
          ⟨r.1, planned ++ [Event.device_malloc sizes] ++ init ++ [Event.sytrd_hetrd_template a], r.2⟩

/-! ## Reading a log -/

/-- Is the event a call of the argument validator? -/
def Event.isArgCheck : Event → Bool
  | Event.argCheck => true
  | _ => false

/-- Is the event a call of the memory size planner? -/
def Event.isGetMemorySize : Event → Bool
  | Event.getMemorySize _ _ => true
  | _ => false

/-- Is the event a size registration (`rocblas_set_optimal_device_memory_size`)? -/
def Event.isSetOptimal : Event → Bool
  | Event.set_optimal_device_memory_size _ => true
  | _ => false

/-- Is the event an allocation attempt (`rocblas_device_malloc`)? -/
def Event.isDeviceMalloc : Event → Bool
  | Event.device_malloc _ => true
  | _ => false

/-- Is the event a call of `init_scalars`? -/
def Event.isInitScalars : Event → Bool
  | Event.init_scalars _ => true
  | _ => false

/-- Is the event a kernel invocation (any of the kernel templates)? -/
def Event.isKernel : Event → Bool
  | Event.geblttrf_npvt_template _ => true
  | Event.geblttrs_npvt_template _ => true
  | Event.sytrd_hetrd_template _ => true
  | Event.getf2_getrf_npvt_kernel _ _ _ _ _ _ _ _ _ _ => true
  | _ => false

/-- No allocation, no scalar initialisation and no kernel invocation in a log. -/
def no_device_work (log : List Event) : Bool :=
  log.all fun e => !e.isDeviceMalloc && !e.isInitScalars && !e.isKernel

/-- The size lists registered in size-query mode, in call order. -/
def registered_sizes (log : List Event) : List (List Nat) :=
  log.filterMap fun e =>
    match e with
    | Event.set_optimal_device_memory_size sizes => some sizes
    | _ => none

/-- The size lists requested from the allocator, in call order. -/
def malloc_sizes (log : List Event) : List (List Nat) :=
  log.filterMap fun e =>
    match e with
    | Event.device_malloc sizes => some sizes
    | _ => none

/-- Every size list a call requested, by registration or by allocation, in call order. -/
def requested_sizes (log : List Event) : List (List Nat) :=
  log.filterMap fun e =>
    match e with
    | Event.set_optimal_device_memory_size sizes => some sizes
    | Event.device_malloc sizes => some sizes
    | _ => none

/-! ## The no-pivot LU entry point

Of `rocsolver_getf2_getrf_npvt` only the tests (testing_getf2_getrf_npvt.hpp)
are available; the entry point, its validator, planner and kernel are not.
They are modelled from sections 4.1, 4.3, 4.5, 6 and 8 of the specification. -/

/-- Modelled from the spec: the argument validator of the no-pivot LU entry
point, whose source is missing.  Section 4.3: the checks run in the order
dimension legality (negative dimension, leading dimension smaller than the row
count, negative batch count: invalid size), size-derived quick return (a
dimension or the batch count is zero: success), pointer nullity (a required
pointer is null while its size is nonzero: invalid pointer), else continue.
Validation comes first in the state machine of section 4.5, so the first two
checks do not look at the mode.  Sections 4.1 and 8: a size query is called
with null data pointers, so no data pointer is required while the handle is in
size-query mode. -/
def getf2_getrf_npvt_argCheck (h : Handle) (m n lda : Int) (A info : Ptr) (bc : Int) :
    rocblas_status :=
  if m < 0 ∨ n < 0 ∨ lda < m ∨ bc < 0 then rocblas_status_invalid_size
  else if m = 0 ∨ n = 0 ∨ bc = 0 then rocblas_status_success
  else if h.is_device_memory_size_query then rocblas_status_continue
  else if A = nullptr ∨ info = nullptr then rocblas_status_invalid_pointer
  else rocblas_status_continue

/-- Modelled from the spec: the planner, `init_scalars` and kernel of the
no-pivot LU entry point, whose sources are missing.  Section 4.1: the planner
is a function of the variant and the shape and returns a fixed-order list of
sizes and the memory-strategy flag; the kernel acts on the device memory
contents `σ` (matrix buffers and status array). -/
structure getf2_getrf_npvt_services (σ : Type) where
  getMemorySize : Bool → Bool → Bool → Int → Int → Int → List Nat × Bool
  init_scalars : Handle → σ → σ
  kernel : Bool → Bool → Bool → Handle → Int → Int → Ptr → Int → Int → Ptr → Int → Bool → σ → σ

/-- Modelled from the spec: the no-pivot LU entry point
`rocsolver_getf2_getrf_npvt`, whose source is missing (only its tests are
available).  Section 4.3 puts handle validity first; section 4.5 gives the state
machine `validate → (quick-return | size-query | normal)` and, in normal mode,
plan sizes, allocate workspace (section 4.2: a failed allocation is a terminal
memory error), initialise scalars, invoke the kernel, return the aggregate
status, which is success (sections 4.5 and 7). -/
def rocsolver_getf2_getrf_npvt {σ : Type} (svc : getf2_getrf_npvt_services σ)
    (BATCHED STRIDED GETRF : Bool) (handle : rocblas_handle) (m n : Int) (A : Ptr) (lda : Int)
    (stA : Int) (info : Ptr) (bc : Int) (dev : σ) : Outcome σ :=
  match handle with
  | none => ⟨rocblas_status_invalid_handle, [], dev⟩
  | some h =>
    let st := getf2_getrf_npvt_argCheck h m n lda A info bc
    if st ≠ rocblas_status_continue then ⟨st, [Event.argCheck], dev⟩
    else
      let s := svc.getMemorySize BATCHED STRIDED GETRF m n bc
      let planned := [Event.argCheck, Event.getMemorySize [BATCHED, STRIDED, GETRF] [m, n, bc]]
      if h.is_device_memory_size_query then
        ⟨h.set_optimal_device_memory_size s.1,
          planned ++ [Event.set_optimal_device_memory_size s.1], dev⟩
      else
        if !h.device_malloc s.1 then
          ⟨rocblas_status_memory_error, planned ++ [Event.device_malloc s.1], dev⟩
        else
          let dev1 := svc.init_scalars h dev
          let dev2 := svc.kernel BATCHED STRIDED GETRF h m n A lda stA info bc s.2 dev1
          ⟨rocblas_status_success,
            planned ++ [Event.device_malloc s.1, Event.init_scalars 0,
              Event.getf2_getrf_npvt_kernel BATCHED STRIDED GETRF m n A lda stA info bc], dev2⟩

/-- Modelled from the spec: the argument validator of the block-tridiagonal
factorization, `rocsolver_geblttrf_npvt_argCheck`, whose source (in
roclapack_geblttrf_npvt.hpp) is missing; arguments in the order of the call in
roclapack_geblttrf_npvt_batched.cpp line 27.  Section 4.3, applied to the
interface `factor_block_tridiagonal(nb, nblocks, A, lda, B, ldb, C, ldc, info,
batch_count)` of section 6, whose blocks have `nb` rows: dimension legality,
then the size-derived quick return, then pointer nullity, which sections 4.1
and 8 lift in size-query mode. -/
def geblttrf_npvt_argCheck_spec (h : Handle) (nb nblocks lda ldb ldc : Int) (A B C info : Ptr)
    (batch_count : Int) : rocblas_status :=
  if nb < 0 ∨ nblocks < 0 ∨ lda < nb ∨ ldb < nb ∨ ldc < nb ∨ batch_count < 0 then
    rocblas_status_invalid_size
  else if nb = 0 ∨ nblocks = 0 ∨ batch_count = 0 then rocblas_status_success
  else if h.is_device_memory_size_query then rocblas_status_continue
  else if A = nullptr ∨ B = nullptr ∨ C = nullptr ∨ info = nullptr then
    rocblas_status_invalid_pointer
  else rocblas_status_continue

/-- Embedding of `getf2_getrf_npvt_checkBadArgs<STRIDED, GETRF>`
(testing_getf2_getrf_npvt.hpp, lines 15-60): the conjunction of its
`EXPECT_ROCBLAS_STATUS` expectations about the entry point `f` under test, in
source order. -/
def getf2_getrf_npvt_checkBadArgs
    (f : Bool → Bool → rocblas_handle → Int → Int → Ptr → Int → Int → Ptr → Int → rocblas_status)
    (STRIDED GETRF : Bool) (handle : rocblas_handle) (m n : Int) (dA : Ptr) (lda stA : Int)
    (dinfo : Ptr) (bc : Int) : Bool :=
  -- handle
  (f STRIDED GETRF none m n dA lda stA dinfo bc == rocblas_status_invalid_handle)
  -- sizes (only check batch_count if applicable)
  && (!STRIDED
    || f STRIDED GETRF handle m n dA lda stA dinfo (-1) == rocblas_status_invalid_size)
  -- pointers
  && (f STRIDED GETRF handle m n nullptr lda stA dinfo bc == rocblas_status_invalid_pointer)
  && (f STRIDED GETRF handle m n dA lda stA nullptr bc == rocblas_status_invalid_pointer)
  -- quick return with invalid pointers
  && (f STRIDED GETRF handle 0 n nullptr lda stA dinfo bc == rocblas_status_success)
  && (f STRIDED GETRF handle m 0 nullptr lda stA dinfo bc == rocblas_status_success)
  -- quick return with zero batch_count if applicable
  && (!STRIDED || f STRIDED GETRF handle m n dA lda stA dinfo 0 == rocblas_status_success)

/-! ## Sample inputs -/

/-- A handle in normal mode whose allocator satisfies every request. -/
def handle_normal : Handle :=
  ⟨false, fun _ => rocblas_status_size_unchanged, fun _ => true⟩

/-- A handle in normal mode whose allocator fails every request. -/
def handle_no_memory : Handle :=
  ⟨false, fun _ => rocblas_status_size_unchanged, fun _ => false⟩

/-- A handle in size-query mode; registering a size list with a non-zero total
answers `rocblas_status_size_increased`, otherwise `rocblas_status_size_unchanged`. -/
def handle_query : Handle :=
  ⟨true, fun sizes => if sizes.sum > 0 then rocblas_status_size_increased
    else rocblas_status_size_unchanged, fun _ => true⟩

/-- Sample helpers for the block-tridiagonal factorization over a device memory
that is a counter of writes: the validator is the one modelled from the spec,
the planner sizes every buffer from the shape, the kernel answers success. -/
def sample_geblttrf_npvt_hpp : geblttrf_npvt_hpp Nat where
  argCheck := geblttrf_npvt_argCheck_spec
  getMemorySize := fun _ _ _ nb nblocks bc =>
    let k := (nb * nblocks * bc).toNat
    ⟨3, k, k, k, k, k, k, k, k, k, true⟩
  init_scalars := fun _ _ _ d => d + 1
  template := fun _ _ _ d => (rocblas_status_success, d + 1)

/-- Sample helpers for the block-tridiagonal solve: the validator rejects
negative dimensions and accepts everything else. -/
def sample_geblttrs_npvt_hpp : geblttrs_npvt_hpp Nat where
  argCheck := fun _ nb nblocks nrhs _ _ _ _ _ _ _ _ =>
    if nb < 0 ∨ nblocks < 0 ∨ nrhs < 0 then rocblas_status_invalid_size
    else rocblas_status_continue
  getMemorySize := fun _ _ _ nb nblocks nrhs bc =>
    let k := (nb * nblocks * nrhs * bc).toNat
    ⟨k, k, k, k, false⟩
  template := fun _ _ _ d => (rocblas_status_success, d + 1)

/-- Sample helpers for the tridiagonal reduction: the validator rejects a
negative order and accepts everything else. -/
def sample_sytrd_hetrd_hpp : sytrd_hetrd_hpp Nat where
  argCheck := fun _ _ n _ _ _ _ _ =>
    if n < 0 then rocblas_status_invalid_size else rocblas_status_continue
  getMemorySize := fun _ _ n bc =>
    let k := (n * bc).toNat
    ⟨3, k, k, k, 0⟩
  init_scalars := fun _ _ _ d => d + 1
  template := fun _ _ _ d => (rocblas_status_success, d + 1)

/-- Sample services for the no-pivot LU entry point. -/
def sample_getf2_getrf_npvt_services : getf2_getrf_npvt_services Nat where
  getMemorySize := fun _ _ _ m n bc => ([3, (m * n * bc).toNat], true)
  init_scalars := fun _ d => d + 1
  kernel := fun _ _ _ _ _ _ _ _ _ _ _ _ d => d + 1

/-- The kernel arguments of the sample block-tridiagonal factorization call
(nb = 2, nblocks = 3, leading dimensions 2, four batch entries, pointers 1). -/
def sample_geblttrf_npvt_args : geblttrf_npvt_template_args :=
  ⟨true, false, 2, 3, 1, 0, 2, 0, 1, 0, 2, 0, 1, 0, 2, 0, 1, 4, 0, 1, 2, 3, 4, 5, 6, 7, 8, 9,
    true⟩

/-- The kernel arguments of the sample block-tridiagonal solve call (nb = 2,
nblocks = 3, nrhs = 2, leading dimensions 2, 2, 2, 6, pointers 1). -/
def sample_geblttrs_npvt_args : geblttrs_npvt_template_args :=
  ⟨false, false, 2, 3, 2, 1, 0, 2, 0, 1, 0, 2, 0, 1, 0, 2, 0, 1, 0, 6, 0, 1, 0, 1, 2, 3, false⟩

/-- The kernel arguments of the sample tridiagonal reduction call (upper, n = 4,
lda = 2, pointers 1). -/
def sample_sytrd_hetrd_args : sytrd_hetrd_template_args :=
  ⟨false, rocblas_fill.rocblas_fill_upper, 4, 1, 0, 2, 0, 1, 0, 1, 0, 1, 0, 1, 0, 1, 2, 3, 4⟩

/-! ## Column-major storage -/

/-- The element index `i + j * lda` of entry (i, j) of a column-major matrix
with leading dimension `lda`, as a natural number.  This is the value
example_graph.c line 27 computes (its `i` and `j` are `size_t`).
testing_getf2_getrf_npvt.hpp lines 125-146 form the expression in `rocblas_int`
(`col_major_index_rocblas_int`), which has this value while lda·n < 2^31. -/
def col_major_index (i j lda : Nat) : Nat := i + j * lda

/-- The number of elements of a matrix buffer, `size_A = size_t(lda) * n`
(testing_getf2_getrf_npvt.hpp line 314, example_graph.c line 66). -/
def size_A (lda n : Nat) : Nat := lda * n

/-- The value a `rocblas_int` (32-bit two's complement) holds for the
mathematical integer `x`. -/
def rocblas_int_wrap (x : Int) : Int := (x + 2 ^ 31) % 2 ^ 32 - 2 ^ 31

/-- The index expression `i + j * lda` evaluated in `rocblas_int` arithmetic, as
in testing_getf2_getrf_npvt.hpp where `i`, `j` and `lda` are `rocblas_int`. -/
def col_major_index_rocblas_int (i j lda : Int) : Int :=
  rocblas_int_wrap (i + rocblas_int_wrap (j * lda))

/-- The array `A[3][3]` of `create_example_matrix` (example_graph.c lines
12-14), row by row; its entries are doubles with integer values. -/
def example_A : List (List Int) :=
  [[12, -51, 4], [6, 167, -68], [-4, 24, -41]]

/-- A store `hA[k] = v` into a heap buffer; cells are `none` until written; the
store has no defined result outside the allocation. -/
def store (hA : List (Option Int)) (k : Nat) (v : Int) : Option (List (Option Int)) :=
  if k < hA.length then some (hA.set k (some v)) else none

/-- Embedding of `create_example_matrix` (example_graph.c lines 8-31): returns
`M_out`, `N_out`, `lda_out` and the buffer `hA`, or `none` if a store falls
outside the `malloc`ed buffer. -/
def create_example_matrix : Option (Nat × Nat × Nat × List (Option Int)) :=
  let M := 3
  let N := 3
  let lda := 3
  -- double *hA = (double*)malloc(sizeof(double)*lda*N);
  let hA0 : List (Option Int) := List.replicate (lda * N) none
  let loops := (List.range M).foldlM (fun hA i =>
    (List.range N).foldlM (fun hA j =>
      -- hA[i + j*lda] = A[i][j];
      store hA (i + j * lda) ((example_A.getD i []).getD j 0)) hA) hA0
  loops.map fun hA => (M, N, lda, hA)

/-! ## Test data of the no-pivot LU tests -/

/-- Embedding of the body of the scaling loops of `getf2_getrf_npvt_initData`
(testing_getf2_getrf_npvt.hpp lines 124-127) on one host buffer `hA[b]`, for a
buffer of fewer than 2^31 elements, where the `rocblas_int` index `i + j * lda`
is the natural number. -/
def getf2_getrf_npvt_initData_scale_entry (lda i j : Nat) (hAb : Nat → ℚ) : Nat → ℚ :=
  if i = j then Function.update hAb (i + j * lda) (hAb (i + j * lda) + 400)
  else Function.update hAb (i + j * lda) (hAb (i + j * lda) - 4)

/-- Embedding of the scaling loops of `getf2_getrf_npvt_initData`
(testing_getf2_getrf_npvt.hpp lines 120-129) on one host buffer `hA[b]`, after
`rocblas_init` has filled it: `for i < m`, `for j < n`, the diagonal entry gets
`+= 400` and every other entry `-= 4`.  The cells are addressed by the natural
number `i + j * lda`, which is what the code computes while lda·n < 2^31; the
stores with their `rocblas_int` indices are
`getf2_getrf_npvt_initData_scale_writes`. -/
def getf2_getrf_npvt_initData_scale (m n lda : Nat) (hAb : Nat → ℚ) : Nat → ℚ :=
  (List.range m).foldl (fun buf i =>
    (List.range n).foldl (fun buf j => getf2_getrf_npvt_initData_scale_entry lda i j buf) buf) hAb

/-- The value the scaling gives to entry (i, j) from its old value. -/
def scaled_value (i j : Nat) (x : ℚ) : ℚ := if i = j then x + 400 else x - 4

/-- Row `i` of the column-major matrix in `buf` is strictly diagonally dominant:
`|A[i][i]| > Σ_{j ≠ i, j < n} |A[i][j]|`. -/
def row_dominant (n lda : Nat) (buf : Nat → ℚ) (i : Nat) : Prop :=
  |buf (col_major_index i i lda)| > ∑ j ∈ (Finset.range n).erase i, |buf (col_major_index i j lda)|

/-- A host buffer as `rocblas_init` can leave it, every value in [1, 10]: the
diagonal entries of a 68×68 matrix with lda = 68 are 1, every other cell is
10. -/
def hA_68 : Nat → ℚ := fun k => if k % 69 = 0 then 1 else 10

/-! ## The factorization kernels

The kernels themselves (`*_template` and what they launch) are not among the
available sources.  The no-pivot LU, the solve call on its factors and the
block-tridiagonal factorization and solve are modelled from section 4.4 of
the specification, over exact rational scalars. -/

/-- A matrix over exact (rational) scalars, by its entries. -/
abbrev Mat := Nat → Nat → ℚ

/-- Modelled from the spec: one step of the no-pivot LU kernel (section 4.4),
whose source is missing.  Step `k` eliminates column `k` of the m×n matrix in
place: the entries below the diagonal are divided by the diagonal entry, unless
it is exactly zero, in which case they are left as they are; the trailing
block is updated with these multipliers and row `k`.  No rows are exchanged. -/
def getf2_npvt_step (m n k : Nat) (A : Mat) : Mat := fun i j =>
  if k < i ∧ i < m then
    if j = k then (if A k k = 0 then A i k else A i k / A k k)
    else if k < j ∧ j < n then
      A i j - (if A k k = 0 then A i k else A i k / A k k) * A k j
    else A i j
  else A i j

/-- Modelled from the spec: the no-pivot LU kernel after its first `k` steps
(section 4.4): the matrix, and the status entry, which records the 1-indexed
number of the first step that met an exactly zero diagonal entry and is never
overwritten afterwards. -/
def getf2_npvt_steps (m n : Nat) (A : Mat) : Nat → Mat × Nat
  | 0 => (A, 0)
  | k + 1 =>
    let st := getf2_npvt_steps m n A k
    (getf2_npvt_step m n k st.1, if st.1 k k = 0 ∧ st.2 = 0 then k + 1 else st.2)

/-- Modelled from the spec: the no-pivot LU kernel (section 4.4), `min(m, n)`
steps on one m×n matrix; returns the factors in place and the status entry. -/
def getf2_npvt (m n : Nat) (A : Mat) : Mat × Nat :=
  getf2_npvt_steps m n A (min m n)

/-- The diagonal entry that step `k` of the elimination meets. -/
def getf2_npvt_pivot (m n : Nat) (A : Mat) (k : Nat) : ℚ :=
  (getf2_npvt_steps m n A k).1 k k

/-- The unit lower triangular factor read from the in-place result `F`. -/
def unit_lower (F : Mat) : Mat := fun i p => if i = p then 1 else if p < i then F i p else 0

/-- The upper triangular factor read from the in-place result `F`. -/
def upper (F : Mat) : Mat := fun p j => if p ≤ j then F p j else 0

/-- The product of an m×r and an r×n matrix. -/
def mat_mul (r : Nat) (X Y : Mat) : Mat := fun i j => ∑ p ∈ Finset.range r, X i p * Y p j

/-- Modelled from the spec: forward substitution with the unit lower triangular
factor stored in `F`, after its first `i` rows (the "solve call" of section
4.4 on the factors of an nb×nb block).  Row `i` of the right-hand sides gets
`R[i] - Σ_{p < i} F[i][p] · Y[p]`. -/
def trsm_lower_unit_steps (F R : Mat) : Nat → Mat
  | 0 => R
  | i + 1 =>
    let Y := trsm_lower_unit_steps F R i
    fun a c => if a = i then Y i c - ∑ p ∈ Finset.range i, F i p * Y p c else Y a c

/-- Modelled from the spec: backward substitution with the upper triangular
factor stored in `F`, after its first `s` rows counted from the bottom row
`nb - 1`.  Row `i` gets `(Y[i] - Σ_{i < p < nb} F[i][p] · X[p]) / F[i][i]`. -/
def trsm_upper_steps (nb : Nat) (F Y : Mat) : Nat → Mat
  | 0 => Y
  | s + 1 =>
    let X := trsm_upper_steps nb F Y s
    let i := nb - 1 - s
    fun a c =>
      if a = i then
        (X i c - ∑ p ∈ Finset.range nb, if i < p then F i p * X p c else 0) / F i i
      else X a c

/-- Modelled from the spec: the solve call on the in-place LU factors `F` of an
nb×nb block: forward substitution with L, then backward substitution with U. -/
def getrs_npvt (nb : Nat) (F R : Mat) : Mat :=
  trsm_upper_steps nb F (trsm_lower_unit_steps F R nb) nb

/-- Modelled from the spec: the elimination of the sub-diagonal coupling of block
row `k` (section 4.4): block `P k` minus the product of the sub-diagonal block
`A (k-1)` with block `Q (k-1)` of the previous block row; block row 0 has no
sub-diagonal block. -/
def eliminate_coupling (nb : Nat) (A P Q : Nat → Mat) (k : Nat) : Mat :=
  if k = 0 then P k else fun i j => P k i j - mat_mul nb (A (k - 1)) (Q (k - 1)) i j

/-- Modelled from the spec: the block-tridiagonal LU kernel `geblttrf_npvt`
(section 4.4), whose source is missing, after its first `k` block steps.  The
system has the diagonal blocks `B k`, the sub-diagonal blocks `A k` (block row
`k + 1`, block column `k`) and the super-diagonal blocks `C k` (block row `k`,
block column `k + 1`), all nb×nb.  Step `k` updates the diagonal block with
the previously computed factor, `B k - A (k-1) · C (k-1)`, factors it in place
by the no-pivot LU, and replaces `C k` by the solution of the solve call on
these factors; it returns the blocks of `B` and `C` and the status entry,
which keeps the 1-indexed position of the first zero pivot. -/
def geblttrf_npvt_steps (nb nblocks : Nat) (A B C : Nat → Mat) :
    Nat → (Nat → Mat) × (Nat → Mat) × Nat
  | 0 => (B, C, 0)
  | k + 1 =>
    let st := geblttrf_npvt_steps nb nblocks A B C k
    let f := getf2_npvt nb nb (eliminate_coupling nb A st.1 st.2.1 k)
    (Function.update st.1 k f.1,
      if k + 1 < nblocks then Function.update st.2.1 k (getrs_npvt nb f.1 (st.2.1 k))
      else st.2.1,
      if st.2.2 = 0 ∧ f.2 ≠ 0 then k * nb + f.2 else st.2.2)

/-- Modelled from the spec: the block-tridiagonal LU kernel `geblttrf_npvt` on one
system: `nblocks` block steps; returns the factored `B`, the factored `C` and
the status entry. -/
def geblttrf_npvt (nb nblocks : Nat) (A B C : Nat → Mat) : (Nat → Mat) × (Nat → Mat) × Nat :=
  geblttrf_npvt_steps nb nblocks A B C nblocks

/-- Modelled from the spec: forward block substitution of `geblttrs_npvt`
(section 4.4) after its first `k` block rows: block `k` of the right-hand side
becomes the solve call on the factors of the diagonal block applied to
`X k - A (k-1) · X (k-1)`. -/
def geblttrs_npvt_forward (nb : Nat) (A Bf : Nat → Mat) (X : Nat → Mat) : Nat → (Nat → Mat)
  | 0 => X
  | k + 1 =>
    let Y := geblttrs_npvt_forward nb A Bf X k
    Function.update Y k (getrs_npvt nb (Bf k) (eliminate_coupling nb A Y Y k))

/-- Modelled from the spec: backward block substitution of `geblttrs_npvt` after
its first `s` block rows counted from block row `nblocks - 2` upwards: block
`k` becomes `X k - C k · X (k+1)`. -/
def geblttrs_npvt_backward (nb nblocks : Nat) (Cf : Nat → Mat) (Y : Nat → Mat) :
    Nat → (Nat → Mat)
  | 0 => Y
  | s + 1 =>
    let X := geblttrs_npvt_backward nb nblocks Cf Y s
    let k := nblocks - 2 - s
    Function.update X k (fun i c => X k i c - mat_mul nb (Cf k) (X (k + 1)) i c)

/-- Modelled from the spec: the block-tridiagonal solve kernel `geblttrs_npvt`
(section 4.4), whose source is missing: forward then backward block
substitution on the factors left by `geblttrf_npvt`; the first `nrhs` columns
of every block of `X` are overwritten, the others are left alone. -/
def geblttrs_npvt (nb nblocks nrhs : Nat) (A Bf Cf : Nat → Mat) (X : Nat → Mat) : Nat → Mat :=
  fun k i c =>
    if c < nrhs then
      geblttrs_npvt_backward nb nblocks Cf (geblttrs_npvt_forward nb A Bf X nblocks)
        (nblocks - 1) k i c
    else X k i c

/-- Block row `k` of the product of the block-tridiagonal matrix (A, B, C) with
the block vector `X`. -/
def block_tridiagonal_mul (nb nblocks : Nat) (A B C : Nat → Mat) (X : Nat → Mat) (k : Nat) :
    Mat := fun i c =>
  (if 0 < k then mat_mul nb (A (k - 1)) (X (k - 1)) i c else 0)
    + mat_mul nb (B k) (X k) i c
    + (if k + 1 < nblocks then mat_mul nb (C k) (X (k + 1)) i c else 0)

/-- The square of the Frobenius norm of the residual `A - B` of two m×n
matrices. -/
def frobenius_residual_sq (m n : Nat) (A B : Mat) : ℚ :=
  ∑ i ∈ Finset.range m, ∑ j ∈ Finset.range n, (A i j - B i j) ^ 2

/-- A sample block-tridiagonal system with 1×1 blocks: every sub-diagonal and
super-diagonal entry is 1, the diagonal entries are 2, 3, 4, ... -/
def sample_blocks_A : Nat → Mat := fun _ _ _ => 1

/-- The diagonal blocks of the sample system. -/
def sample_blocks_B : Nat → Mat := fun k _ _ => (k : ℚ) + 2

/-- The super-diagonal blocks of the sample system. -/
def sample_blocks_C : Nat → Mat := fun _ _ _ => 1

/-- The right-hand side of the sample system. -/
def sample_blocks_X : Nat → Mat := fun k _ _ => (k : ℚ) + 3

/-- A sample 3×3 matrix without zero pivots. -/
def sample_A : Mat := fun i j =>
  (([[2, 1, 1], [4, 3, 3], [8, 7, 9]] : List (List ℚ)).getD i []).getD j 0

/-! ## The sygvd/hegvd test suite -/

/-- The test parameter `sygvd_tuple` (sygvd_hegvd_gtest.cpp line 14): a matrix
size `{n, lda, ldb, singular}` and a type `{itype, evect, uplo}`; a
`printable_char` is a `char`. -/
abbrev sygvd_tuple := List Int × List Char

/-- The vector `type_range` (sygvd_hegvd_gtest.cpp lines 24-26). -/
def type_range : List (List Char) :=
  [['1', 'N', 'U'], ['2', 'N', 'L'], ['3', 'N', 'U'],
   ['1', 'V', 'L'], ['2', 'V', 'U'], ['3', 'V', 'L']]

/-- The vector `matrix_size_range` of the checkin_lapack tests
(sygvd_hegvd_gtest.cpp lines 29-39). -/
def matrix_size_range : List (List Int) :=
  -- quick return
  [[0, 1, 1, 0],
   -- invalid
   [-1, 1, 1, 0],
   [20, 5, 5, 0],
   -- normal (valid) samples
   [20, 30, 20, 1],
   [35, 35, 35, 0],
   [52, 52, 52, 1],
   [50, 50, 60, 1]]

/-- The vector `large_matrix_size_range` of the daily_lapack tests
(sygvd_hegvd_gtest.cpp lines 42-46). -/
def large_matrix_size_range : List (List Int) :=
  [[192, 192, 192, 0],
   [256, 270, 256, 0],
   [300, 300, 310, 0]]

/-- The fields of the test harness class `Arguments` that
sygvd_hegvd_gtest.cpp reads or writes. -/
structure Arguments where
  n : Int
  lda : Int
  ldb : Int
  itype : Char
  evect : Char
  uplo : Char
  timing : Int
  singular : Int
  batch_count : Int
  deriving DecidableEq

/-- Embedding of `sygvd_setup_arguments` (sygvd_hegvd_gtest.cpp lines 48-69).
`arg0` is the default-constructed `Arguments arg;` (the class is declared in a
header of the test harness).  Reading a vector past its end has no defined
result. -/
def sygvd_setup_arguments (arg0 : Arguments) (tup : sygvd_tuple) : Option Arguments := do
  let matrix_size := tup.1
  let type := tup.2
  let arg := arg0
  let arg := { arg with n := ← matrix_size[0]? }
  let arg := { arg with lda := ← matrix_size[1]? }
  let arg := { arg with ldb := ← matrix_size[2]? }
  let arg := { arg with itype := ← type[0]? }
  let arg := { arg with evect := ← type[1]? }
  let arg := { arg with uplo := ← type[2]? }
  -- only testing standard use case/defaults for strides
  let arg := { arg with timing := 0 }
  let arg := { arg with singular := ← matrix_size[3]? }
  return arg

/-- A call of one of the two test functions of testing_sygvd_hegvd.hpp, with its
template arguments. -/
inductive TestCall where
  | testing_sygvd_hegvd_bad_arg (BATCHED STRIDED : Bool) (T : ScalarType)
  | testing_sygvd_hegvd (BATCHED STRIDED : Bool) (T : ScalarType) (arg : Arguments)
  deriving DecidableEq

/-- Embedding of `SYGVD_HEGVD::run_tests` (sygvd_hegvd_gtest.cpp lines 78-93)
for the test parameter `param` that `GetParam()` returns: the test functions it
calls, in order. -/
def run_tests (BATCHED STRIDED : Bool) (T : ScalarType) (arg0 : Arguments) (param : sygvd_tuple) :
    Option (List TestCall) := do
  let arg ← sygvd_setup_arguments arg0 param
  let calls : List TestCall :=
    if arg.itype = '1' && arg.evect = 'N' && arg.uplo = 'U' && arg.n = 0 then
      [TestCall.testing_sygvd_hegvd_bad_arg BATCHED STRIDED T]
    else []
  let arg := { arg with batch_count := if BATCHED || STRIDED then 3 else 1 }
  let calls :=
    if arg.singular = 1 then calls ++ [TestCall.testing_sygvd_hegvd BATCHED STRIDED T arg]
    else calls
  let arg := { arg with singular := 0 }
  return calls ++ [TestCall.testing_sygvd_hegvd BATCHED STRIDED T arg]

/-- The parameter generator `Combine(ValuesIn(sizes), ValuesIn(types))` of
googletest: every pair, the first component varying slowest. -/
def Combine (sizes : List (List Int)) (types : List (List Char)) : List sygvd_tuple :=
  sizes.flatMap fun s => types.map fun t => (s, t)

/-- The parameters of the checkin_lapack instantiations
(sygvd_hegvd_gtest.cpp lines 174-176 and 182-184). -/
def checkin_lapack : List sygvd_tuple := Combine matrix_size_range type_range

/-- The parameters of the daily_lapack instantiations
(sygvd_hegvd_gtest.cpp lines 170-172 and 178-180). -/
def daily_lapack : List sygvd_tuple := Combine large_matrix_size_range type_range

/-- Whether `run_tests` on `param` calls the bad-argument test. -/
def runs_bad_arg (BATCHED STRIDED : Bool) (T : ScalarType) (arg0 : Arguments) (param : sygvd_tuple) :
    Bool :=
  match run_tests BATCHED STRIDED T arg0 param with
  | some calls => calls.contains (TestCall.testing_sygvd_hegvd_bad_arg BATCHED STRIDED T)
  | none => false

/-- A default-constructed `Arguments` for the samples. -/
def sample_Arguments : Arguments :=
  { n := 0, lda := 0, ldb := 0, itype := ' ', evect := ' ', uplo := ' ', timing := 0,
    singular := 0, batch_count := 1 }

/-! ## Shapes of the no-pivot LU tests -/

/-- The values a `rocblas_int` (32-bit two's complement) can hold. -/
def is_rocblas_int (x : Int) : Prop := -2 ^ 31 ≤ x ∧ x < 2 ^ 31

instance (x : Int) : Decidable (is_rocblas_int x) := by
  unfold is_rocblas_int
  infer_instance

/-- The default of `strideA` in `testing_getf2_getrf_npvt`
(testing_getf2_getrf_npvt.hpp line 302): the expression `lda * n` on two
`rocblas_int` operands, converted to the 64-bit `rocblas_stride`, which keeps
its value.  The product is formed in `rocblas_int`; where it leaves the range
the embedding takes the two's complement value. -/
def default_strideA (lda n : Int) : Int := rocblas_int_wrap (lda * n)

/-- The buffer size `size_t size_A = size_t(lda) * n`
(testing_getf2_getrf_npvt.hpp line 314): both operands converted to the 64-bit
unsigned `size_t` and multiplied there. -/
def size_A_size_t (lda n : Int) : Nat :=
  ((lda % 2 ^ 64).toNat * (n % 2 ^ 64).toNat) % 2 ^ 64

/-- The test `invalid_size` of `testing_getf2_getrf_npvt`
(testing_getf2_getrf_npvt.hpp line 321). -/
def invalid_size (m n lda bc : Int) : Bool :=
  decide (m < 0) || decide (n < 0) || decide (lda < m) || decide (bc < 0)

/-! ## Singular test matrices of the no-pivot LU tests

`getf2_getrf_npvt_initData` forms every element index `i + j * lda` and every
column `j` in `rocblas_int`.  It is embedded as the list of the stores it
issues into host memory, in program order, each with the index its expression
evaluates to; whether a store falls inside the buffer of its batch entry is
read off that index. -/

/-- What a store of `getf2_getrf_npvt_initData` does to its cell: `+= 400`
(line 125), `-= 4` (line 127) or `= 0` (lines 138, 142 and 146). -/
inductive HostWriteKind where
  | add_400
  | sub_4
  | set_0
  deriving DecidableEq

/-- A store `hA[b][index]` issued by `getf2_getrf_npvt_initData`: the batch
entry, the element index as its `rocblas_int` expression evaluates, and what
the store does. -/
structure HostWrite where
  b : Nat
  index : Int
  kind : HostWriteKind
  deriving DecidableEq

/-- Embedding of the scaling loops of `getf2_getrf_npvt_initData`
(testing_getf2_getrf_npvt.hpp lines 122-129) for batch entry `b`: the stores
they issue.  The counters `i` and `j` run from 0 while below `m` and `n`. -/
def getf2_getrf_npvt_initData_scale_writes (m n lda : Int) (b : Nat) : List HostWrite :=
  (List.range m.toNat).flatMap fun (i : Nat) => (List.range n.toNat).map fun (j : Nat) =>
    if i = j then ⟨b, col_major_index_rocblas_int (i : Int) (j : Int) lda, HostWriteKind.add_400⟩
    else ⟨b, col_major_index_rocblas_int (i : Int) (j : Int) lda, HostWriteKind.sub_4⟩

/-- The loop `for(i = 0; i < m; i++) hA[b][i + j * lda] = 0;` of
`getf2_getrf_npvt_initData` (lines 137-138, 141-142 and 145-146): the stores it
issues. -/
def getf2_getrf_npvt_initData_zero_column_writes (m lda : Int) (b : Nat) (j : Int) :
    List HostWrite :=
  (List.range m.toNat).map fun (i : Nat) =>
    ⟨b, col_major_index_rocblas_int (i : Int) j lda, HostWriteKind.set_0⟩

/-- The three starting values `n / 4 + b`, `n / 2 + b` and `n - 1 + b` of the
zeroed column, evaluated in `rocblas_int` arithmetic. -/
def getf2_getrf_npvt_initData_starts_rocblas_int (n b : Int) : List Int :=
  [rocblas_int_wrap (rocblas_int_wrap (Int.tdiv n 4) + b),
   rocblas_int_wrap (rocblas_int_wrap (Int.tdiv n 2) + b),
   rocblas_int_wrap (rocblas_int_wrap (n - 1) + b)]

/-- The statements `rocblas_int j = start; j -= (j / n) * n;` evaluated in
`rocblas_int` arithmetic, with the division of C (rounding toward zero). -/
def getf2_getrf_npvt_initData_reduce_rocblas_int (n start : Int) : Int :=
  rocblas_int_wrap (start - rocblas_int_wrap (rocblas_int_wrap (Int.tdiv start n) * n))

/-- The test `b == bc / 4 || b == bc / 2 || b == bc - 1` of
`getf2_getrf_npvt_initData` (line 131), with the division of C.  Inside the loop
`0 ≤ b < bc`, so `bc - 1` does not leave the `rocblas_int` range. -/
def getf2_getrf_npvt_initData_adds_singularities (bc : Int) (b : Nat) : Bool :=
  decide ((b : Int) = Int.tdiv bc 4) || decide ((b : Int) = Int.tdiv bc 2)
    || decide ((b : Int) = bc - 1)

/-- Embedding of the block that adds singularities in
`getf2_getrf_npvt_initData` (testing_getf2_getrf_npvt.hpp lines 131-149) for
batch entry `b`: the stores it issues.  For each of the three starting values
`n / 4 + b`, `n / 2 + b`, `n - 1 + b`, in this order, the column is reduced by
`j -= (j / n) * n` and zeroed. -/
def getf2_getrf_npvt_initData_singular_writes (m n lda bc : Int) (b : Nat) (singular : Bool) :
    List HostWrite :=
  if singular && getf2_getrf_npvt_initData_adds_singularities bc b then
    (getf2_getrf_npvt_initData_starts_rocblas_int n b).flatMap fun start =>
      getf2_getrf_npvt_initData_zero_column_writes m lda b
        (getf2_getrf_npvt_initData_reduce_rocblas_int n start)
  else []

/-- Embedding of the host part of `getf2_getrf_npvt_initData`
(testing_getf2_getrf_npvt.hpp lines 118-150): the stores it issues, in program
order: for every `b` from 0 while below `bc`, the scaling loops, then the block
that adds singularities. -/
def getf2_getrf_npvt_initData_writes (m n lda bc : Int) (singular : Bool) : List HostWrite :=
  (List.range bc.toNat).flatMap fun b =>
    getf2_getrf_npvt_initData_scale_writes m n lda b
      ++ getf2_getrf_npvt_initData_singular_writes m n lda bc b singular

/-- A store falls inside the host buffer of its batch entry, which holds `size`
elements. -/
def HostWrite.in_bounds (size : Nat) (w : HostWrite) : Prop := 0 ≤ w.index ∧ w.index < size

/-! ## The hipGraph sample -/

/-- A call that `main` of example_graph.c makes in its graph section (lines
83-98) or in its clean-up (lines 117-125).  A call made inside the loop carries
the iteration `i` in which it is made.  A call on `exec` carries the value of
`exec` it is given: `none` while `exec` is uninitialised, `some i` for the
executable graph instantiated in iteration `i`. -/
inductive GraphCall where
  | hipStreamBeginCapture (i : Nat)
  | rocsolver_dgeqrf (i : Nat)
  | hipStreamEndCapture (i : Nat)
  | hipGraphInstantiate (i : Nat)
  | hipGraphDestroy (i : Nat)
  | hipGraphLaunch (i : Nat) (exec : Option Nat)
  | free_hIpiv
  | hipFree_dA
  | hipFree_dIpiv
  | free_hA
  | hipGraphExecDestroy (exec : Option Nat)
  | rocblas_destroy_handle
  | hipStreamDestroy
  deriving DecidableEq

/-- The graph management variables of `main` (example_graph.c lines 84-86) and
the calls made so far. -/
structure GraphState where
  graph_ready : Int
  exec : Option Nat
  calls : List GraphCall
  deriving DecidableEq

/-- Embedding of the body of the loop of `main` (example_graph.c lines 89-97)
in iteration `i`.  The return values of the calls are not read by the code. -/
def main_loop_body (st : GraphState) (i : Nat) : GraphState :=
  let st :=
    -- if (!graph_ready)
    if st.graph_ready = 0 then
      { graph_ready := 1,
        exec := some i,
        calls := st.calls ++
          [GraphCall.hipStreamBeginCapture i,
           GraphCall.rocsolver_dgeqrf i,
           GraphCall.hipStreamEndCapture i,
           GraphCall.hipGraphInstantiate i,
           GraphCall.hipGraphDestroy i] }
    else st
  { st with calls := st.calls ++ [GraphCall.hipGraphLaunch i st.exec] }

/-- The loop `for (int i = 0; i < ITER_COUNT; i++)` of `main` (example_graph.c
lines 88-98). -/
def main_loop (ITER_COUNT : Nat) (st : GraphState) : GraphState :=
  (List.range ITER_COUNT).foldl main_loop_body st

/-- The constant `ITER_COUNT` of `main` (example_graph.c line 36). -/
def ITER_COUNT : Nat := 10

/-- Embedding of the graph section (example_graph.c lines 83-98) and of the
clean-up (lines 117-125) of `main`: the calls made, in order.  The statements
in between copy the results back and print them; they make no call on the
graph objects. -/
def example_graph_main (ITER_COUNT : Nat) : List GraphCall :=
  -- rocblas_int graph_ready = 0; hipGraphExec_t exec;
  let st : GraphState := { graph_ready := 0, exec := none, calls := [] }
  let st := main_loop ITER_COUNT st
  -- clean up
  st.calls ++
    [GraphCall.free_hIpiv,
     GraphCall.hipFree_dA,
     GraphCall.hipFree_dIpiv,
     GraphCall.free_hA,
     GraphCall.hipGraphExecDestroy st.exec,
     GraphCall.rocblas_destroy_handle,
     GraphCall.hipStreamDestroy]

/-- A call of the capture block: stream capture, `rocsolver_dgeqrf`, graph
instantiation. -/
def GraphCall.isCapture : GraphCall → Bool
  | hipStreamBeginCapture _ => true
  | rocsolver_dgeqrf _ => true
  | hipStreamEndCapture _ => true
  | hipGraphInstantiate _ => true
  | hipGraphDestroy _ => true
  | _ => false

/-- A launch of the executable graph. -/
def GraphCall.isLaunch : GraphCall → Bool
  | hipGraphLaunch _ _ => true
  | _ => false

/-- A call that uses `exec`: a launch or `hipGraphExecDestroy`. -/
def GraphCall.usesExec : GraphCall → Bool
  | hipGraphLaunch _ _ => true
  | hipGraphExecDestroy _ => true
  | _ => false

/-! ## The paths of the three drivers past the validator -/

/-- Size-query path of the block-tridiagonal factorization driver. -/
theorem geblttrf_npvt_query_path {σ : Type} (hf : geblttrf_npvt_hpp σ) (T : ScalarType)
    (h : Handle) (nb nblocks lda ldb ldc batch_count : Int) (A B C info : Ptr) (dev : σ)
    (hst : hf.argCheck h nb nblocks lda ldb ldc A B C info batch_count = rocblas_status_continue)
    (hq : h.is_device_memory_size_query = true) :
    rocsolver_geblttrf_npvt_batched_impl hf T (some h) nb nblocks A lda B ldb C ldc info
        batch_count dev
      = ⟨h.set_optimal_device_memory_size
            (hf.getMemorySize true false T nb nblocks batch_count).toList,
          [Event.argCheck, Event.getMemorySize [true, false] [nb, nblocks, batch_count],
            Event.set_optimal_device_memory_size
              (hf.getMemorySize true false T nb nblocks batch_count).toList], dev⟩ := by
  simp [rocsolver_geblttrf_npvt_batched_impl, hst, hq, geblttrf_npvt_sizes.toList]

/-- Allocation-failure path of the block-tridiagonal factorization driver. -/
theorem geblttrf_npvt_memory_error_path {σ : Type} (hf : geblttrf_npvt_hpp σ) (T : ScalarType)
    (h : Handle) (nb nblocks lda ldb ldc batch_count : Int) (A B C info : Ptr) (dev : σ)
    (hst : hf.argCheck h nb nblocks lda ldb ldc A B C info batch_count = rocblas_status_continue)
    (hq : h.is_device_memory_size_query = false)
    (hmem : h.device_malloc (hf.getMemorySize true false T nb nblocks batch_count).toList = false) :
    rocsolver_geblttrf_npvt_batched_impl hf T (some h) nb nblocks A lda B ldb C ldc info
        batch_count dev
      = ⟨rocblas_status_memory_error,
          [Event.argCheck, Event.getMemorySize [true, false] [nb, nblocks, batch_count],
            Event.device_malloc (hf.getMemorySize true false T nb nblocks batch_count).toList],
          dev⟩ := by
  simp only [geblttrf_npvt_sizes.toList] at hmem
  simp [rocsolver_geblttrf_npvt_batched_impl, hst, hq, hmem, geblttrf_npvt_sizes.toList]

/-- Execution path of the block-tridiagonal factorization driver: the status and
the final device memory are those of one kernel template call, and the log is
validator, planner, one allocation, `init_scalars` when `size_scalars > 0`,
kernel. -/
theorem geblttrf_npvt_run_path {σ : Type} (hf : geblttrf_npvt_hpp σ) (T : ScalarType)
    (h : Handle) (nb nblocks lda ldb ldc batch_count : Int) (A B C info : Ptr) (dev : σ)
    (hst : hf.argCheck h nb nblocks lda ldb ldc A B C info batch_count = rocblas_status_continue)
    (hq : h.is_device_memory_size_query = false)
    (hmem : h.device_malloc (hf.getMemorySize true false T nb nblocks batch_count).toList = true) :
    ∃ (a : geblttrf_npvt_template_args) (d : σ),
      rocsolver_geblttrf_npvt_batched_impl hf T (some h) nb nblocks A lda B ldb C ldc info
          batch_count dev
        = ⟨(hf.template T h a d).1,
            [Event.argCheck, Event.getMemorySize [true, false] [nb, nblocks, batch_count],
              Event.device_malloc (hf.getMemorySize true false T nb nblocks batch_count).toList]
            ++ (if (hf.getMemorySize true false T nb nblocks batch_count).size_scalars > 0
                then [Event.init_scalars 0] else [])
            ++ [Event.geblttrf_npvt_template a],
            (hf.template T h a d).2⟩ := by
  simp only [geblttrf_npvt_sizes.toList] at hmem
  refine ⟨⟨true, false, nb, nblocks, A, 0, lda, 0, B, 0, ldb, 0, C, 0, ldc, 0, info, batch_count,
      0, 1, 2, 3, 4, 5, 6, 7, 8, 9,
      (hf.getMemorySize true false T nb nblocks batch_count).optim_mem⟩,
    if (hf.getMemorySize true false T nb nblocks batch_count).size_scalars > 0
      then hf.init_scalars T h 0 dev else dev, ?_⟩
  simp [rocsolver_geblttrf_npvt_batched_impl, hst, hq, hmem, geblttrf_npvt_sizes.toList]

/-- Size-query path of the block-tridiagonal solve driver. -/
theorem geblttrs_npvt_query_path {σ : Type} (hs : geblttrs_npvt_hpp σ) (T : ScalarType)
    (h : Handle) (nb nblocks nrhs lda ldb ldc ldx : Int) (A B C X : Ptr) (dev : σ)
    (hst : hs.argCheck h nb nblocks nrhs lda ldb ldc ldx A B C X = rocblas_status_continue)
    (hq : h.is_device_memory_size_query = true) :
    rocsolver_geblttrs_npvt_impl hs T (some h) nb nblocks nrhs A lda B ldb C ldc X ldx dev
      = ⟨h.set_optimal_device_memory_size
            (hs.getMemorySize false false T nb nblocks nrhs 1).toList,
          [Event.argCheck, Event.getMemorySize [false, false] [nb, nblocks, nrhs, 1],
            Event.set_optimal_device_memory_size
              (hs.getMemorySize false false T nb nblocks nrhs 1).toList], dev⟩ := by
  simp [rocsolver_geblttrs_npvt_impl, hst, hq, geblttrs_npvt_sizes.toList]

/-- Allocation-failure path of the block-tridiagonal solve driver. -/
theorem geblttrs_npvt_memory_error_path {σ : Type} (hs : geblttrs_npvt_hpp σ) (T : ScalarType)
    (h : Handle) (nb nblocks nrhs lda ldb ldc ldx : Int) (A B C X : Ptr) (dev : σ)
    (hst : hs.argCheck h nb nblocks nrhs lda ldb ldc ldx A B C X = rocblas_status_continue)
    (hq : h.is_device_memory_size_query = false)
    (hmem : h.device_malloc (hs.getMemorySize false false T nb nblocks nrhs 1).toList = false) :
    rocsolver_geblttrs_npvt_impl hs T (some h) nb nblocks nrhs A lda B ldb C ldc X ldx dev
      = ⟨rocblas_status_memory_error,
          [Event.argCheck, Event.getMemorySize [false, false] [nb, nblocks, nrhs, 1],
            Event.device_malloc (hs.getMemorySize false false T nb nblocks nrhs 1).toList],
          dev⟩ := by
  simp only [geblttrs_npvt_sizes.toList] at hmem
  simp [rocsolver_geblttrs_npvt_impl, hst, hq, hmem, geblttrs_npvt_sizes.toList]

/-- Execution path of the block-tridiagonal solve driver: the status and the
final device memory are those of one kernel template call on the incoming
device memory, and the log is validator, planner, one allocation, kernel. -/
theorem geblttrs_npvt_run_path {σ : Type} (hs : geblttrs_npvt_hpp σ) (T : ScalarType)
    (h : Handle) (nb nblocks nrhs lda ldb ldc ldx : Int) (A B C X : Ptr) (dev : σ)
    (hst : hs.argCheck h nb nblocks nrhs lda ldb ldc ldx A B C X = rocblas_status_continue)
    (hq : h.is_device_memory_size_query = false)
    (hmem : h.device_malloc (hs.getMemorySize false false T nb nblocks nrhs 1).toList = true) :
    ∃ a : geblttrs_npvt_template_args,
      rocsolver_geblttrs_npvt_impl hs T (some h) nb nblocks nrhs A lda B ldb C ldc X ldx dev
        = ⟨(hs.template T h a dev).1,
            [Event.argCheck, Event.getMemorySize [false, false] [nb, nblocks, nrhs, 1],
              Event.device_malloc (hs.getMemorySize false false T nb nblocks nrhs 1).toList,
              Event.geblttrs_npvt_template a],
            (hs.template T h a dev).2⟩ := by
  simp only [geblttrs_npvt_sizes.toList] at hmem
  refine ⟨⟨false, false, nb, nblocks, nrhs, A, 0, lda, 0, B, 0, ldb, 0, C, 0, ldc, 0, X, 0, ldx,
      0, 1, 0, 1, 2, 3, (hs.getMemorySize false false T nb nblocks nrhs 1).optim_mem⟩, ?_⟩
  simp [rocsolver_geblttrs_npvt_impl, hst, hq, hmem, geblttrs_npvt_sizes.toList]

/-- Size-query path of the tridiagonal reduction driver. -/
theorem sytrd_hetrd_query_path {σ : Type} (hy : sytrd_hetrd_hpp σ) (T : ScalarType)
    (h : Handle) (uplo : rocblas_fill) (n lda : Int) (A D E tau : Ptr) (dev : σ)
    (hst : hy.argCheck h uplo n lda A D E tau = rocblas_status_continue)
    (hq : h.is_device_memory_size_query = true) :
    rocsolver_sytrd_hetrd_impl hy T (some h) uplo n A lda D E tau dev
      = ⟨h.set_optimal_device_memory_size (hy.getMemorySize false T n 1).toList,
          [Event.argCheck, Event.getMemorySize [false] [n, 1],
            Event.set_optimal_device_memory_size (hy.getMemorySize false T n 1).toList],
          dev⟩ := by
  simp [rocsolver_sytrd_hetrd_impl, hst, hq, sytrd_hetrd_sizes.toList]

/-- Allocation-failure path of the tridiagonal reduction driver. -/
theorem sytrd_hetrd_memory_error_path {σ : Type} (hy : sytrd_hetrd_hpp σ) (T : ScalarType)
    (h : Handle) (uplo : rocblas_fill) (n lda : Int) (A D E tau : Ptr) (dev : σ)
    (hst : hy.argCheck h uplo n lda A D E tau = rocblas_status_continue)
    (hq : h.is_device_memory_size_query = false)
    (hmem : h.device_malloc (hy.getMemorySize false T n 1).toList = false) :
    rocsolver_sytrd_hetrd_impl hy T (some h) uplo n A lda D E tau dev
      = ⟨rocblas_status_memory_error,
          [Event.argCheck, Event.getMemorySize [false] [n, 1],
            Event.device_malloc (hy.getMemorySize false T n 1).toList],
          dev⟩ := by
  simp only [sytrd_hetrd_sizes.toList] at hmem
  simp [rocsolver_sytrd_hetrd_impl, hst, hq, hmem, sytrd_hetrd_sizes.toList]

/-- Execution path of the tridiagonal reduction driver: the status and the final
device memory are those of one kernel template call, and the log is validator,
planner, one allocation, `init_scalars` when `size_scalars > 0`, kernel. -/
theorem sytrd_hetrd_run_path {σ : Type} (hy : sytrd_hetrd_hpp σ) (T : ScalarType)
    (h : Handle) (uplo : rocblas_fill) (n lda : Int) (A D E tau : Ptr) (dev : σ)
    (hst : hy.argCheck h uplo n lda A D E tau = rocblas_status_continue)
    (hq : h.is_device_memory_size_query = false)
    (hmem : h.device_malloc (hy.getMemorySize false T n 1).toList = true) :
    ∃ (a : sytrd_hetrd_template_args) (d : σ),
      rocsolver_sytrd_hetrd_impl hy T (some h) uplo n A lda D E tau dev
        = ⟨(hy.template T h a d).1,
            [Event.argCheck, Event.getMemorySize [false] [n, 1],
              Event.device_malloc (hy.getMemorySize false T n 1).toList]
            ++ (if (hy.getMemorySize false T n 1).size_scalars > 0
                then [Event.init_scalars 0] else [])
            ++ [Event.sytrd_hetrd_template a],
            (hy.template T h a d).2⟩ := by
  simp only [sytrd_hetrd_sizes.toList] at hmem
  refine ⟨⟨false, uplo, n, A, 0, lda, 0, D, 0, E, 0, tau, 0, 1, 0, 1, 2, 3, 4⟩,
    if (hy.getMemorySize false T n 1).size_scalars > 0
      then hy.init_scalars T h 0 dev else dev, ?_⟩
  simp [rocsolver_sytrd_hetrd_impl, hst, hq, hmem, sytrd_hetrd_sizes.toList]

/-- Past the validator, the block-tridiagonal factorization driver requests exactly one
size list, by registration or by allocation: the planner's sizes in the
planner's order. -/
theorem geblttrf_npvt_requested_sizes {σ : Type} (hf : geblttrf_npvt_hpp σ) (T : ScalarType)
    (h : Handle) (nb nblocks lda ldb ldc batch_count : Int) (A B C info : Ptr) (dev : σ)
    (hst : hf.argCheck h nb nblocks lda ldb ldc A B C info batch_count = rocblas_status_continue) :
    requested_sizes (rocsolver_geblttrf_npvt_batched_impl hf T (some h) nb nblocks A lda B ldb C ldc info
        batch_count dev).log
      = [(hf.getMemorySize true false T nb nblocks batch_count).toList] := by
  cases hq : h.is_device_memory_size_query
  · cases hmem : h.device_malloc (hf.getMemorySize true false T nb nblocks batch_count).toList
    · rw [geblttrf_npvt_memory_error_path hf T h nb nblocks lda ldb ldc batch_count A B C info dev hst hq hmem]
      simp [requested_sizes]
    · obtain ⟨a, d, e⟩ := geblttrf_npvt_run_path hf T h nb nblocks lda ldb ldc batch_count A B C info dev hst hq hmem
      rw [e]
      split_ifs <;> simp [requested_sizes]
  · rw [geblttrf_npvt_query_path hf T h nb nblocks lda ldb ldc batch_count A B C info dev hst hq]
    simp [requested_sizes]

/-- In normal mode, past the validator, the block-tridiagonal factorization driver calls
the allocator exactly once, with the planner's sizes in the planner's order,
and it registers nothing. -/
theorem geblttrf_npvt_malloc_once {σ : Type} (hf : geblttrf_npvt_hpp σ) (T : ScalarType)
    (h : Handle) (nb nblocks lda ldb ldc batch_count : Int) (A B C info : Ptr) (dev : σ)
    (hst : hf.argCheck h nb nblocks lda ldb ldc A B C info batch_count = rocblas_status_continue)
    (hq : h.is_device_memory_size_query = false) :
    malloc_sizes (rocsolver_geblttrf_npvt_batched_impl hf T (some h) nb nblocks A lda B ldb C ldc info
        batch_count dev).log
        = [(hf.getMemorySize true false T nb nblocks batch_count).toList]
      ∧ (rocsolver_geblttrf_npvt_batched_impl hf T (some h) nb nblocks A lda B ldb C ldc info
        batch_count dev).log.countP
          Event.isDeviceMalloc = 1 := by
  cases hmem : h.device_malloc (hf.getMemorySize true false T nb nblocks batch_count).toList
  · rw [geblttrf_npvt_memory_error_path hf T h nb nblocks lda ldb ldc batch_count A B C info dev hst hq hmem]
    simp [malloc_sizes, Event.isDeviceMalloc]
  · obtain ⟨a, d, e⟩ := geblttrf_npvt_run_path hf T h nb nblocks lda ldb ldc batch_count A B C info dev hst hq hmem
    rw [e]
    constructor
    · split_ifs <;> simp [malloc_sizes]
    · split_ifs <;> simp [Event.isDeviceMalloc, List.countP_cons]

/-- Past the validator, the block-tridiagonal solve driver requests exactly one
size list, by registration or by allocation: the planner's sizes in the
planner's order. -/
theorem geblttrs_npvt_requested_sizes {σ : Type} (hs : geblttrs_npvt_hpp σ) (T : ScalarType)
    (h : Handle) (nb nblocks nrhs lda ldb ldc ldx : Int) (A B C X : Ptr) (dev : σ)
    (hst : hs.argCheck h nb nblocks nrhs lda ldb ldc ldx A B C X = rocblas_status_continue) :
    requested_sizes (rocsolver_geblttrs_npvt_impl hs T (some h) nb nblocks nrhs A lda B ldb C ldc X ldx dev).log
      = [(hs.getMemorySize false false T nb nblocks nrhs 1).toList] := by
  cases hq : h.is_device_memory_size_query
  · cases hmem : h.device_malloc (hs.getMemorySize false false T nb nblocks nrhs 1).toList
    · rw [geblttrs_npvt_memory_error_path hs T h nb nblocks nrhs lda ldb ldc ldx A B C X dev hst hq hmem]
      simp [requested_sizes]
    · obtain ⟨a, e⟩ := geblttrs_npvt_run_path hs T h nb nblocks nrhs lda ldb ldc ldx A B C X dev hst hq hmem
      rw [e]
      simp [requested_sizes]
  · rw [geblttrs_npvt_query_path hs T h nb nblocks nrhs lda ldb ldc ldx A B C X dev hst hq]
    simp [requested_sizes]

/-- In normal mode, past the validator, the block-tridiagonal solve driver calls
the allocator exactly once, with the planner's sizes in the planner's order,
and it registers nothing. -/
theorem geblttrs_npvt_malloc_once {σ : Type} (hs : geblttrs_npvt_hpp σ) (T : ScalarType)
    (h : Handle) (nb nblocks nrhs lda ldb ldc ldx : Int) (A B C X : Ptr) (dev : σ)
    (hst : hs.argCheck h nb nblocks nrhs lda ldb ldc ldx A B C X = rocblas_status_continue)
    (hq : h.is_device_memory_size_query = false) :
    malloc_sizes (rocsolver_geblttrs_npvt_impl hs T (some h) nb nblocks nrhs A lda B ldb C ldc X ldx dev).log
        = [(hs.getMemorySize false false T nb nblocks nrhs 1).toList]
      ∧ (rocsolver_geblttrs_npvt_impl hs T (some h) nb nblocks nrhs A lda B ldb C ldc X ldx dev).log.countP
          Event.isDeviceMalloc = 1 := by
  cases hmem : h.device_malloc (hs.getMemorySize false false T nb nblocks nrhs 1).toList
  · rw [geblttrs_npvt_memory_error_path hs T h nb nblocks nrhs lda ldb ldc ldx A B C X dev hst hq hmem]
    simp [malloc_sizes, Event.isDeviceMalloc]
  · obtain ⟨a, e⟩ := geblttrs_npvt_run_path hs T h nb nblocks nrhs lda ldb ldc ldx A B C X dev hst hq hmem
    rw [e]
    constructor
    · simp [malloc_sizes]
    · simp [Event.isDeviceMalloc, List.countP_cons]

/-- Past the validator, the tridiagonal reduction driver requests exactly one
size list, by registration or by allocation: the planner's sizes in the
planner's order. -/
theorem sytrd_hetrd_requested_sizes {σ : Type} (hy : sytrd_hetrd_hpp σ) (T : ScalarType)
    (h : Handle) (uplo : rocblas_fill) (n lda : Int) (A D E tau : Ptr) (dev : σ)
    (hst : hy.argCheck h uplo n lda A D E tau = rocblas_status_continue) :
    requested_sizes (rocsolver_sytrd_hetrd_impl hy T (some h) uplo n A lda D E tau dev).log
      = [(hy.getMemorySize false T n 1).toList] := by
  cases hq : h.is_device_memory_size_query
  · cases hmem : h.device_malloc (hy.getMemorySize false T n 1).toList
    · rw [sytrd_hetrd_memory_error_path hy T h uplo n lda A D E tau dev hst hq hmem]
      simp [requested_sizes]
    · obtain ⟨a, d, e⟩ := sytrd_hetrd_run_path hy T h uplo n lda A D E tau dev hst hq hmem
      rw [e]
      split_ifs <;> simp [requested_sizes]
  · rw [sytrd_hetrd_query_path hy T h uplo n lda A D E tau dev hst hq]
    simp [requested_sizes]

/-- In normal mode, past the validator, the tridiagonal reduction driver calls
the allocator exactly once, with the planner's sizes in the planner's order,
and it registers nothing. -/
theorem sytrd_hetrd_malloc_once {σ : Type} (hy : sytrd_hetrd_hpp σ) (T : ScalarType)
    (h : Handle) (uplo : rocblas_fill) (n lda : Int) (A D E tau : Ptr) (dev : σ)
    (hst : hy.argCheck h uplo n lda A D E tau = rocblas_status_continue)
    (hq : h.is_device_memory_size_query = false) :
    malloc_sizes (rocsolver_sytrd_hetrd_impl hy T (some h) uplo n A lda D E tau dev).log
        = [(hy.getMemorySize false T n 1).toList]
      ∧ (rocsolver_sytrd_hetrd_impl hy T (some h) uplo n A lda D E tau dev).log.countP
          Event.isDeviceMalloc = 1 := by
  cases hmem : h.device_malloc (hy.getMemorySize false T n 1).toList
  · rw [sytrd_hetrd_memory_error_path hy T h uplo n lda A D E tau dev hst hq hmem]
    simp [malloc_sizes, Event.isDeviceMalloc]
  · obtain ⟨a, d, e⟩ := sytrd_hetrd_run_path hy T h uplo n lda A D E tau dev hst hq hmem
    rw [e]
    constructor
    · split_ifs <;> simp [malloc_sizes]
    · split_ifs <;> simp [Event.isDeviceMalloc, List.countP_cons]

/-! ## Handle and argument errors -/

/-- C1: with a null handle each of the three drivers returns invalid_handle,
whatever the other arguments are (negative dimensions and null data pointers
included; a null handle carries no size-query mode); the log of service calls is
empty, so neither the validator nor the planner, the allocator or the kernel is
invoked, and the device memory is unchanged. -/
theorem null_handle_returns_invalid_handle {σ : Type} (hf : geblttrf_npvt_hpp σ)
    (hs : geblttrs_npvt_hpp σ) (hy : sytrd_hetrd_hpp σ) (T : ScalarType) (uplo : rocblas_fill)
    (nb nblocks nrhs n lda ldb ldc ldx batch_count : Int) (A B C X D E tau info : Ptr) (dev : σ) :
    rocsolver_geblttrf_npvt_batched_impl hf T none nb nblocks A lda B ldb C ldc info batch_count dev
        = ⟨rocblas_status_invalid_handle, [], dev⟩
      ∧ rocsolver_geblttrs_npvt_impl hs T none nb nblocks nrhs A lda B ldb C ldc X ldx dev
        = ⟨rocblas_status_invalid_handle, [], dev⟩
      ∧ rocsolver_sytrd_hetrd_impl hy T none uplo n A lda D E tau dev
        = ⟨rocblas_status_invalid_handle, [], dev⟩ :=
  ⟨rfl, rfl, rfl⟩

/-- C2: with a non-null handle, in size-query mode as well as in normal mode,
whenever the validator returns a status other than continue each of the three
drivers returns exactly that status; the log holds the validator call only (no
workspace sizing, no size registration, no allocation, no scalar initialisation,
no kernel invocation) and the device memory is unchanged. -/
theorem validator_status_short_circuits {σ : Type} (hf : geblttrf_npvt_hpp σ)
    (hs : geblttrs_npvt_hpp σ) (hy : sytrd_hetrd_hpp σ) (T : ScalarType) (h : Handle)
    (uplo : rocblas_fill) (nb nblocks nrhs n lda ldb ldc ldx batch_count : Int)
    (A B C X D E tau info : Ptr) (dev : σ) :
    (hf.argCheck h nb nblocks lda ldb ldc A B C info batch_count ≠ rocblas_status_continue →
        rocsolver_geblttrf_npvt_batched_impl hf T (some h) nb nblocks A lda B ldb C ldc info
            batch_count dev
          = ⟨hf.argCheck h nb nblocks lda ldb ldc A B C info batch_count, [Event.argCheck], dev⟩)
      ∧ (hs.argCheck h nb nblocks nrhs lda ldb ldc ldx A B C X ≠ rocblas_status_continue →
        rocsolver_geblttrs_npvt_impl hs T (some h) nb nblocks nrhs A lda B ldb C ldc X ldx dev
          = ⟨hs.argCheck h nb nblocks nrhs lda ldb ldc ldx A B C X, [Event.argCheck], dev⟩)
      ∧ (hy.argCheck h uplo n lda A D E tau ≠ rocblas_status_continue →
        rocsolver_sytrd_hetrd_impl hy T (some h) uplo n A lda D E tau dev
          = ⟨hy.argCheck h uplo n lda A D E tau, [Event.argCheck], dev⟩) := by
  refine ⟨fun hst => ?_, fun hst => ?_, fun hst => ?_⟩
  · simp only [rocsolver_geblttrf_npvt_batched_impl]
    rw [if_pos hst]
  · simp only [rocsolver_geblttrs_npvt_impl]
    rw [if_pos hst]
  · simp only [rocsolver_sytrd_hetrd_impl]
    rw [if_pos hst]

/-- Witness of C2: size queries with a negative block size (geblttrf and
geblttrs) and a negative order (sytrd/hetrd), which the sample validators
reject with invalid size. -/
theorem validator_status_short_circuits_witness :
    rocsolver_geblttrf_npvt_batched_impl sample_geblttrf_npvt_hpp ScalarType.float
        (some handle_query) (-1) 3 1 2 1 2 1 2 1 4 (0 : Nat)
      = ⟨rocblas_status_invalid_size, [Event.argCheck], 0⟩
    ∧ rocsolver_geblttrs_npvt_impl sample_geblttrs_npvt_hpp ScalarType.float
        (some handle_query) (-1) 3 (-1) 1 2 1 2 1 2 1 6 (0 : Nat)
      = ⟨rocblas_status_invalid_size, [Event.argCheck], 0⟩
    ∧ rocsolver_sytrd_hetrd_impl sample_sytrd_hetrd_hpp ScalarType.float
        (some handle_query) rocblas_fill.rocblas_fill_upper (-1) 1 1 1 1 1 (0 : Nat)
      = ⟨rocblas_status_invalid_size, [Event.argCheck], 0⟩ :=
  have w := validator_status_short_circuits sample_geblttrf_npvt_hpp sample_geblttrs_npvt_hpp
    sample_sytrd_hetrd_hpp ScalarType.float handle_query rocblas_fill.rocblas_fill_upper
    (-1) 3 (-1) (-1) 2 2 2 6 4 1 1 1 1 1 1 1 1 (0 : Nat)
  ⟨w.1 (by decide), w.2.1 (by decide), w.2.2 (by decide)⟩

/-! ## The no-pivot LU entry point: order of the checks -/

/-- The entry point modelled from the specification meets every expectation of
the repository's bad-argument test, called as in
`testing_getf2_getrf_npvt_bad_arg` with the safe arguments m = n = lda = stA =
bc = 1, in every batch mode and both variants, for every handle in normal mode
and whatever the two buffers are. -/
theorem getf2_getrf_npvt_passes_checkBadArgs {σ : Type} (svc : getf2_getrf_npvt_services σ)
    (BATCHED STRIDED GETRF : Bool) (h : Handle) (dA dinfo : Ptr) (dev : σ)
    (hnormal : h.is_device_memory_size_query = false) :
    getf2_getrf_npvt_checkBadArgs
      (fun S G handle m n A lda stA info bc =>
        (rocsolver_getf2_getrf_npvt svc BATCHED S G handle m n A lda stA info bc dev).status)
      STRIDED GETRF (some h) 1 1 dA 1 1 dinfo 1 = true := by
  simp [getf2_getrf_npvt_checkBadArgs, rocsolver_getf2_getrf_npvt, getf2_getrf_npvt_argCheck,
    hnormal]

/-- C3: with a valid handle, in every batch mode and in both variants, a call of
the no-pivot LU entry point with m < 0 or n < 0 or lda < m or batch_count < 0
returns invalid_size, whatever the data pointers are (both may be null) and
whatever the other dimensions are (they may be zero); only the validator runs
and the device memory is unchanged.  Dimension legality is thus decided before
the quick return and before pointer nullity. -/
theorem getf2_getrf_npvt_invalid_size {σ : Type} (svc : getf2_getrf_npvt_services σ)
    (BATCHED STRIDED GETRF : Bool) (h : Handle) (m n lda stA bc : Int) (A info : Ptr) (dev : σ)
    (hbad : m < 0 ∨ n < 0 ∨ lda < m ∨ bc < 0) :
    rocsolver_getf2_getrf_npvt svc BATCHED STRIDED GETRF (some h) m n A lda stA info bc dev
      = ⟨rocblas_status_invalid_size, [Event.argCheck], dev⟩ := by
  simp [rocsolver_getf2_getrf_npvt, getf2_getrf_npvt_argCheck, hbad]

/-- Witness of C3: m = 0, n = 5, lda = 1, batch_count = -1 and both data
pointers null, in normal mode. -/
theorem getf2_getrf_npvt_invalid_size_witness :
    rocsolver_getf2_getrf_npvt sample_getf2_getrf_npvt_services false true true
        (some handle_normal) 0 5 nullptr 1 5 nullptr (-1) (0 : Nat)
      = ⟨rocblas_status_invalid_size, [Event.argCheck], 0⟩ :=
  getf2_getrf_npvt_invalid_size sample_getf2_getrf_npvt_services false true true handle_normal
    0 5 1 5 (-1) nullptr nullptr 0 (by decide)

/-- C4: with a valid handle and legal sizes (0 ≤ m ≤ lda, 0 ≤ n,
0 ≤ batch_count), a call of the no-pivot LU entry point with m = 0 or n = 0 or
batch_count = 0 returns success at once, whatever the data pointers are (A may
be null): only the validator runs, and the device memory (status array and
matrix buffers) is unchanged. -/
theorem getf2_getrf_npvt_quick_return {σ : Type} (svc : getf2_getrf_npvt_services σ)
    (BATCHED STRIDED GETRF : Bool) (h : Handle) (m n lda stA bc : Int) (A info : Ptr) (dev : σ)
    (hm : 0 ≤ m) (hn : 0 ≤ n) (hlda : m ≤ lda) (hbc : 0 ≤ bc)
    (hzero : m = 0 ∨ n = 0 ∨ bc = 0) :
    rocsolver_getf2_getrf_npvt svc BATCHED STRIDED GETRF (some h) m n A lda stA info bc dev
      = ⟨rocblas_status_success, [Event.argCheck], dev⟩ := by
  have hlegal : ¬ (m < 0 ∨ n < 0 ∨ lda < m ∨ bc < 0) := by omega
  simp [rocsolver_getf2_getrf_npvt, getf2_getrf_npvt_argCheck, hlegal, hzero]

/-- Witness of C4: m = 0, n = 5, lda = 1, batch_count = 3, A null. -/
theorem getf2_getrf_npvt_quick_return_witness :
    rocsolver_getf2_getrf_npvt sample_getf2_getrf_npvt_services false true false
        (some handle_normal) 0 5 nullptr 1 5 7 3 (0 : Nat)
      = ⟨rocblas_status_success, [Event.argCheck], 0⟩ :=
  getf2_getrf_npvt_quick_return sample_getf2_getrf_npvt_services false true false handle_normal
    0 5 1 5 3 nullptr 7 0 (by decide) (by decide) (by decide) (by decide) (by decide)

/-- C5: in normal mode, with a valid handle and legal sizes with m > 0, n > 0,
batch_count > 0 and lda ≥ m, a call of the no-pivot LU entry point whose matrix
pointer A is null or whose info pointer is null returns invalid_pointer; only
the validator runs and the device memory is unchanged. -/
theorem getf2_getrf_npvt_invalid_pointer {σ : Type} (svc : getf2_getrf_npvt_services σ)
    (BATCHED STRIDED GETRF : Bool) (h : Handle) (m n lda stA bc : Int) (A info : Ptr) (dev : σ)
    (hnormal : h.is_device_memory_size_query = false)
    (hm : 0 < m) (hn : 0 < n) (hlda : m ≤ lda) (hbc : 0 < bc)
    (hnull : A = nullptr ∨ info = nullptr) :
    rocsolver_getf2_getrf_npvt svc BATCHED STRIDED GETRF (some h) m n A lda stA info bc dev
      = ⟨rocblas_status_invalid_pointer, [Event.argCheck], dev⟩ := by
  have hlegal : ¬ (m < 0 ∨ n < 0 ∨ lda < m ∨ bc < 0) := by omega
  have hnz : ¬ (m = 0 ∨ n = 0 ∨ bc = 0) := by omega
  simp [rocsolver_getf2_getrf_npvt, getf2_getrf_npvt_argCheck, hlegal, hnz, hnormal, hnull]

/-- Witness of C5: a 2×3 matrix with lda = 2, one batch entry, A non-null and
info null. -/
theorem getf2_getrf_npvt_invalid_pointer_witness :
    rocsolver_getf2_getrf_npvt sample_getf2_getrf_npvt_services false false true
        (some handle_normal) 2 3 9 2 6 nullptr 1 (0 : Nat)
      = ⟨rocblas_status_invalid_pointer, [Event.argCheck], 0⟩ :=
  getf2_getrf_npvt_invalid_pointer sample_getf2_getrf_npvt_services false false true
    handle_normal 2 3 2 6 1 9 nullptr 0 rfl (by decide) (by decide) (by decide) (by decide)
    (Or.inr rfl)

/-! ## Workspace sizing -/

/-- C6: for each of the three drivers, take a size-query call (handle `hq`) and a
normal-mode call (handle `hn`) with the same shape parameters, both accepted by
the validator; the data pointers, leading dimensions, uplo flag and device
memory of the two calls may differ.  The ordered size list registered by the
query call is, element for element, the ordered size list the normal call
requests from the allocator (one list each, the planner's sizes), and the query
call performs no allocation, no scalar initialisation and no kernel invocation
and leaves the device memory unchanged. -/
theorem size_query_registers_what_malloc_requests {σ : Type} (hf : geblttrf_npvt_hpp σ)
    (hs : geblttrs_npvt_hpp σ) (hy : sytrd_hetrd_hpp σ) (T : ScalarType) (hq hn : Handle)
    (hquery : hq.is_device_memory_size_query = true)
    (hnormal : hn.is_device_memory_size_query = false)
    (nb nblocks nrhs n batch_count : Int)
    (uplo : rocblas_fill) (lda ldb ldc ldx : Int) (A B C X D E tau info : Ptr) (dev : σ)
    (uplo2 : rocblas_fill) (lda2 ldb2 ldc2 ldx2 : Int) (A2 B2 C2 X2 D2 E2 tau2 info2 : Ptr)
    (dev2 : σ) :
    (hf.argCheck hq nb nblocks lda ldb ldc A B C info batch_count = rocblas_status_continue →
      hf.argCheck hn nb nblocks lda2 ldb2 ldc2 A2 B2 C2 info2 batch_count
        = rocblas_status_continue →
      registered_sizes (rocsolver_geblttrf_npvt_batched_impl hf T (some hq) nb nblocks A lda B ldb
          C ldc info batch_count dev).log
        = malloc_sizes (rocsolver_geblttrf_npvt_batched_impl hf T (some hn) nb nblocks A2 lda2 B2
          ldb2 C2 ldc2 info2 batch_count dev2).log
      ∧ registered_sizes (rocsolver_geblttrf_npvt_batched_impl hf T (some hq) nb nblocks A lda B
          ldb C ldc info batch_count dev).log
        = [(hf.getMemorySize true false T nb nblocks batch_count).toList]
      ∧ no_device_work (rocsolver_geblttrf_npvt_batched_impl hf T (some hq) nb nblocks A lda B
          ldb C ldc info batch_count dev).log = true
      ∧ (rocsolver_geblttrf_npvt_batched_impl hf T (some hq) nb nblocks A lda B ldb C ldc info
          batch_count dev).dev = dev)
    ∧ (hs.argCheck hq nb nblocks nrhs lda ldb ldc ldx A B C X = rocblas_status_continue →
      hs.argCheck hn nb nblocks nrhs lda2 ldb2 ldc2 ldx2 A2 B2 C2 X2 = rocblas_status_continue →
      registered_sizes (rocsolver_geblttrs_npvt_impl hs T (some hq) nb nblocks nrhs A lda B ldb C
          ldc X ldx dev).log
        = malloc_sizes (rocsolver_geblttrs_npvt_impl hs T (some hn) nb nblocks nrhs A2 lda2 B2
          ldb2 C2 ldc2 X2 ldx2 dev2).log
      ∧ registered_sizes (rocsolver_geblttrs_npvt_impl hs T (some hq) nb nblocks nrhs A lda B ldb
          C ldc X ldx dev).log
        = [(hs.getMemorySize false false T nb nblocks nrhs 1).toList]
      ∧ no_device_work (rocsolver_geblttrs_npvt_impl hs T (some hq) nb nblocks nrhs A lda B ldb
          C ldc X ldx dev).log = true
      ∧ (rocsolver_geblttrs_npvt_impl hs T (some hq) nb nblocks nrhs A lda B ldb C ldc X ldx
          dev).dev = dev)
    ∧ (hy.argCheck hq uplo n lda A D E tau = rocblas_status_continue →
      hy.argCheck hn uplo2 n lda2 A2 D2 E2 tau2 = rocblas_status_continue →
      registered_sizes (rocsolver_sytrd_hetrd_impl hy T (some hq) uplo n A lda D E tau dev).log
        = malloc_sizes (rocsolver_sytrd_hetrd_impl hy T (some hn) uplo2 n A2 lda2 D2 E2 tau2
          dev2).log
      ∧ registered_sizes (rocsolver_sytrd_hetrd_impl hy T (some hq) uplo n A lda D E tau dev).log
        = [(hy.getMemorySize false T n 1).toList]
      ∧ no_device_work (rocsolver_sytrd_hetrd_impl hy T (some hq) uplo n A lda D E tau dev).log
        = true
      ∧ (rocsolver_sytrd_hetrd_impl hy T (some hq) uplo n A lda D E tau dev).dev = dev) := by
  refine ⟨fun h1 h2 => ?_, fun h1 h2 => ?_, fun h1 h2 => ?_⟩
  · rw [(geblttrf_npvt_malloc_once hf T hn nb nblocks lda2 ldb2 ldc2 batch_count A2 B2 C2 info2
      dev2 h2 hnormal).1,
      geblttrf_npvt_query_path hf T hq nb nblocks lda ldb ldc batch_count A B C info dev h1 hquery]
    simp [registered_sizes, no_device_work, Event.isDeviceMalloc, Event.isInitScalars,
      Event.isKernel]
  · rw [(geblttrs_npvt_malloc_once hs T hn nb nblocks nrhs lda2 ldb2 ldc2 ldx2 A2 B2 C2 X2
      dev2 h2 hnormal).1,
      geblttrs_npvt_query_path hs T hq nb nblocks nrhs lda ldb ldc ldx A B C X dev h1 hquery]
    simp [registered_sizes, no_device_work, Event.isDeviceMalloc, Event.isInitScalars,
      Event.isKernel]
  · rw [(sytrd_hetrd_malloc_once hy T hn uplo2 n lda2 A2 D2 E2 tau2 dev2 h2 hnormal).1,
      sytrd_hetrd_query_path hy T hq uplo n lda A D E tau dev h1 hquery]
    simp [registered_sizes, no_device_work, Event.isDeviceMalloc, Event.isInitScalars,
      Event.isKernel]

/-- Witness of C6: size queries with null data pointers against normal-mode calls
with non-null pointers, other leading dimensions, the other uplo flag and
another device memory, for nb = 2, nblocks = 3, nrhs = 2, n = 4,
batch_count = 4. -/
theorem size_query_registers_what_malloc_requests_witness :
    registered_sizes (rocsolver_geblttrf_npvt_batched_impl sample_geblttrf_npvt_hpp
        ScalarType.double (some handle_query) 2 3 nullptr 2 nullptr 2 nullptr 2 nullptr 4
        (0 : Nat)).log
      = malloc_sizes (rocsolver_geblttrf_npvt_batched_impl sample_geblttrf_npvt_hpp
        ScalarType.double (some handle_normal) 2 3 1 3 1 4 1 5 1 4 (7 : Nat)).log
    ∧ registered_sizes (rocsolver_geblttrs_npvt_impl sample_geblttrs_npvt_hpp
        ScalarType.double (some handle_query) 2 3 2 nullptr 2 nullptr 2 nullptr 2 nullptr 6
        (0 : Nat)).log
      = malloc_sizes (rocsolver_geblttrs_npvt_impl sample_geblttrs_npvt_hpp
        ScalarType.double (some handle_normal) 2 3 2 1 3 1 4 1 5 1 7 (7 : Nat)).log
    ∧ registered_sizes (rocsolver_sytrd_hetrd_impl sample_sytrd_hetrd_hpp
        ScalarType.double (some handle_query) rocblas_fill.rocblas_fill_upper 4 nullptr 2
        nullptr nullptr nullptr (0 : Nat)).log
      = malloc_sizes (rocsolver_sytrd_hetrd_impl sample_sytrd_hetrd_hpp
        ScalarType.double (some handle_normal) rocblas_fill.rocblas_fill_lower 4 1 3 1 1 1
        (7 : Nat)).log :=
  have w := size_query_registers_what_malloc_requests sample_geblttrf_npvt_hpp
    sample_geblttrs_npvt_hpp sample_sytrd_hetrd_hpp ScalarType.double handle_query handle_normal
    rfl rfl 2 3 2 4 4
    rocblas_fill.rocblas_fill_upper 2 2 2 6 nullptr nullptr nullptr nullptr nullptr nullptr
    nullptr nullptr (0 : Nat)
    rocblas_fill.rocblas_fill_lower 3 4 5 7 1 1 1 1 1 1 1 1 (7 : Nat)
  ⟨(w.1 (by decide) (by decide)).1, (w.2.1 (by decide) (by decide)).1,
    (w.2.2 (by decide) (by decide)).1⟩

/-- C7: in size-query mode, with a valid handle, legal non-zero dimensions and
every data pointer null, the call is not rejected with invalid_pointer: the
validator answers continue, the planner runs, and the call returns the result
of the size registration.  First conjunct: the no-pivot LU entry point; second
and third: the block-tridiagonal factorization driver under the validator
modelled from the spec; last two: the other two drivers, whenever their
validator accepts the call. -/
theorem size_query_accepts_null_pointers {σ : Type} (svc : getf2_getrf_npvt_services σ)
    (hf : geblttrf_npvt_hpp σ) (hs : geblttrs_npvt_hpp σ) (hy : sytrd_hetrd_hpp σ)
    (BATCHED STRIDED GETRF : Bool) (T : ScalarType) (h : Handle)
    (hquery : h.is_device_memory_size_query = true)
    (m n nb nblocks nrhs lda ldb ldc ldx stA batch_count : Int) (uplo : rocblas_fill) (dev : σ) :
    (0 < m → 0 < n → m ≤ lda → 0 < batch_count →
      rocsolver_getf2_getrf_npvt svc BATCHED STRIDED GETRF (some h) m n nullptr lda stA nullptr
          batch_count dev
        = ⟨h.set_optimal_device_memory_size
              (svc.getMemorySize BATCHED STRIDED GETRF m n batch_count).1,
            [Event.argCheck,
              Event.getMemorySize [BATCHED, STRIDED, GETRF] [m, n, batch_count],
              Event.set_optimal_device_memory_size
                (svc.getMemorySize BATCHED STRIDED GETRF m n batch_count).1], dev⟩)
    ∧ (0 < nb → 0 < nblocks → nb ≤ lda → nb ≤ ldb → nb ≤ ldc → 0 < batch_count →
      geblttrf_npvt_argCheck_spec h nb nblocks lda ldb ldc nullptr nullptr nullptr nullptr
          batch_count = rocblas_status_continue)
    ∧ (hf.argCheck = geblttrf_npvt_argCheck_spec →
      0 < nb → 0 < nblocks → nb ≤ lda → nb ≤ ldb → nb ≤ ldc → 0 < batch_count →
      rocsolver_geblttrf_npvt_batched_impl hf T (some h) nb nblocks nullptr lda nullptr ldb
          nullptr ldc nullptr batch_count dev
        = ⟨h.set_optimal_device_memory_size
              (hf.getMemorySize true false T nb nblocks batch_count).toList,
            [Event.argCheck, Event.getMemorySize [true, false] [nb, nblocks, batch_count],
              Event.set_optimal_device_memory_size
                (hf.getMemorySize true false T nb nblocks batch_count).toList], dev⟩)
    ∧ (hs.argCheck h nb nblocks nrhs lda ldb ldc ldx nullptr nullptr nullptr nullptr
          = rocblas_status_continue →
      rocsolver_geblttrs_npvt_impl hs T (some h) nb nblocks nrhs nullptr lda nullptr ldb nullptr
          ldc nullptr ldx dev
        = ⟨h.set_optimal_device_memory_size
              (hs.getMemorySize false false T nb nblocks nrhs 1).toList,
            [Event.argCheck, Event.getMemorySize [false, false] [nb, nblocks, nrhs, 1],
              Event.set_optimal_device_memory_size
                (hs.getMemorySize false false T nb nblocks nrhs 1).toList], dev⟩)
    ∧ (hy.argCheck h uplo n lda nullptr nullptr nullptr nullptr = rocblas_status_continue →
      rocsolver_sytrd_hetrd_impl hy T (some h) uplo n nullptr lda nullptr nullptr nullptr dev
        = ⟨h.set_optimal_device_memory_size (hy.getMemorySize false T n 1).toList,
            [Event.argCheck, Event.getMemorySize [false] [n, 1],
              Event.set_optimal_device_memory_size (hy.getMemorySize false T n 1).toList],
            dev⟩) := by
  have hspec : 0 < nb → 0 < nblocks → nb ≤ lda → nb ≤ ldb → nb ≤ ldc → 0 < batch_count →
      geblttrf_npvt_argCheck_spec h nb nblocks lda ldb ldc nullptr nullptr nullptr nullptr
          batch_count = rocblas_status_continue := by
    intro h1 h2 h3 h4 h5 h6
    have hlegal : ¬ (nb < 0 ∨ nblocks < 0 ∨ lda < nb ∨ ldb < nb ∨ ldc < nb ∨ batch_count < 0) := by
      omega
    have hnz : ¬ (nb = 0 ∨ nblocks = 0 ∨ batch_count = 0) := by omega
    simp [geblttrf_npvt_argCheck_spec, hlegal, hnz, hquery]
  refine ⟨fun h1 h2 h3 h4 => ?_, hspec, fun hv h1 h2 h3 h4 h5 h6 => ?_, fun hst => ?_,
    fun hst => ?_⟩
  · have hlegal : ¬ (m < 0 ∨ n < 0 ∨ lda < m ∨ batch_count < 0) := by omega
    have hnz : ¬ (m = 0 ∨ n = 0 ∨ batch_count = 0) := by omega
    simp [rocsolver_getf2_getrf_npvt, getf2_getrf_npvt_argCheck, hlegal, hnz, hquery]
  · exact geblttrf_npvt_query_path hf T h nb nblocks lda ldb ldc batch_count nullptr nullptr
      nullptr nullptr dev (by rw [hv]; exact hspec h1 h2 h3 h4 h5 h6) hquery
  · exact geblttrs_npvt_query_path hs T h nb nblocks nrhs lda ldb ldc ldx nullptr nullptr
      nullptr nullptr dev hst hquery
  · exact sytrd_hetrd_query_path hy T h uplo n lda nullptr nullptr nullptr nullptr dev hst hquery

/-- Witness of C7: size queries with every data pointer null for a 2×3 LU
problem with lda = 2 and four batch entries, and for a block-tridiagonal
factorization with nb = 2, nblocks = 3, leading dimensions 2 and four batch
entries; both return the registration result, here
rocblas_status_size_increased. -/
theorem size_query_accepts_null_pointers_witness :
    rocsolver_getf2_getrf_npvt sample_getf2_getrf_npvt_services false true true
        (some handle_query) 2 3 nullptr 2 6 nullptr 4 (0 : Nat)
      = ⟨rocblas_status_size_increased,
          [Event.argCheck, Event.getMemorySize [false, true, true] [2, 3, 4],
            Event.set_optimal_device_memory_size [3, 24]], 0⟩
    ∧ rocsolver_geblttrf_npvt_batched_impl sample_geblttrf_npvt_hpp ScalarType.float
        (some handle_query) 2 3 nullptr 2 nullptr 2 nullptr 2 nullptr 4 (0 : Nat)
      = ⟨rocblas_status_size_increased,
          [Event.argCheck, Event.getMemorySize [true, false] [2, 3, 4],
            Event.set_optimal_device_memory_size [3, 24, 24, 24, 24, 24, 24, 24, 24, 24]], 0⟩ :=
  have w := size_query_accepts_null_pointers sample_getf2_getrf_npvt_services
    sample_geblttrf_npvt_hpp sample_geblttrs_npvt_hpp sample_sytrd_hetrd_hpp false true true
    ScalarType.float handle_query rfl 2 3 2 3 2 2 2 2 6 6 4 rocblas_fill.rocblas_fill_upper
    (0 : Nat)
  ⟨w.1 (by decide) (by decide) (by decide) (by decide),
    w.2.2.1 rfl (by decide) (by decide) (by decide) (by decide) (by decide) (by decide)⟩

/-- C8: for each of the three drivers in normal mode, with a valid handle and the
validator answering continue, the log holds exactly one allocation attempt
(for the planner's sizes); and if that allocation fails the driver returns
memory_error, the log ends with that one attempt (no scalar initialisation, no
kernel invocation, no second attempt) and the device memory is unchanged. -/
theorem allocation_attempted_once {σ : Type} (hf : geblttrf_npvt_hpp σ)
    (hs : geblttrs_npvt_hpp σ) (hy : sytrd_hetrd_hpp σ) (T : ScalarType) (h : Handle)
    (hnormal : h.is_device_memory_size_query = false)
    (uplo : rocblas_fill) (nb nblocks nrhs n lda ldb ldc ldx batch_count : Int)
    (A B C X D E tau info : Ptr) (dev : σ) :
    (hf.argCheck h nb nblocks lda ldb ldc A B C info batch_count = rocblas_status_continue →
      (rocsolver_geblttrf_npvt_batched_impl hf T (some h) nb nblocks A lda B ldb C ldc info
          batch_count dev).log.countP Event.isDeviceMalloc = 1
      ∧ malloc_sizes (rocsolver_geblttrf_npvt_batched_impl hf T (some h) nb nblocks A lda B ldb C
          ldc info batch_count dev).log
        = [(hf.getMemorySize true false T nb nblocks batch_count).toList]
      ∧ (h.device_malloc (hf.getMemorySize true false T nb nblocks batch_count).toList = false →
        rocsolver_geblttrf_npvt_batched_impl hf T (some h) nb nblocks A lda B ldb C ldc info
            batch_count dev
          = ⟨rocblas_status_memory_error,
              [Event.argCheck, Event.getMemorySize [true, false] [nb, nblocks, batch_count],
                Event.device_malloc
                  (hf.getMemorySize true false T nb nblocks batch_count).toList], dev⟩))
    ∧ (hs.argCheck h nb nblocks nrhs lda ldb ldc ldx A B C X = rocblas_status_continue →
      (rocsolver_geblttrs_npvt_impl hs T (some h) nb nblocks nrhs A lda B ldb C ldc X ldx
          dev).log.countP Event.isDeviceMalloc = 1
      ∧ malloc_sizes (rocsolver_geblttrs_npvt_impl hs T (some h) nb nblocks nrhs A lda B ldb C
          ldc X ldx dev).log
        = [(hs.getMemorySize false false T nb nblocks nrhs 1).toList]
      ∧ (h.device_malloc (hs.getMemorySize false false T nb nblocks nrhs 1).toList = false →
        rocsolver_geblttrs_npvt_impl hs T (some h) nb nblocks nrhs A lda B ldb C ldc X ldx dev
          = ⟨rocblas_status_memory_error,
              [Event.argCheck, Event.getMemorySize [false, false] [nb, nblocks, nrhs, 1],
                Event.device_malloc
                  (hs.getMemorySize false false T nb nblocks nrhs 1).toList], dev⟩))
    ∧ (hy.argCheck h uplo n lda A D E tau = rocblas_status_continue →
      (rocsolver_sytrd_hetrd_impl hy T (some h) uplo n A lda D E tau dev).log.countP
          Event.isDeviceMalloc = 1
      ∧ malloc_sizes (rocsolver_sytrd_hetrd_impl hy T (some h) uplo n A lda D E tau dev).log
        = [(hy.getMemorySize false T n 1).toList]
      ∧ (h.device_malloc (hy.getMemorySize false T n 1).toList = false →
        rocsolver_sytrd_hetrd_impl hy T (some h) uplo n A lda D E tau dev
          = ⟨rocblas_status_memory_error,
              [Event.argCheck, Event.getMemorySize [false] [n, 1],
                Event.device_malloc (hy.getMemorySize false T n 1).toList], dev⟩)) := by
  refine ⟨fun hst => ⟨?_, ?_, ?_⟩, fun hst => ⟨?_, ?_, ?_⟩, fun hst => ⟨?_, ?_, ?_⟩⟩
  · exact (geblttrf_npvt_malloc_once hf T h nb nblocks lda ldb ldc batch_count A B C info dev
      hst hnormal).2
  · exact (geblttrf_npvt_malloc_once hf T h nb nblocks lda ldb ldc batch_count A B C info dev
      hst hnormal).1
  · exact geblttrf_npvt_memory_error_path hf T h nb nblocks lda ldb ldc batch_count A B C info
      dev hst hnormal
  · exact (geblttrs_npvt_malloc_once hs T h nb nblocks nrhs lda ldb ldc ldx A B C X dev
      hst hnormal).2
  · exact (geblttrs_npvt_malloc_once hs T h nb nblocks nrhs lda ldb ldc ldx A B C X dev
      hst hnormal).1
  · exact geblttrs_npvt_memory_error_path hs T h nb nblocks nrhs lda ldb ldc ldx A B C X dev
      hst hnormal
  · exact (sytrd_hetrd_malloc_once hy T h uplo n lda A D E tau dev hst hnormal).2
  · exact (sytrd_hetrd_malloc_once hy T h uplo n lda A D E tau dev hst hnormal).1
  · exact sytrd_hetrd_memory_error_path hy T h uplo n lda A D E tau dev hst hnormal

/-- Witness of C8: the three drivers on a handle whose allocator fails, for
nb = 2, nblocks = 3, nrhs = 2, n = 4, batch_count = 4. -/
theorem allocation_attempted_once_witness :
    rocsolver_geblttrf_npvt_batched_impl sample_geblttrf_npvt_hpp ScalarType.float
        (some handle_no_memory) 2 3 1 2 1 2 1 2 1 4 (0 : Nat)
      = ⟨rocblas_status_memory_error,
          [Event.argCheck, Event.getMemorySize [true, false] [2, 3, 4],
            Event.device_malloc [3, 24, 24, 24, 24, 24, 24, 24, 24, 24]], 0⟩
    ∧ rocsolver_geblttrs_npvt_impl sample_geblttrs_npvt_hpp ScalarType.float
        (some handle_no_memory) 2 3 2 1 2 1 2 1 2 1 2 (0 : Nat)
      = ⟨rocblas_status_memory_error,
          [Event.argCheck, Event.getMemorySize [false, false] [2, 3, 2, 1],
            Event.device_malloc [12, 12, 12, 12]], 0⟩
    ∧ rocsolver_sytrd_hetrd_impl sample_sytrd_hetrd_hpp ScalarType.float
        (some handle_no_memory) rocblas_fill.rocblas_fill_lower 4 1 2 1 1 1 (0 : Nat)
      = ⟨rocblas_status_memory_error,
          [Event.argCheck, Event.getMemorySize [false] [4, 1],
            Event.device_malloc [3, 4, 4, 4, 0]], 0⟩ :=
  have w := allocation_attempted_once sample_geblttrf_npvt_hpp sample_geblttrs_npvt_hpp
    sample_sytrd_hetrd_hpp ScalarType.float handle_no_memory rfl
    rocblas_fill.rocblas_fill_lower 2 3 2 4 2 2 2 2 4 1 1 1 1 1 1 1 1 (0 : Nat)
  ⟨(w.1 (by decide)).2.2 rfl, (w.2.1 (by decide)).2.2 rfl, (w.2.2 (by decide)).2.2 rfl⟩

/-- Counterexample to C9 as stated: three calls of the block-tridiagonal
factorization driver with the same scalar type and the same shape (nb = 2,
nblocks = 3, batch_count = 4) on the same handle.  The first has non-null
pointers and leading dimensions 2: the validator answers continue and the
driver requests the planner's list.  The second differs in the data pointer A
alone (null), the third in the leading dimension lda alone (1, less than nb):
the validator rejects each, the driver returns before the planner and requests
nothing. -/
theorem requested_sizes_depend_on_shape_only_counterexample :
    sample_geblttrf_npvt_hpp.argCheck handle_normal 2 3 2 2 2 1 1 1 1 4
        = rocblas_status_continue
      ∧ requested_sizes (rocsolver_geblttrf_npvt_batched_impl sample_geblttrf_npvt_hpp
          ScalarType.double (some handle_normal) 2 3 1 2 1 2 1 2 1 4 (0 : Nat)).log
        = [[3, 24, 24, 24, 24, 24, 24, 24, 24, 24]]
      ∧ sample_geblttrf_npvt_hpp.argCheck handle_normal 2 3 2 2 2 nullptr 1 1 1 4
        = rocblas_status_invalid_pointer
      ∧ requested_sizes (rocsolver_geblttrf_npvt_batched_impl sample_geblttrf_npvt_hpp
          ScalarType.double (some handle_normal) 2 3 nullptr 2 1 2 1 2 1 4 (0 : Nat)).log
        = []
      ∧ sample_geblttrf_npvt_hpp.argCheck handle_normal 2 3 1 2 2 1 1 1 1 4
        = rocblas_status_invalid_size
      ∧ requested_sizes (rocsolver_geblttrf_npvt_batched_impl sample_geblttrf_npvt_hpp
          ScalarType.double (some handle_normal) 2 3 1 1 1 2 1 2 1 4 (0 : Nat)).log
        = [] := by
  decide

/-- C9, amended: for each of the three drivers, two calls that the validator
lets through (it answers continue for both) and that agree on the scalar type
and on the shape, (nb, nblocks, batch_count) for geblttrf_npvt_batched,
(nb, nblocks, nrhs) for geblttrs_npvt, n for sytrd/hetrd, request the same size
lists (one list each, the planner's sizes), whatever the handles (size query or
normal mode, allocation succeeding or not), the data pointers, the leading
dimensions, the uplo flag and the device memory contents of the two calls
are. -/
theorem requested_sizes_depend_on_shape_only {σ : Type} (hf : geblttrf_npvt_hpp σ)
    (hs : geblttrs_npvt_hpp σ) (hy : sytrd_hetrd_hpp σ) (T : ScalarType)
    (nb nblocks nrhs n batch_count : Int)
    (h : Handle) (uplo : rocblas_fill) (lda ldb ldc ldx : Int) (A B C X D E tau info : Ptr)
    (dev : σ)
    (h2 : Handle) (uplo2 : rocblas_fill) (lda2 ldb2 ldc2 ldx2 : Int)
    (A2 B2 C2 X2 D2 E2 tau2 info2 : Ptr) (dev2 : σ) :
    (hf.argCheck h nb nblocks lda ldb ldc A B C info batch_count = rocblas_status_continue →
      hf.argCheck h2 nb nblocks lda2 ldb2 ldc2 A2 B2 C2 info2 batch_count
        = rocblas_status_continue →
      requested_sizes (rocsolver_geblttrf_npvt_batched_impl hf T (some h) nb nblocks A lda B ldb
          C ldc info batch_count dev).log
        = requested_sizes (rocsolver_geblttrf_npvt_batched_impl hf T (some h2) nb nblocks A2 lda2
          B2 ldb2 C2 ldc2 info2 batch_count dev2).log
      ∧ requested_sizes (rocsolver_geblttrf_npvt_batched_impl hf T (some h) nb nblocks A lda B
          ldb C ldc info batch_count dev).log
        = [(hf.getMemorySize true false T nb nblocks batch_count).toList])
    ∧ (hs.argCheck h nb nblocks nrhs lda ldb ldc ldx A B C X = rocblas_status_continue →
      hs.argCheck h2 nb nblocks nrhs lda2 ldb2 ldc2 ldx2 A2 B2 C2 X2 = rocblas_status_continue →
      requested_sizes (rocsolver_geblttrs_npvt_impl hs T (some h) nb nblocks nrhs A lda B ldb C
          ldc X ldx dev).log
        = requested_sizes (rocsolver_geblttrs_npvt_impl hs T (some h2) nb nblocks nrhs A2 lda2 B2
          ldb2 C2 ldc2 X2 ldx2 dev2).log
      ∧ requested_sizes (rocsolver_geblttrs_npvt_impl hs T (some h) nb nblocks nrhs A lda B ldb
          C ldc X ldx dev).log
        = [(hs.getMemorySize false false T nb nblocks nrhs 1).toList])
    ∧ (hy.argCheck h uplo n lda A D E tau = rocblas_status_continue →
      hy.argCheck h2 uplo2 n lda2 A2 D2 E2 tau2 = rocblas_status_continue →
      requested_sizes (rocsolver_sytrd_hetrd_impl hy T (some h) uplo n A lda D E tau dev).log
        = requested_sizes (rocsolver_sytrd_hetrd_impl hy T (some h2) uplo2 n A2 lda2 D2 E2 tau2
          dev2).log
      ∧ requested_sizes (rocsolver_sytrd_hetrd_impl hy T (some h) uplo n A lda D E tau dev).log
        = [(hy.getMemorySize false T n 1).toList]) := by
  refine ⟨fun h1 h3 => ?_, fun h1 h3 => ?_, fun h1 h3 => ?_⟩
  · rw [geblttrf_npvt_requested_sizes hf T h nb nblocks lda ldb ldc batch_count A B C info dev h1,
      geblttrf_npvt_requested_sizes hf T h2 nb nblocks lda2 ldb2 ldc2 batch_count A2 B2 C2 info2
        dev2 h3]
    exact ⟨rfl, rfl⟩
  · rw [geblttrs_npvt_requested_sizes hs T h nb nblocks nrhs lda ldb ldc ldx A B C X dev h1,
      geblttrs_npvt_requested_sizes hs T h2 nb nblocks nrhs lda2 ldb2 ldc2 ldx2 A2 B2 C2 X2
        dev2 h3]
    exact ⟨rfl, rfl⟩
  · rw [sytrd_hetrd_requested_sizes hy T h uplo n lda A D E tau dev h1,
      sytrd_hetrd_requested_sizes hy T h2 uplo2 n lda2 A2 D2 E2 tau2 dev2 h3]
    exact ⟨rfl, rfl⟩

/-- Witness of C9, amended: a normal-mode call with non-null pointers against a size query
with null pointers, other leading dimensions and the other uplo flag, for
nb = 2, nblocks = 3, nrhs = 2, n = 4, batch_count = 4. -/
theorem requested_sizes_depend_on_shape_only_witness :
    requested_sizes (rocsolver_geblttrf_npvt_batched_impl sample_geblttrf_npvt_hpp
        ScalarType.double (some handle_normal) 2 3 1 3 1 4 1 5 1 4 (7 : Nat)).log
      = requested_sizes (rocsolver_geblttrf_npvt_batched_impl sample_geblttrf_npvt_hpp
        ScalarType.double (some handle_query) 2 3 nullptr 2 nullptr 2 nullptr 2 nullptr 4
        (0 : Nat)).log
    ∧ requested_sizes (rocsolver_geblttrs_npvt_impl sample_geblttrs_npvt_hpp
        ScalarType.double (some handle_normal) 2 3 2 1 3 1 4 1 5 1 7 (7 : Nat)).log
      = requested_sizes (rocsolver_geblttrs_npvt_impl sample_geblttrs_npvt_hpp
        ScalarType.double (some handle_query) 2 3 2 nullptr 2 nullptr 2 nullptr 2 nullptr 6
        (0 : Nat)).log
    ∧ requested_sizes (rocsolver_sytrd_hetrd_impl sample_sytrd_hetrd_hpp
        ScalarType.double (some handle_normal) rocblas_fill.rocblas_fill_lower 4 1 3 1 1 1
        (7 : Nat)).log
      = requested_sizes (rocsolver_sytrd_hetrd_impl sample_sytrd_hetrd_hpp
        ScalarType.double (some handle_query) rocblas_fill.rocblas_fill_upper 4 nullptr 2
        nullptr nullptr nullptr (0 : Nat)).log :=
  have w := requested_sizes_depend_on_shape_only sample_geblttrf_npvt_hpp
    sample_geblttrs_npvt_hpp sample_sytrd_hetrd_hpp ScalarType.double 2 3 2 4 4
    handle_normal rocblas_fill.rocblas_fill_lower 3 4 5 7 1 1 1 1 1 1 1 1 (7 : Nat)
    handle_query rocblas_fill.rocblas_fill_upper 2 2 2 6 nullptr nullptr nullptr nullptr nullptr
    nullptr nullptr nullptr (0 : Nat)
  ⟨(w.1 (by decide) (by decide)).1, (w.2.1 (by decide) (by decide)).1,
    (w.2.2 (by decide) (by decide)).1⟩

/-! ## The aggregate status -/

/-- Counterexample to C10 as stated: the handle is non-null and the validator
answers continue (so neither invalid_size nor invalid_pointer), yet the
block-tridiagonal solve driver returns memory_error when the allocation fails,
and rocblas_status_size_increased, the registration result, in a size query;
neither is success. -/
theorem status_success_unless_argument_error_counterexample :
    sample_geblttrs_npvt_hpp.argCheck handle_no_memory 2 3 2 2 2 2 6 1 1 1 1
        = rocblas_status_continue
      ∧ (rocsolver_geblttrs_npvt_impl sample_geblttrs_npvt_hpp ScalarType.double
          (some handle_no_memory) 2 3 2 1 2 1 2 1 2 1 6 (0 : Nat)).status
        = rocblas_status_memory_error
      ∧ sample_geblttrs_npvt_hpp.argCheck handle_query 2 3 2 2 2 2 6 1 1 1 1
        = rocblas_status_continue
      ∧ (rocsolver_geblttrs_npvt_impl sample_geblttrs_npvt_hpp ScalarType.double
          (some handle_query) 2 3 2 1 2 1 2 1 2 1 6 (0 : Nat)).status
        = rocblas_status_size_increased
      ∧ rocblas_status_memory_error ≠ rocblas_status_success
      ∧ rocblas_status_size_increased ≠ rocblas_status_success := by
  decide

/-- C10, amended: for each of the three drivers, (1) the returned status is
success whenever the handle is non-null, the validator answered success (quick
return) or continue, the call is not a size query, the workspace allocation
succeeded and the kernel template returns success; (2) whenever the status
returned by the kernel template does not depend on the device memory contents,
neither does the status returned by the driver, for every handle (null or not)
and all arguments: data such as per-matrix singularities reach the caller
through device memory only. -/
theorem status_success_unless_error {σ : Type} (hf : geblttrf_npvt_hpp σ)
    (hs : geblttrs_npvt_hpp σ) (hy : sytrd_hetrd_hpp σ) (T : ScalarType) (h : Handle)
    (uplo : rocblas_fill) (nb nblocks nrhs n lda ldb ldc ldx batch_count : Int)
    (A B C X D E tau info : Ptr) (dev dev2 : σ) :
    ((hf.argCheck h nb nblocks lda ldb ldc A B C info batch_count = rocblas_status_success
        ∨ hf.argCheck h nb nblocks lda ldb ldc A B C info batch_count = rocblas_status_continue) →
      h.is_device_memory_size_query = false →
      h.device_malloc (hf.getMemorySize true false T nb nblocks batch_count).toList = true →
      (∀ a d, (hf.template T h a d).1 = rocblas_status_success) →
      (rocsolver_geblttrf_npvt_batched_impl hf T (some h) nb nblocks A lda B ldb C ldc info
        batch_count dev).status = rocblas_status_success)
    ∧ ((hs.argCheck h nb nblocks nrhs lda ldb ldc ldx A B C X = rocblas_status_success
        ∨ hs.argCheck h nb nblocks nrhs lda ldb ldc ldx A B C X = rocblas_status_continue) →
      h.is_device_memory_size_query = false →
      h.device_malloc (hs.getMemorySize false false T nb nblocks nrhs 1).toList = true →
      (∀ a d, (hs.template T h a d).1 = rocblas_status_success) →
      (rocsolver_geblttrs_npvt_impl hs T (some h) nb nblocks nrhs A lda B ldb C ldc X ldx
        dev).status = rocblas_status_success)
    ∧ ((hy.argCheck h uplo n lda A D E tau = rocblas_status_success
        ∨ hy.argCheck h uplo n lda A D E tau = rocblas_status_continue) →
      h.is_device_memory_size_query = false →
      h.device_malloc (hy.getMemorySize false T n 1).toList = true →
      (∀ a d, (hy.template T h a d).1 = rocblas_status_success) →
      (rocsolver_sytrd_hetrd_impl hy T (some h) uplo n A lda D E tau dev).status
        = rocblas_status_success)
    ∧ ((∀ k a d1 d2, (hf.template T k a d1).1 = (hf.template T k a d2).1) →
      ∀ handle : rocblas_handle,
        (rocsolver_geblttrf_npvt_batched_impl hf T handle nb nblocks A lda B ldb C ldc info
          batch_count dev).status
        = (rocsolver_geblttrf_npvt_batched_impl hf T handle nb nblocks A lda B ldb C ldc info
          batch_count dev2).status)
    ∧ ((∀ k a d1 d2, (hs.template T k a d1).1 = (hs.template T k a d2).1) →
      ∀ handle : rocblas_handle,
        (rocsolver_geblttrs_npvt_impl hs T handle nb nblocks nrhs A lda B ldb C ldc X ldx
          dev).status
        = (rocsolver_geblttrs_npvt_impl hs T handle nb nblocks nrhs A lda B ldb C ldc X ldx
          dev2).status)
    ∧ ((∀ k a d1 d2, (hy.template T k a d1).1 = (hy.template T k a d2).1) →
      ∀ handle : rocblas_handle,
        (rocsolver_sytrd_hetrd_impl hy T handle uplo n A lda D E tau dev).status
        = (rocsolver_sytrd_hetrd_impl hy T handle uplo n A lda D E tau dev2).status) := by
  refine ⟨fun hst hq hmem hk => ?_, fun hst hq hmem hk => ?_, fun hst hq hmem hk => ?_,
    fun hk handle => ?_, fun hk handle => ?_, fun hk handle => ?_⟩
  · rcases hst with hst | hst
    · simp [rocsolver_geblttrf_npvt_batched_impl, hst]
    · obtain ⟨a, d, e⟩ := geblttrf_npvt_run_path hf T h nb nblocks lda ldb ldc batch_count A B C
        info dev hst hq hmem
      rw [e]
      exact hk a d
  · rcases hst with hst | hst
    · simp [rocsolver_geblttrs_npvt_impl, hst]
    · obtain ⟨a, e⟩ := geblttrs_npvt_run_path hs T h nb nblocks nrhs lda ldb ldc ldx A B C X
        dev hst hq hmem
      rw [e]
      exact hk a dev
  · rcases hst with hst | hst
    · simp [rocsolver_sytrd_hetrd_impl, hst]
    · obtain ⟨a, d, e⟩ := sytrd_hetrd_run_path hy T h uplo n lda A D E tau dev hst hq hmem
      rw [e]
      exact hk a d
  · cases handle with
    | none => rfl
    | some k =>
      simp only [rocsolver_geblttrf_npvt_batched_impl]
      split_ifs <;> first | rfl | exact hk _ _ _ _
  · cases handle with
    | none => rfl
    | some k =>
      simp only [rocsolver_geblttrs_npvt_impl]
      split_ifs <;> first | rfl | exact hk _ _ _ _
  · cases handle with
    | none => rfl
    | some k =>
      simp only [rocsolver_sytrd_hetrd_impl]
      split_ifs <;> first | rfl | exact hk _ _ _ _

/-- Witness of C10 as amended: on a handle in normal mode whose allocator
succeeds, with kernels that return success, the three drivers return success
for nb = 2, nblocks = 3, nrhs = 2, n = 4, batch_count = 4, and the status of
the block-tridiagonal factorization is the same on two device memories. -/
theorem status_success_unless_error_witness :
    (rocsolver_geblttrf_npvt_batched_impl sample_geblttrf_npvt_hpp ScalarType.double
        (some handle_normal) 2 3 1 2 1 2 1 2 1 4 (0 : Nat)).status = rocblas_status_success
    ∧ (rocsolver_geblttrs_npvt_impl sample_geblttrs_npvt_hpp ScalarType.double
        (some handle_normal) 2 3 2 1 2 1 2 1 2 1 6 (0 : Nat)).status = rocblas_status_success
    ∧ (rocsolver_sytrd_hetrd_impl sample_sytrd_hetrd_hpp ScalarType.double
        (some handle_normal) rocblas_fill.rocblas_fill_upper 4 1 2 1 1 1 (0 : Nat)).status
      = rocblas_status_success
    ∧ (rocsolver_geblttrf_npvt_batched_impl sample_geblttrf_npvt_hpp ScalarType.double
        (some handle_normal) 2 3 1 2 1 2 1 2 1 4 (0 : Nat)).status
      = (rocsolver_geblttrf_npvt_batched_impl sample_geblttrf_npvt_hpp ScalarType.double
        (some handle_normal) 2 3 1 2 1 2 1 2 1 4 (5 : Nat)).status :=
  have w := status_success_unless_error sample_geblttrf_npvt_hpp sample_geblttrs_npvt_hpp
    sample_sytrd_hetrd_hpp ScalarType.double handle_normal rocblas_fill.rocblas_fill_upper
    2 3 2 4 2 2 2 6 4 1 1 1 1 1 1 1 1 (0 : Nat) (5 : Nat)
  ⟨w.1 (Or.inr (by decide)) rfl rfl (fun _ _ => rfl),
    w.2.1 (Or.inr (by decide)) rfl rfl (fun _ _ => rfl),
    w.2.2.1 (Or.inr (by decide)) rfl rfl (fun _ _ => rfl),
    w.2.2.2.1 (fun _ _ _ _ => rfl) (some handle_normal)⟩

/-! ## The execution path in full -/

/-- Rejection path of the block-tridiagonal factorization driver: the validator's
status is returned and only the validator ran. -/
theorem geblttrf_npvt_reject_path {σ : Type} (hf : geblttrf_npvt_hpp σ) (T : ScalarType)
    (h : Handle) (nb nblocks lda ldb ldc batch_count : Int) (A B C info : Ptr) (dev : σ)
    (hst : hf.argCheck h nb nblocks lda ldb ldc A B C info batch_count ≠ rocblas_status_continue) :
    rocsolver_geblttrf_npvt_batched_impl hf T (some h) nb nblocks A lda B ldb C ldc info batch_count dev
      = ⟨hf.argCheck h nb nblocks lda ldb ldc A B C info batch_count, [Event.argCheck], dev⟩ := by
  simp only [rocsolver_geblttrf_npvt_batched_impl]
  rw [if_pos hst]

/-- Rejection path of the block-tridiagonal solve driver: the validator's
status is returned and only the validator ran. -/
theorem geblttrs_npvt_reject_path {σ : Type} (hs : geblttrs_npvt_hpp σ) (T : ScalarType)
    (h : Handle) (nb nblocks nrhs lda ldb ldc ldx : Int) (A B C X : Ptr) (dev : σ)
    (hst : hs.argCheck h nb nblocks nrhs lda ldb ldc ldx A B C X ≠ rocblas_status_continue) :
    rocsolver_geblttrs_npvt_impl hs T (some h) nb nblocks nrhs A lda B ldb C ldc X ldx dev
      = ⟨hs.argCheck h nb nblocks nrhs lda ldb ldc ldx A B C X, [Event.argCheck], dev⟩ := by
  simp only [rocsolver_geblttrs_npvt_impl]
  rw [if_pos hst]

/-- Rejection path of the tridiagonal reduction driver: the validator's
status is returned and only the validator ran. -/
theorem sytrd_hetrd_reject_path {σ : Type} (hy : sytrd_hetrd_hpp σ) (T : ScalarType)
    (h : Handle) (uplo : rocblas_fill) (n lda : Int) (A D E tau : Ptr) (dev : σ)
    (hst : hy.argCheck h uplo n lda A D E tau ≠ rocblas_status_continue) :
    rocsolver_sytrd_hetrd_impl hy T (some h) uplo n A lda D E tau dev
      = ⟨hy.argCheck h uplo n lda A D E tau, [Event.argCheck], dev⟩ := by
  simp only [rocsolver_sytrd_hetrd_impl]
  rw [if_pos hst]

/-- Execution path of the block-tridiagonal factorization driver with the kernel
arguments and the device memory handed to the kernel written out. -/
theorem geblttrf_npvt_run_path_args {σ : Type} (hf : geblttrf_npvt_hpp σ) (T : ScalarType)
    (h : Handle) (nb nblocks lda ldb ldc batch_count : Int) (A B C info : Ptr) (dev : σ)
    (hst : hf.argCheck h nb nblocks lda ldb ldc A B C info batch_count = rocblas_status_continue)
    (hq : h.is_device_memory_size_query = false)
    (hmem : h.device_malloc (hf.getMemorySize true false T nb nblocks batch_count).toList = true) :
    ∃ (a : geblttrf_npvt_template_args) (d : σ),
      a = ⟨true, false, nb, nblocks, A, 0, lda, 0, B, 0, ldb, 0, C, 0, ldc, 0, info,
          batch_count, 0, 1, 2, 3, 4, 5, 6, 7, 8, 9,
          (hf.getMemorySize true false T nb nblocks batch_count).optim_mem⟩
      ∧ d = (if (hf.getMemorySize true false T nb nblocks batch_count).size_scalars > 0
          then hf.init_scalars T h 0 dev else dev)
      ∧ rocsolver_geblttrf_npvt_batched_impl hf T (some h) nb nblocks A lda B ldb C ldc info batch_count dev
        = ⟨(hf.template T h a d).1,
            [Event.argCheck, Event.getMemorySize [true, false] [nb, nblocks, batch_count],
              Event.device_malloc (hf.getMemorySize true false T nb nblocks batch_count).toList]
            ++ (if (hf.getMemorySize true false T nb nblocks batch_count).size_scalars > 0
                then [Event.init_scalars 0] else [])
            ++ [Event.geblttrf_npvt_template a],
            (hf.template T h a d).2⟩ := by
  simp only [geblttrf_npvt_sizes.toList] at hmem
  refine ⟨_, _, rfl, rfl, ?_⟩
  simp [rocsolver_geblttrf_npvt_batched_impl, hst, hq, hmem, geblttrf_npvt_sizes.toList]

/-- Every log of the block-tridiagonal factorization driver has one of five shapes:
empty (null handle), validator only, size query, failed allocation, or the full
execution path. -/
theorem geblttrf_npvt_log_cases {σ : Type} (hf : geblttrf_npvt_hpp σ) (T : ScalarType)
    (handle : rocblas_handle) (nb nblocks lda ldb ldc batch_count : Int) (A B C info : Ptr) (dev : σ) :
    (rocsolver_geblttrf_npvt_batched_impl hf T handle nb nblocks A lda B ldb C ldc info batch_count dev).log = []
    ∨ (rocsolver_geblttrf_npvt_batched_impl hf T handle nb nblocks A lda B ldb C ldc info batch_count dev).log = [Event.argCheck]
    ∨ (rocsolver_geblttrf_npvt_batched_impl hf T handle nb nblocks A lda B ldb C ldc info batch_count dev).log
      = [Event.argCheck, Event.getMemorySize [true, false] [nb, nblocks, batch_count],
          Event.set_optimal_device_memory_size (hf.getMemorySize true false T nb nblocks batch_count).toList]
    ∨ (rocsolver_geblttrf_npvt_batched_impl hf T handle nb nblocks A lda B ldb C ldc info batch_count dev).log
      = [Event.argCheck, Event.getMemorySize [true, false] [nb, nblocks, batch_count],
          Event.device_malloc (hf.getMemorySize true false T nb nblocks batch_count).toList]
    ∨ ∃ h, handle = some h
      ∧ hf.argCheck h nb nblocks lda ldb ldc A B C info batch_count = rocblas_status_continue
      ∧ h.is_device_memory_size_query = false
      ∧ h.device_malloc (hf.getMemorySize true false T nb nblocks batch_count).toList = true
      ∧ (rocsolver_geblttrf_npvt_batched_impl hf T handle nb nblocks A lda B ldb C ldc info batch_count dev).log
        = [Event.argCheck, Event.getMemorySize [true, false] [nb, nblocks, batch_count],
            Event.device_malloc (hf.getMemorySize true false T nb nblocks batch_count).toList]
            ++ (if (hf.getMemorySize true false T nb nblocks batch_count).size_scalars > 0
                then [Event.init_scalars 0] else [])
          ++ [Event.geblttrf_npvt_template
            ⟨true, false, nb, nblocks, A, 0, lda, 0, B, 0, ldb, 0, C, 0, ldc, 0, info,
          batch_count, 0, 1, 2, 3, 4, 5, 6, 7, 8, 9,
          (hf.getMemorySize true false T nb nblocks batch_count).optim_mem⟩] := by
  cases handle with
  | none => exact Or.inl rfl
  | some h =>
    by_cases hst : hf.argCheck h nb nblocks lda ldb ldc A B C info batch_count = rocblas_status_continue
    · cases hq : h.is_device_memory_size_query
      · cases hmem : h.device_malloc (hf.getMemorySize true false T nb nblocks batch_count).toList
        · rw [geblttrf_npvt_memory_error_path hf T h nb nblocks lda ldb ldc batch_count A B C info dev hst hq hmem]
          exact Or.inr (Or.inr (Or.inr (Or.inl rfl)))
        · obtain ⟨a, d, ha, _, e⟩ := geblttrf_npvt_run_path_args hf T h nb nblocks lda ldb ldc batch_count A B C info dev hst hq hmem
          rw [e, ha]
          exact Or.inr (Or.inr (Or.inr (Or.inr ⟨h, rfl, hst, hq, hmem, rfl⟩)))
      · rw [geblttrf_npvt_query_path hf T h nb nblocks lda ldb ldc batch_count A B C info dev hst hq]
        exact Or.inr (Or.inr (Or.inl rfl))
    · rw [geblttrf_npvt_reject_path hf T h nb nblocks lda ldb ldc batch_count A B C info dev hst]
      exact Or.inr (Or.inl rfl)

/-- Execution path of the block-tridiagonal solve driver with the kernel
arguments and the device memory handed to the kernel written out. -/
theorem geblttrs_npvt_run_path_args {σ : Type} (hs : geblttrs_npvt_hpp σ) (T : ScalarType)
    (h : Handle) (nb nblocks nrhs lda ldb ldc ldx : Int) (A B C X : Ptr) (dev : σ)
    (hst : hs.argCheck h nb nblocks nrhs lda ldb ldc ldx A B C X = rocblas_status_continue)
    (hq : h.is_device_memory_size_query = false)
    (hmem : h.device_malloc (hs.getMemorySize false false T nb nblocks nrhs 1).toList = true) :
    ∃ (a : geblttrs_npvt_template_args) (d : σ),
      a = ⟨false, false, nb, nblocks, nrhs, A, 0, lda, 0, B, 0, ldb, 0, C, 0, ldc, 0, X, 0,
          ldx, 0, 1, 0, 1, 2, 3,
          (hs.getMemorySize false false T nb nblocks nrhs 1).optim_mem⟩
      ∧ d = dev
      ∧ rocsolver_geblttrs_npvt_impl hs T (some h) nb nblocks nrhs A lda B ldb C ldc X ldx dev
        = ⟨(hs.template T h a d).1,
            [Event.argCheck, Event.getMemorySize [false, false] [nb, nblocks, nrhs, 1],
              Event.device_malloc (hs.getMemorySize false false T nb nblocks nrhs 1).toList]
            ++ [Event.geblttrs_npvt_template a],
            (hs.template T h a d).2⟩ := by
  simp only [geblttrs_npvt_sizes.toList] at hmem
  refine ⟨_, _, rfl, rfl, ?_⟩
  simp [rocsolver_geblttrs_npvt_impl, hst, hq, hmem, geblttrs_npvt_sizes.toList]

/-- Every log of the block-tridiagonal solve driver has one of five shapes:
empty (null handle), validator only, size query, failed allocation, or the full
execution path. -/
theorem geblttrs_npvt_log_cases {σ : Type} (hs : geblttrs_npvt_hpp σ) (T : ScalarType)
    (handle : rocblas_handle) (nb nblocks nrhs lda ldb ldc ldx : Int) (A B C X : Ptr) (dev : σ) :
    (rocsolver_geblttrs_npvt_impl hs T handle nb nblocks nrhs A lda B ldb C ldc X ldx dev).log = []
    ∨ (rocsolver_geblttrs_npvt_impl hs T handle nb nblocks nrhs A lda B ldb C ldc X ldx dev).log = [Event.argCheck]
    ∨ (rocsolver_geblttrs_npvt_impl hs T handle nb nblocks nrhs A lda B ldb C ldc X ldx dev).log
      = [Event.argCheck, Event.getMemorySize [false, false] [nb, nblocks, nrhs, 1],
          Event.set_optimal_device_memory_size (hs.getMemorySize false false T nb nblocks nrhs 1).toList]
    ∨ (rocsolver_geblttrs_npvt_impl hs T handle nb nblocks nrhs A lda B ldb C ldc X ldx dev).log
      = [Event.argCheck, Event.getMemorySize [false, false] [nb, nblocks, nrhs, 1],
          Event.device_malloc (hs.getMemorySize false false T nb nblocks nrhs 1).toList]
    ∨ ∃ h, handle = some h
      ∧ hs.argCheck h nb nblocks nrhs lda ldb ldc ldx A B C X = rocblas_status_continue
      ∧ h.is_device_memory_size_query = false
      ∧ h.device_malloc (hs.getMemorySize false false T nb nblocks nrhs 1).toList = true
      ∧ (rocsolver_geblttrs_npvt_impl hs T handle nb nblocks nrhs A lda B ldb C ldc X ldx dev).log
        = [Event.argCheck, Event.getMemorySize [false, false] [nb, nblocks, nrhs, 1],
            Event.device_malloc (hs.getMemorySize false false T nb nblocks nrhs 1).toList]
          ++ [Event.geblttrs_npvt_template
            ⟨false, false, nb, nblocks, nrhs, A, 0, lda, 0, B, 0, ldb, 0, C, 0, ldc, 0, X, 0,
          ldx, 0, 1, 0, 1, 2, 3,
          (hs.getMemorySize false false T nb nblocks nrhs 1).optim_mem⟩] := by
  cases handle with
  | none => exact Or.inl rfl
  | some h =>
    by_cases hst : hs.argCheck h nb nblocks nrhs lda ldb ldc ldx A B C X = rocblas_status_continue
    · cases hq : h.is_device_memory_size_query
      · cases hmem : h.device_malloc (hs.getMemorySize false false T nb nblocks nrhs 1).toList
        · rw [geblttrs_npvt_memory_error_path hs T h nb nblocks nrhs lda ldb ldc ldx A B C X dev hst hq hmem]
          exact Or.inr (Or.inr (Or.inr (Or.inl rfl)))
        · obtain ⟨a, d, ha, _, e⟩ := geblttrs_npvt_run_path_args hs T h nb nblocks nrhs lda ldb ldc ldx A B C X dev hst hq hmem
          rw [e, ha]
          exact Or.inr (Or.inr (Or.inr (Or.inr ⟨h, rfl, hst, hq, hmem, rfl⟩)))
      · rw [geblttrs_npvt_query_path hs T h nb nblocks nrhs lda ldb ldc ldx A B C X dev hst hq]
        exact Or.inr (Or.inr (Or.inl rfl))
    · rw [geblttrs_npvt_reject_path hs T h nb nblocks nrhs lda ldb ldc ldx A B C X dev hst]
      exact Or.inr (Or.inl rfl)

/-- Execution path of the tridiagonal reduction driver with the kernel
arguments and the device memory handed to the kernel written out. -/
theorem sytrd_hetrd_run_path_args {σ : Type} (hy : sytrd_hetrd_hpp σ) (T : ScalarType)
    (h : Handle) (uplo : rocblas_fill) (n lda : Int) (A D E tau : Ptr) (dev : σ)
    (hst : hy.argCheck h uplo n lda A D E tau = rocblas_status_continue)
    (hq : h.is_device_memory_size_query = false)
    (hmem : h.device_malloc (hy.getMemorySize false T n 1).toList = true) :
    ∃ (a : sytrd_hetrd_template_args) (d : σ),
      a = ⟨false, uplo, n, A, 0, lda, 0, D, 0, E, 0, tau, 0, 1, 0, 1, 2, 3, 4⟩
      ∧ d = (if (hy.getMemorySize false T n 1).size_scalars > 0
          then hy.init_scalars T h 0 dev else dev)
      ∧ rocsolver_sytrd_hetrd_impl hy T (some h) uplo n A lda D E tau dev
        = ⟨(hy.template T h a d).1,
            [Event.argCheck, Event.getMemorySize [false] [n, 1],
              Event.device_malloc (hy.getMemorySize false T n 1).toList]
            ++ (if (hy.getMemorySize false T n 1).size_scalars > 0
                then [Event.init_scalars 0] else [])
            ++ [Event.sytrd_hetrd_template a],
            (hy.template T h a d).2⟩ := by
  simp only [sytrd_hetrd_sizes.toList] at hmem
  refine ⟨_, _, rfl, rfl, ?_⟩
  simp [rocsolver_sytrd_hetrd_impl, hst, hq, hmem, sytrd_hetrd_sizes.toList]

/-- Every log of the tridiagonal reduction driver has one of five shapes:
empty (null handle), validator only, size query, failed allocation, or the full
execution path. -/
theorem sytrd_hetrd_log_cases {σ : Type} (hy : sytrd_hetrd_hpp σ) (T : ScalarType)
    (handle : rocblas_handle) (uplo : rocblas_fill) (n lda : Int) (A D E tau : Ptr) (dev : σ) :
    (rocsolver_sytrd_hetrd_impl hy T handle uplo n A lda D E tau dev).log = []
    ∨ (rocsolver_sytrd_hetrd_impl hy T handle uplo n A lda D E tau dev).log = [Event.argCheck]
    ∨ (rocsolver_sytrd_hetrd_impl hy T handle uplo n A lda D E tau dev).log
      = [Event.argCheck, Event.getMemorySize [false] [n, 1],
          Event.set_optimal_device_memory_size (hy.getMemorySize false T n 1).toList]
    ∨ (rocsolver_sytrd_hetrd_impl hy T handle uplo n A lda D E tau dev).log
      = [Event.argCheck, Event.getMemorySize [false] [n, 1],
          Event.device_malloc (hy.getMemorySize false T n 1).toList]
    ∨ ∃ h, handle = some h
      ∧ hy.argCheck h uplo n lda A D E tau = rocblas_status_continue
      ∧ h.is_device_memory_size_query = false
      ∧ h.device_malloc (hy.getMemorySize false T n 1).toList = true
      ∧ (rocsolver_sytrd_hetrd_impl hy T handle uplo n A lda D E tau dev).log
        = [Event.argCheck, Event.getMemorySize [false] [n, 1],
            Event.device_malloc (hy.getMemorySize false T n 1).toList]
            ++ (if (hy.getMemorySize false T n 1).size_scalars > 0
                then [Event.init_scalars 0] else [])
          ++ [Event.sytrd_hetrd_template
            ⟨false, uplo, n, A, 0, lda, 0, D, 0, E, 0, tau, 0, 1, 0, 1, 2, 3, 4⟩] := by
  cases handle with
  | none => exact Or.inl rfl
  | some h =>
    by_cases hst : hy.argCheck h uplo n lda A D E tau = rocblas_status_continue
    · cases hq : h.is_device_memory_size_query
      · cases hmem : h.device_malloc (hy.getMemorySize false T n 1).toList
        · rw [sytrd_hetrd_memory_error_path hy T h uplo n lda A D E tau dev hst hq hmem]
          exact Or.inr (Or.inr (Or.inr (Or.inl rfl)))
        · obtain ⟨a, d, ha, _, e⟩ := sytrd_hetrd_run_path_args hy T h uplo n lda A D E tau dev hst hq hmem
          rw [e, ha]
          exact Or.inr (Or.inr (Or.inr (Or.inr ⟨h, rfl, hst, hq, hmem, rfl⟩)))
      · rw [sytrd_hetrd_query_path hy T h uplo n lda A D E tau dev hst hq]
        exact Or.inr (Or.inr (Or.inl rfl))
    · rw [sytrd_hetrd_reject_path hy T h uplo n lda A D E tau dev hst]
      exact Or.inr (Or.inl rfl)

/-- A kernel event in a log of the block-tridiagonal factorization driver belongs to
the execution path, and its arguments are the ones the driver writes. -/
theorem geblttrf_npvt_kernel_mem {σ : Type} (hf : geblttrf_npvt_hpp σ) (T : ScalarType)
    (handle : rocblas_handle) (nb nblocks lda ldb ldc batch_count : Int) (A B C info : Ptr) (dev : σ)
    (a : geblttrf_npvt_template_args)
    (ha : Event.geblttrf_npvt_template a
      ∈ (rocsolver_geblttrf_npvt_batched_impl hf T handle nb nblocks A lda B ldb C ldc info batch_count dev).log) :
    a = ⟨true, false, nb, nblocks, A, 0, lda, 0, B, 0, ldb, 0, C, 0, ldc, 0, info,
          batch_count, 0, 1, 2, 3, 4, 5, 6, 7, 8, 9,
          (hf.getMemorySize true false T nb nblocks batch_count).optim_mem⟩
    ∧ ∃ h, handle = some h
      ∧ hf.argCheck h nb nblocks lda ldb ldc A B C info batch_count = rocblas_status_continue
      ∧ h.is_device_memory_size_query = false
      ∧ h.device_malloc (hf.getMemorySize true false T nb nblocks batch_count).toList = true
      ∧ (rocsolver_geblttrf_npvt_batched_impl hf T handle nb nblocks A lda B ldb C ldc info batch_count dev).log
        = [Event.argCheck, Event.getMemorySize [true, false] [nb, nblocks, batch_count],
            Event.device_malloc (hf.getMemorySize true false T nb nblocks batch_count).toList]
            ++ (if (hf.getMemorySize true false T nb nblocks batch_count).size_scalars > 0
                then [Event.init_scalars 0] else [])
          ++ [Event.geblttrf_npvt_template a] := by
  rcases geblttrf_npvt_log_cases hf T handle nb nblocks lda ldb ldc batch_count A B C info dev with
    hl | hl | hl | hl | ⟨h, hh, hst, hq, hmem, hl⟩
  · simp [hl] at ha
  · simp [hl] at ha
  · simp [hl] at ha
  · simp [hl] at ha
  · have hal : a = ⟨true, false, nb, nblocks, A, 0, lda, 0, B, 0, ldb, 0, C, 0, ldc, 0, info,
          batch_count, 0, 1, 2, 3, 4, 5, 6, 7, 8, 9,
          (hf.getMemorySize true false T nb nblocks batch_count).optim_mem⟩ := by
      split_ifs at hl <;> simp [hl] at ha <;> exact ha
    exact ⟨hal, h, hh, hst, hq, hmem, by rw [hl, hal]⟩

/-- A planner event in a log of the block-tridiagonal factorization driver carries
the flags and the shape the driver writes. -/
theorem geblttrf_npvt_planner_mem {σ : Type} (hf : geblttrf_npvt_hpp σ) (T : ScalarType)
    (handle : rocblas_handle) (nb nblocks lda ldb ldc batch_count : Int) (A B C info : Ptr) (dev : σ)
    (flags : List Bool) (shape : List Int)
    (hp : Event.getMemorySize flags shape
      ∈ (rocsolver_geblttrf_npvt_batched_impl hf T handle nb nblocks A lda B ldb C ldc info batch_count dev).log) :
    Event.getMemorySize [true, false] [nb, nblocks, batch_count] = Event.getMemorySize flags shape := by
  rcases geblttrf_npvt_log_cases hf T handle nb nblocks lda ldb ldc batch_count A B C info dev with
    hl | hl | hl | hl | ⟨h, _, _, _, _, hl⟩
  · simp [hl] at hp
  · simp [hl] at hp
  · simp [hl] at hp
    simp [hp]
  · simp [hl] at hp
    simp [hp]
  · split_ifs at hl <;> simp [hl] at hp <;> simp [hp]

/-- A kernel event in a log of the block-tridiagonal solve driver belongs to
the execution path, and its arguments are the ones the driver writes. -/
theorem geblttrs_npvt_kernel_mem {σ : Type} (hs : geblttrs_npvt_hpp σ) (T : ScalarType)
    (handle : rocblas_handle) (nb nblocks nrhs lda ldb ldc ldx : Int) (A B C X : Ptr) (dev : σ)
    (a : geblttrs_npvt_template_args)
    (ha : Event.geblttrs_npvt_template a
      ∈ (rocsolver_geblttrs_npvt_impl hs T handle nb nblocks nrhs A lda B ldb C ldc X ldx dev).log) :
    a = ⟨false, false, nb, nblocks, nrhs, A, 0, lda, 0, B, 0, ldb, 0, C, 0, ldc, 0, X, 0,
          ldx, 0, 1, 0, 1, 2, 3,
          (hs.getMemorySize false false T nb nblocks nrhs 1).optim_mem⟩
    ∧ ∃ h, handle = some h
      ∧ hs.argCheck h nb nblocks nrhs lda ldb ldc ldx A B C X = rocblas_status_continue
      ∧ h.is_device_memory_size_query = false
      ∧ h.device_malloc (hs.getMemorySize false false T nb nblocks nrhs 1).toList = true
      ∧ (rocsolver_geblttrs_npvt_impl hs T handle nb nblocks nrhs A lda B ldb C ldc X ldx dev).log
        = [Event.argCheck, Event.getMemorySize [false, false] [nb, nblocks, nrhs, 1],
            Event.device_malloc (hs.getMemorySize false false T nb nblocks nrhs 1).toList]
          ++ [Event.geblttrs_npvt_template a] := by
  rcases geblttrs_npvt_log_cases hs T handle nb nblocks nrhs lda ldb ldc ldx A B C X dev with
    hl | hl | hl | hl | ⟨h, hh, hst, hq, hmem, hl⟩
  · simp [hl] at ha
  · simp [hl] at ha
  · simp [hl] at ha
  · simp [hl] at ha
  · have hal : a = ⟨false, false, nb, nblocks, nrhs, A, 0, lda, 0, B, 0, ldb, 0, C, 0, ldc, 0, X, 0,
          ldx, 0, 1, 0, 1, 2, 3,
          (hs.getMemorySize false false T nb nblocks nrhs 1).optim_mem⟩ := by
      simp [hl] at ha
      exact ha
    exact ⟨hal, h, hh, hst, hq, hmem, by rw [hl, hal]⟩

/-- A planner event in a log of the block-tridiagonal solve driver carries
the flags and the shape the driver writes. -/
theorem geblttrs_npvt_planner_mem {σ : Type} (hs : geblttrs_npvt_hpp σ) (T : ScalarType)
    (handle : rocblas_handle) (nb nblocks nrhs lda ldb ldc ldx : Int) (A B C X : Ptr) (dev : σ)
    (flags : List Bool) (shape : List Int)
    (hp : Event.getMemorySize flags shape
      ∈ (rocsolver_geblttrs_npvt_impl hs T handle nb nblocks nrhs A lda B ldb C ldc X ldx dev).log) :
    Event.getMemorySize [false, false] [nb, nblocks, nrhs, 1] = Event.getMemorySize flags shape := by
  rcases geblttrs_npvt_log_cases hs T handle nb nblocks nrhs lda ldb ldc ldx A B C X dev with
    hl | hl | hl | hl | ⟨h, _, _, _, _, hl⟩
  · simp [hl] at hp
  · simp [hl] at hp
  · simp [hl] at hp
    simp [hp]
  · simp [hl] at hp
    simp [hp]
  · simp [hl] at hp
    simp [hp]

/-- A kernel event in a log of the tridiagonal reduction driver belongs to
the execution path, and its arguments are the ones the driver writes. -/
theorem sytrd_hetrd_kernel_mem {σ : Type} (hy : sytrd_hetrd_hpp σ) (T : ScalarType)
    (handle : rocblas_handle) (uplo : rocblas_fill) (n lda : Int) (A D E tau : Ptr) (dev : σ)
    (a : sytrd_hetrd_template_args)
    (ha : Event.sytrd_hetrd_template a
      ∈ (rocsolver_sytrd_hetrd_impl hy T handle uplo n A lda D E tau dev).log) :
    a = ⟨false, uplo, n, A, 0, lda, 0, D, 0, E, 0, tau, 0, 1, 0, 1, 2, 3, 4⟩
    ∧ ∃ h, handle = some h
      ∧ hy.argCheck h uplo n lda A D E tau = rocblas_status_continue
      ∧ h.is_device_memory_size_query = false
      ∧ h.device_malloc (hy.getMemorySize false T n 1).toList = true
      ∧ (rocsolver_sytrd_hetrd_impl hy T handle uplo n A lda D E tau dev).log
        = [Event.argCheck, Event.getMemorySize [false] [n, 1],
            Event.device_malloc (hy.getMemorySize false T n 1).toList]
            ++ (if (hy.getMemorySize false T n 1).size_scalars > 0
                then [Event.init_scalars 0] else [])
          ++ [Event.sytrd_hetrd_template a] := by
  rcases sytrd_hetrd_log_cases hy T handle uplo n lda A D E tau dev with
    hl | hl | hl | hl | ⟨h, hh, hst, hq, hmem, hl⟩
  · simp [hl] at ha
  · simp [hl] at ha
  · simp [hl] at ha
  · simp [hl] at ha
  · have hal : a = ⟨false, uplo, n, A, 0, lda, 0, D, 0, E, 0, tau, 0, 1, 0, 1, 2, 3, 4⟩ := by
      split_ifs at hl <;> simp [hl] at ha <;> exact ha
    exact ⟨hal, h, hh, hst, hq, hmem, by rw [hl, hal]⟩

/-- A planner event in a log of the tridiagonal reduction driver carries
the flags and the shape the driver writes. -/
theorem sytrd_hetrd_planner_mem {σ : Type} (hy : sytrd_hetrd_hpp σ) (T : ScalarType)
    (handle : rocblas_handle) (uplo : rocblas_fill) (n lda : Int) (A D E tau : Ptr) (dev : σ)
    (flags : List Bool) (shape : List Int)
    (hp : Event.getMemorySize flags shape
      ∈ (rocsolver_sytrd_hetrd_impl hy T handle uplo n A lda D E tau dev).log) :
    Event.getMemorySize [false] [n, 1] = Event.getMemorySize flags shape := by
  rcases sytrd_hetrd_log_cases hy T handle uplo n lda A D E tau dev with
    hl | hl | hl | hl | ⟨h, _, _, _, _, hl⟩
  · simp [hl] at hp
  · simp [hl] at hp
  · simp [hl] at hp
    simp [hp]
  · simp [hl] at hp
    simp [hp]
  · split_ifs at hl <;> simp [hl] at hp <;> simp [hp]

/-! ## Normal mode: order of the steps -/

/-- C15: for each of the three drivers in normal mode, with a valid handle, the
validator answering continue and the allocation succeeding, the log is, in this
order, validator, planner, one allocation, `init_scalars` (geblttrf and
sytrd/hetrd, when `size_scalars > 0`; never in geblttrs), one kernel
invocation; planner and allocation occur once, `init_scalars` at most once, the
kernel exactly once; and the returned status and device memory are exactly
those the kernel template returned on the device memory left by the
initialisation. -/
theorem normal_mode_steps_in_order {σ : Type} (hf : geblttrf_npvt_hpp σ)
    (hs : geblttrs_npvt_hpp σ) (hy : sytrd_hetrd_hpp σ) (T : ScalarType) (h : Handle)
    (hnormal : h.is_device_memory_size_query = false)
    (uplo : rocblas_fill) (nb nblocks nrhs n lda ldb ldc ldx batch_count : Int)
    (A B C X D E tau info : Ptr) (dev : σ) :
    (hf.argCheck h nb nblocks lda ldb ldc A B C info batch_count = rocblas_status_continue →
      h.device_malloc (hf.getMemorySize true false T nb nblocks batch_count).toList = true →
      ∃ (a : geblttrf_npvt_template_args) (d : σ),
        d = (if (hf.getMemorySize true false T nb nblocks batch_count).size_scalars > 0
          then hf.init_scalars T h 0 dev else dev)
        ∧ rocsolver_geblttrf_npvt_batched_impl hf T (some h) nb nblocks A lda B ldb C ldc info
            batch_count dev
          = ⟨(hf.template T h a d).1,
              [Event.argCheck, Event.getMemorySize [true, false] [nb, nblocks, batch_count],
                Event.device_malloc (hf.getMemorySize true false T nb nblocks batch_count).toList]
              ++ (if (hf.getMemorySize true false T nb nblocks batch_count).size_scalars > 0
                  then [Event.init_scalars 0] else [])
              ++ [Event.geblttrf_npvt_template a],
              (hf.template T h a d).2⟩
        ∧ (rocsolver_geblttrf_npvt_batched_impl hf T (some h) nb nblocks A lda B ldb C ldc info
            batch_count dev).log.countP Event.isGetMemorySize = 1
        ∧ (rocsolver_geblttrf_npvt_batched_impl hf T (some h) nb nblocks A lda B ldb C ldc info
            batch_count dev).log.countP Event.isDeviceMalloc = 1
        ∧ (rocsolver_geblttrf_npvt_batched_impl hf T (some h) nb nblocks A lda B ldb C ldc info
            batch_count dev).log.countP Event.isInitScalars ≤ 1
        ∧ (rocsolver_geblttrf_npvt_batched_impl hf T (some h) nb nblocks A lda B ldb C ldc info
            batch_count dev).log.countP Event.isKernel = 1)
    ∧ (hs.argCheck h nb nblocks nrhs lda ldb ldc ldx A B C X = rocblas_status_continue →
      h.device_malloc (hs.getMemorySize false false T nb nblocks nrhs 1).toList = true →
      ∃ a : geblttrs_npvt_template_args,
        rocsolver_geblttrs_npvt_impl hs T (some h) nb nblocks nrhs A lda B ldb C ldc X ldx dev
          = ⟨(hs.template T h a dev).1,
              [Event.argCheck, Event.getMemorySize [false, false] [nb, nblocks, nrhs, 1],
                Event.device_malloc (hs.getMemorySize false false T nb nblocks nrhs 1).toList,
                Event.geblttrs_npvt_template a],
              (hs.template T h a dev).2⟩
        ∧ (rocsolver_geblttrs_npvt_impl hs T (some h) nb nblocks nrhs A lda B ldb C ldc X ldx
            dev).log.countP Event.isGetMemorySize = 1
        ∧ (rocsolver_geblttrs_npvt_impl hs T (some h) nb nblocks nrhs A lda B ldb C ldc X ldx
            dev).log.countP Event.isDeviceMalloc = 1
        ∧ (rocsolver_geblttrs_npvt_impl hs T (some h) nb nblocks nrhs A lda B ldb C ldc X ldx
            dev).log.countP Event.isInitScalars = 0
        ∧ (rocsolver_geblttrs_npvt_impl hs T (some h) nb nblocks nrhs A lda B ldb C ldc X ldx
            dev).log.countP Event.isKernel = 1)
    ∧ (hy.argCheck h uplo n lda A D E tau = rocblas_status_continue →
      h.device_malloc (hy.getMemorySize false T n 1).toList = true →
      ∃ (a : sytrd_hetrd_template_args) (d : σ),
        d = (if (hy.getMemorySize false T n 1).size_scalars > 0
          then hy.init_scalars T h 0 dev else dev)
        ∧ rocsolver_sytrd_hetrd_impl hy T (some h) uplo n A lda D E tau dev
          = ⟨(hy.template T h a d).1,
              [Event.argCheck, Event.getMemorySize [false] [n, 1],
                Event.device_malloc (hy.getMemorySize false T n 1).toList]
              ++ (if (hy.getMemorySize false T n 1).size_scalars > 0
                  then [Event.init_scalars 0] else [])
              ++ [Event.sytrd_hetrd_template a],
              (hy.template T h a d).2⟩
        ∧ (rocsolver_sytrd_hetrd_impl hy T (some h) uplo n A lda D E tau dev).log.countP
            Event.isGetMemorySize = 1
        ∧ (rocsolver_sytrd_hetrd_impl hy T (some h) uplo n A lda D E tau dev).log.countP
            Event.isDeviceMalloc = 1
        ∧ (rocsolver_sytrd_hetrd_impl hy T (some h) uplo n A lda D E tau dev).log.countP
            Event.isInitScalars ≤ 1
        ∧ (rocsolver_sytrd_hetrd_impl hy T (some h) uplo n A lda D E tau dev).log.countP
            Event.isKernel = 1) := by
  refine ⟨fun hst hmem => ?_, fun hst hmem => ?_, fun hst hmem => ?_⟩
  · obtain ⟨a, d, _, hd, e⟩ := geblttrf_npvt_run_path_args hf T h nb nblocks lda ldb ldc
      batch_count A B C info dev hst hnormal hmem
    refine ⟨a, d, hd, e, ?_⟩
    rw [e]
    refine ⟨?_, ?_, ?_, ?_⟩ <;> split_ifs <;>
      simp [List.countP_cons, Event.isGetMemorySize, Event.isDeviceMalloc, Event.isInitScalars,
        Event.isKernel]
  · obtain ⟨a, d, _, hd, e⟩ := geblttrs_npvt_run_path_args hs T h nb nblocks nrhs lda ldb ldc
      ldx A B C X dev hst hnormal hmem
    subst hd
    refine ⟨a, e, ?_⟩
    rw [e]
    simp [List.countP_cons, Event.isGetMemorySize, Event.isDeviceMalloc, Event.isInitScalars,
      Event.isKernel]
  · obtain ⟨a, d, _, hd, e⟩ := sytrd_hetrd_run_path_args hy T h uplo n lda A D E tau dev hst
      hnormal hmem
    refine ⟨a, d, hd, e, ?_⟩
    rw [e]
    refine ⟨?_, ?_, ?_, ?_⟩ <;> split_ifs <;>
      simp [List.countP_cons, Event.isGetMemorySize, Event.isDeviceMalloc, Event.isInitScalars,
        Event.isKernel]

/-- Witness of C15: the three drivers on a handle in normal mode whose allocator
succeeds, for nb = 2, nblocks = 3, nrhs = 2, n = 4, batch_count = 4: one kernel
invocation each. -/
theorem normal_mode_steps_in_order_witness :
    (rocsolver_geblttrf_npvt_batched_impl sample_geblttrf_npvt_hpp ScalarType.double
        (some handle_normal) 2 3 1 2 1 2 1 2 1 4 (0 : Nat)).log.countP Event.isKernel = 1
    ∧ (rocsolver_geblttrs_npvt_impl sample_geblttrs_npvt_hpp ScalarType.double
        (some handle_normal) 2 3 2 1 2 1 2 1 2 1 6 (0 : Nat)).log.countP Event.isKernel = 1
    ∧ (rocsolver_sytrd_hetrd_impl sample_sytrd_hetrd_hpp ScalarType.double
        (some handle_normal) rocblas_fill.rocblas_fill_upper 4 1 2 1 1 1 (0 : Nat)).log.countP
          Event.isKernel = 1 := by
  have w := normal_mode_steps_in_order sample_geblttrf_npvt_hpp sample_geblttrs_npvt_hpp
    sample_sytrd_hetrd_hpp ScalarType.double handle_normal rfl rocblas_fill.rocblas_fill_upper
    2 3 2 4 2 2 2 6 4 1 1 1 1 1 1 1 1 (0 : Nat)
  obtain ⟨_, _, _, _, _, _, _, c1⟩ := w.1 (by decide) rfl
  obtain ⟨_, _, _, _, _, c2⟩ := w.2.1 (by decide) rfl
  obtain ⟨_, _, _, _, _, _, _, c3⟩ := w.2.2 (by decide) rfl
  exact ⟨c1, c2, c3⟩

/-- C16: in the geblttrf_npvt_batched and sytrd/hetrd drivers, for every handle
and all arguments, `init_scalars` is called if and only if the call reaches the
execution path (non-null handle, validator continue, normal mode, successful
allocation) and the planner returned `size_scalars > 0`; when it is called, the
log is validator, planner, allocation, `init_scalars` on sub-buffer 0, kernel,
so it comes after the allocation and before the kernel.  The geblttrs_npvt
driver never calls `init_scalars`, and every size list it requests is the four
work sizes: it asks for no scalars buffer. -/
theorem scalars_initialised_iff_sized {σ : Type} (hf : geblttrf_npvt_hpp σ)
    (hs : geblttrs_npvt_hpp σ) (hy : sytrd_hetrd_hpp σ) (T : ScalarType)
    (handle : rocblas_handle)
    (uplo : rocblas_fill) (nb nblocks nrhs n lda ldb ldc ldx batch_count : Int)
    (A B C X D E tau info : Ptr) (dev : σ) :
    (((rocsolver_geblttrf_npvt_batched_impl hf T handle nb nblocks A lda B ldb C ldc info
          batch_count dev).log.any Event.isInitScalars = true
        ↔ ∃ h, handle = some h
          ∧ hf.argCheck h nb nblocks lda ldb ldc A B C info batch_count = rocblas_status_continue
          ∧ h.is_device_memory_size_query = false
          ∧ h.device_malloc (hf.getMemorySize true false T nb nblocks batch_count).toList = true
          ∧ (hf.getMemorySize true false T nb nblocks batch_count).size_scalars > 0)
      ∧ ((rocsolver_geblttrf_npvt_batched_impl hf T handle nb nblocks A lda B ldb C ldc info
          batch_count dev).log.any Event.isInitScalars = true →
        ∃ a, (rocsolver_geblttrf_npvt_batched_impl hf T handle nb nblocks A lda B ldb C ldc info
            batch_count dev).log
          = [Event.argCheck, Event.getMemorySize [true, false] [nb, nblocks, batch_count],
              Event.device_malloc (hf.getMemorySize true false T nb nblocks batch_count).toList,
              Event.init_scalars 0, Event.geblttrf_npvt_template a]))
    ∧ (((rocsolver_sytrd_hetrd_impl hy T handle uplo n A lda D E tau dev).log.any
          Event.isInitScalars = true
        ↔ ∃ h, handle = some h
          ∧ hy.argCheck h uplo n lda A D E tau = rocblas_status_continue
          ∧ h.is_device_memory_size_query = false
          ∧ h.device_malloc (hy.getMemorySize false T n 1).toList = true
          ∧ (hy.getMemorySize false T n 1).size_scalars > 0)
      ∧ ((rocsolver_sytrd_hetrd_impl hy T handle uplo n A lda D E tau dev).log.any
          Event.isInitScalars = true →
        ∃ a, (rocsolver_sytrd_hetrd_impl hy T handle uplo n A lda D E tau dev).log
          = [Event.argCheck, Event.getMemorySize [false] [n, 1],
              Event.device_malloc (hy.getMemorySize false T n 1).toList,
              Event.init_scalars 0, Event.sytrd_hetrd_template a]))
    ∧ ((rocsolver_geblttrs_npvt_impl hs T handle nb nblocks nrhs A lda B ldb C ldc X ldx
          dev).log.any Event.isInitScalars = false
      ∧ ∀ sizes ∈ requested_sizes (rocsolver_geblttrs_npvt_impl hs T handle nb nblocks nrhs A lda
          B ldb C ldc X ldx dev).log,
        sizes = [(hs.getMemorySize false false T nb nblocks nrhs 1).size_work1,
          (hs.getMemorySize false false T nb nblocks nrhs 1).size_work2,
          (hs.getMemorySize false false T nb nblocks nrhs 1).size_work3,
          (hs.getMemorySize false false T nb nblocks nrhs 1).size_work4]) := by
  refine ⟨?_, ?_, ?_⟩
  · cases handle with
    | none => simp [rocsolver_geblttrf_npvt_batched_impl]
    | some h =>
      by_cases hst : hf.argCheck h nb nblocks lda ldb ldc A B C info batch_count = rocblas_status_continue
      · cases hq : h.is_device_memory_size_query
        · cases hmem : h.device_malloc (hf.getMemorySize true false T nb nblocks batch_count).toList
          · rw [geblttrf_npvt_memory_error_path hf T h nb nblocks lda ldb ldc batch_count A B C info dev hst hq hmem]
            simp [Event.isInitScalars, hmem]
          · obtain ⟨a, d, _, _, e⟩ := geblttrf_npvt_run_path_args hf T h nb nblocks lda ldb ldc batch_count A B C info dev hst hq hmem
            rw [e]
            by_cases hsz : (hf.getMemorySize true false T nb nblocks batch_count).size_scalars > 0
            · simp [hsz, Event.isInitScalars, hst, hq, hmem]
            · simp [hsz, Event.isInitScalars, hst, hq, hmem]
        · rw [geblttrf_npvt_query_path hf T h nb nblocks lda ldb ldc batch_count A B C info dev hst hq]
          simp [Event.isInitScalars, hq]
      · rw [geblttrf_npvt_reject_path hf T h nb nblocks lda ldb ldc batch_count A B C info dev hst]
        simp [Event.isInitScalars, hst]
  · cases handle with
    | none => simp [rocsolver_sytrd_hetrd_impl]
    | some h =>
      by_cases hst : hy.argCheck h uplo n lda A D E tau = rocblas_status_continue
      · cases hq : h.is_device_memory_size_query
        · cases hmem : h.device_malloc (hy.getMemorySize false T n 1).toList
          · rw [sytrd_hetrd_memory_error_path hy T h uplo n lda A D E tau dev hst hq hmem]
            simp [Event.isInitScalars, hmem]
          · obtain ⟨a, d, _, _, e⟩ := sytrd_hetrd_run_path_args hy T h uplo n lda A D E tau dev hst hq hmem
            rw [e]
            by_cases hsz : (hy.getMemorySize false T n 1).size_scalars > 0
            · simp [hsz, Event.isInitScalars, hst, hq, hmem]
            · simp [hsz, Event.isInitScalars, hst, hq, hmem]
        · rw [sytrd_hetrd_query_path hy T h uplo n lda A D E tau dev hst hq]
          simp [Event.isInitScalars, hq]
      · rw [sytrd_hetrd_reject_path hy T h uplo n lda A D E tau dev hst]
        simp [Event.isInitScalars, hst]
  · rcases geblttrs_npvt_log_cases hs T handle nb nblocks nrhs lda ldb ldc ldx A B C X dev with
      hl | hl | hl | hl | ⟨h, _, _, _, _, hl⟩ <;>
      simp [hl, Event.isInitScalars, requested_sizes, geblttrs_npvt_sizes.toList]

/-- Witness of C16: with the sample planners (`size_scalars = 3`) the
factorization and the reduction drivers call `init_scalars` on a handle in
normal mode whose allocator succeeds. -/
theorem scalars_initialised_iff_sized_witness :
    (rocsolver_geblttrf_npvt_batched_impl sample_geblttrf_npvt_hpp ScalarType.double
        (some handle_normal) 2 3 1 2 1 2 1 2 1 4 (0 : Nat)).log.any Event.isInitScalars = true
    ∧ (rocsolver_sytrd_hetrd_impl sample_sytrd_hetrd_hpp ScalarType.double
        (some handle_normal) rocblas_fill.rocblas_fill_upper 4 1 2 1 1 1 (0 : Nat)).log.any
          Event.isInitScalars = true :=
  have w := scalars_initialised_iff_sized sample_geblttrf_npvt_hpp sample_geblttrs_npvt_hpp
    sample_sytrd_hetrd_hpp ScalarType.double (some handle_normal)
    rocblas_fill.rocblas_fill_upper 2 3 2 4 2 2 2 6 4 1 1 1 1 1 1 1 1 (0 : Nat)
  ⟨w.1.1.2 ⟨handle_normal, rfl, by decide, rfl, rfl, by decide⟩,
    w.2.1.1.2 ⟨handle_normal, rfl, by decide, rfl, rfl, by decide⟩⟩

/-! ## What the planner and the kernel are given -/

/-- C17: for every handle and all arguments, every planner call of the
geblttrs_npvt and sytrd/hetrd drivers is for batch_count = 1 and every kernel
invocation has batch_count = 1, every stride 0 and every shift 0; every planner
call and kernel invocation of the geblttrf_npvt_batched driver carries the
caller's batch_count, with every stride 0 and every shift 0. -/
theorem single_matrix_drivers_use_batch_one {σ : Type} (hf : geblttrf_npvt_hpp σ)
    (hs : geblttrs_npvt_hpp σ) (hy : sytrd_hetrd_hpp σ) (T : ScalarType)
    (handle : rocblas_handle)
    (uplo : rocblas_fill) (nb nblocks nrhs n lda ldb ldc ldx batch_count : Int)
    (A B C X D E tau info : Ptr) (dev : σ) :
    ((∀ flags shape, Event.getMemorySize flags shape
          ∈ (rocsolver_geblttrs_npvt_impl hs T handle nb nblocks nrhs A lda B ldb C ldc X ldx
            dev).log →
        shape = [nb, nblocks, nrhs, 1])
      ∧ ∀ a, Event.geblttrs_npvt_template a
          ∈ (rocsolver_geblttrs_npvt_impl hs T handle nb nblocks nrhs A lda B ldb C ldc X ldx
            dev).log →
        a.batch_count = 1
        ∧ a.strideA = 0 ∧ a.strideB = 0 ∧ a.strideC = 0 ∧ a.strideX = 0
        ∧ a.shiftA = 0 ∧ a.shiftB = 0 ∧ a.shiftC = 0 ∧ a.shiftX = 0)
    ∧ ((∀ flags shape, Event.getMemorySize flags shape
          ∈ (rocsolver_sytrd_hetrd_impl hy T handle uplo n A lda D E tau dev).log →
        shape = [n, 1])
      ∧ ∀ a, Event.sytrd_hetrd_template a
          ∈ (rocsolver_sytrd_hetrd_impl hy T handle uplo n A lda D E tau dev).log →
        a.batch_count = 1
        ∧ a.strideA = 0 ∧ a.strideD = 0 ∧ a.strideE = 0 ∧ a.strideP = 0 ∧ a.shiftA = 0)
    ∧ ((∀ flags shape, Event.getMemorySize flags shape
          ∈ (rocsolver_geblttrf_npvt_batched_impl hf T handle nb nblocks A lda B ldb C ldc info
            batch_count dev).log →
        shape = [nb, nblocks, batch_count])
      ∧ ∀ a, Event.geblttrf_npvt_template a
          ∈ (rocsolver_geblttrf_npvt_batched_impl hf T handle nb nblocks A lda B ldb C ldc info
            batch_count dev).log →
        a.batch_count = batch_count
        ∧ a.strideA = 0 ∧ a.strideB = 0 ∧ a.strideC = 0
        ∧ a.shiftA = 0 ∧ a.shiftB = 0 ∧ a.shiftC = 0) := by
  refine ⟨⟨fun flags shape hp => ?_, fun a ha => ?_⟩, ⟨fun flags shape hp => ?_, fun a ha => ?_⟩,
    ⟨fun flags shape hp => ?_, fun a ha => ?_⟩⟩
  · have e := geblttrs_npvt_planner_mem hs T handle nb nblocks nrhs lda ldb ldc ldx A B C X dev
      flags shape hp
    simp only [Event.getMemorySize.injEq] at e
    exact e.2.symm
  · rw [(geblttrs_npvt_kernel_mem hs T handle nb nblocks nrhs lda ldb ldc ldx A B C X dev a
      ha).1]
    simp
  · have e := sytrd_hetrd_planner_mem hy T handle uplo n lda A D E tau dev flags shape hp
    simp only [Event.getMemorySize.injEq] at e
    exact e.2.symm
  · rw [(sytrd_hetrd_kernel_mem hy T handle uplo n lda A D E tau dev a ha).1]
    simp
  · have e := geblttrf_npvt_planner_mem hf T handle nb nblocks lda ldb ldc batch_count A B C
      info dev flags shape hp
    simp only [Event.getMemorySize.injEq] at e
    exact e.2.symm
  · rw [(geblttrf_npvt_kernel_mem hf T handle nb nblocks lda ldb ldc batch_count A B C info dev
      a ha).1]
    simp

/-- Witness of C17: the kernel invocations of the three sample calls are in
their logs; the solve and the reduction run with batch_count = 1, the
factorization with the caller's batch_count = 4. -/
theorem single_matrix_drivers_use_batch_one_witness :
    (Event.geblttrs_npvt_template sample_geblttrs_npvt_args ∈ (rocsolver_geblttrs_npvt_impl sample_geblttrs_npvt_hpp ScalarType.double
        (some handle_normal) 2 3 2 1 2 1 2 1 2 1 6 (0 : Nat)).log
      ∧ sample_geblttrs_npvt_args.batch_count = 1)
    ∧ (Event.sytrd_hetrd_template sample_sytrd_hetrd_args ∈ (rocsolver_sytrd_hetrd_impl sample_sytrd_hetrd_hpp ScalarType.double
        (some handle_normal) rocblas_fill.rocblas_fill_upper 4 1 2 1 1 1 (0 : Nat)).log
      ∧ sample_sytrd_hetrd_args.batch_count = 1)
    ∧ (Event.geblttrf_npvt_template sample_geblttrf_npvt_args ∈ (rocsolver_geblttrf_npvt_batched_impl sample_geblttrf_npvt_hpp ScalarType.double
        (some handle_normal) 2 3 1 2 1 2 1 2 1 4 (0 : Nat)).log
      ∧ sample_geblttrf_npvt_args.batch_count = 4) :=
  have w := single_matrix_drivers_use_batch_one sample_geblttrf_npvt_hpp sample_geblttrs_npvt_hpp
    sample_sytrd_hetrd_hpp ScalarType.double (some handle_normal)
    rocblas_fill.rocblas_fill_upper 2 3 2 4 2 2 2 6 4 1 1 1 1 1 1 1 1 (0 : Nat)
  ⟨⟨by decide, (w.1.2 sample_geblttrs_npvt_args (by decide)).1⟩,
    ⟨by decide, (w.2.1.2 sample_sytrd_hetrd_args (by decide)).1⟩,
    ⟨by decide, (w.2.2.2 sample_geblttrf_npvt_args (by decide)).1⟩⟩

/-- C18: in each driver, whenever the kernel is invoked, the size list given to
the allocator is the planner's output `s`, the k-th size being the k-th the
planner wrote; each workspace argument of the kernel is the sub-buffer `mem[k]`
bound to the variable of the same name (geblttrf: scalars, work1..work4,
pivotval, pivotidx, iipiv, iinfo1, iinfo2 are mem[0..9]; geblttrs:
work1..work4 are mem[0..3]; sytrd/hetrd: scalars, work, norms, tmptau_W,
workArr are mem[0..4]); the size requested for that sub-buffer is the size of
the same name; and no two workspace arguments are the same sub-buffer. -/
theorem workspace_slots_correspond {σ : Type} (hf : geblttrf_npvt_hpp σ)
    (hs : geblttrs_npvt_hpp σ) (hy : sytrd_hetrd_hpp σ) (T : ScalarType)
    (handle : rocblas_handle)
    (uplo : rocblas_fill) (nb nblocks nrhs n lda ldb ldc ldx batch_count : Int)
    (A B C X D E tau info : Ptr) (dev : σ) :
    (∀ (s : geblttrf_npvt_sizes) (a : geblttrf_npvt_template_args),
        s = hf.getMemorySize true false T nb nblocks batch_count →
        Event.geblttrf_npvt_template a
          ∈ (rocsolver_geblttrf_npvt_batched_impl hf T handle nb nblocks A lda B ldb C ldc info
            batch_count dev).log →
        malloc_sizes (rocsolver_geblttrf_npvt_batched_impl hf T handle nb nblocks A lda B ldb C ldc
            info batch_count dev).log
          = [[s.size_scalars, s.size_work1, s.size_work2, s.size_work3, s.size_work4,
            s.size_pivotval, s.size_pivotidx, s.size_iipiv, s.size_iinfo1, s.size_iinfo2]]
        ∧ a.scalars = 0 ∧ a.work1 = 1 ∧ a.work2 = 2 ∧ a.work3 = 3 ∧ a.work4 = 4 ∧ a.pivotval = 5
        ∧ a.pivotidx = 6 ∧ a.iipiv = 7 ∧ a.iinfo1 = 8 ∧ a.iinfo2 = 9
        ∧ s.toList[a.scalars]? = some s.size_scalars ∧ s.toList[a.work1]? = some s.size_work1
        ∧ s.toList[a.work2]? = some s.size_work2 ∧ s.toList[a.work3]? = some s.size_work3
        ∧ s.toList[a.work4]? = some s.size_work4 ∧ s.toList[a.pivotval]? = some s.size_pivotval
        ∧ s.toList[a.pivotidx]? = some s.size_pivotidx ∧ s.toList[a.iipiv]? = some s.size_iipiv
        ∧ s.toList[a.iinfo1]? = some s.size_iinfo1 ∧ s.toList[a.iinfo2]? = some s.size_iinfo2
        ∧ [a.scalars, a.work1, a.work2, a.work3, a.work4, a.pivotval, a.pivotidx, a.iipiv,
            a.iinfo1, a.iinfo2].Nodup)
    ∧ (∀ (s : geblttrs_npvt_sizes) (a : geblttrs_npvt_template_args),
        s = hs.getMemorySize false false T nb nblocks nrhs 1 →
        Event.geblttrs_npvt_template a
          ∈ (rocsolver_geblttrs_npvt_impl hs T handle nb nblocks nrhs A lda B ldb C ldc X ldx
            dev).log →
        malloc_sizes (rocsolver_geblttrs_npvt_impl hs T handle nb nblocks nrhs A lda B ldb C ldc X
            ldx dev).log
          = [[s.size_work1, s.size_work2, s.size_work3, s.size_work4]]
        ∧ a.work1 = 0 ∧ a.work2 = 1 ∧ a.work3 = 2 ∧ a.work4 = 3
        ∧ s.toList[a.work1]? = some s.size_work1 ∧ s.toList[a.work2]? = some s.size_work2
        ∧ s.toList[a.work3]? = some s.size_work3 ∧ s.toList[a.work4]? = some s.size_work4
        ∧ [a.work1, a.work2, a.work3, a.work4].Nodup)
    ∧ (∀ (s : sytrd_hetrd_sizes) (a : sytrd_hetrd_template_args),
        s = hy.getMemorySize false T n 1 →
        Event.sytrd_hetrd_template a
          ∈ (rocsolver_sytrd_hetrd_impl hy T handle uplo n A lda D E tau dev).log →
        malloc_sizes (rocsolver_sytrd_hetrd_impl hy T handle uplo n A lda D E tau dev).log
          = [[s.size_scalars, s.size_work, s.size_norms, s.size_tmptau_W, s.size_workArr]]
        ∧ a.scalars = 0 ∧ a.work = 1 ∧ a.norms = 2 ∧ a.tmptau_W = 3 ∧ a.workArr = 4
        ∧ s.toList[a.scalars]? = some s.size_scalars ∧ s.toList[a.work]? = some s.size_work
        ∧ s.toList[a.norms]? = some s.size_norms ∧ s.toList[a.tmptau_W]? = some s.size_tmptau_W
        ∧ s.toList[a.workArr]? = some s.size_workArr
        ∧ [a.scalars, a.work, a.norms, a.tmptau_W, a.workArr].Nodup) := by
  refine ⟨fun s a es ha => ?_, fun s a es ha => ?_, fun s a es ha => ?_⟩
  · obtain ⟨ea, h, _, _, _, _, hl⟩ := geblttrf_npvt_kernel_mem hf T handle nb nblocks lda ldb ldc
      batch_count A B C info dev a ha
    rw [hl, ea, es]
    refine ⟨?_, ?_⟩
    · split_ifs <;> simp [malloc_sizes, geblttrf_npvt_sizes.toList]
    · simp [geblttrf_npvt_sizes.toList]
  · obtain ⟨ea, h, _, _, _, _, hl⟩ := geblttrs_npvt_kernel_mem hs T handle nb nblocks nrhs lda ldb
      ldc ldx A B C X dev a ha
    rw [hl, ea, es]
    refine ⟨?_, ?_⟩
    · simp [malloc_sizes, geblttrs_npvt_sizes.toList]
    · simp [geblttrs_npvt_sizes.toList]
  · obtain ⟨ea, h, _, _, _, _, hl⟩ := sytrd_hetrd_kernel_mem hy T handle uplo n lda A D E tau dev
      a ha
    rw [hl, ea, es]
    refine ⟨?_, ?_⟩
    · split_ifs <;> simp [malloc_sizes, sytrd_hetrd_sizes.toList]
    · simp [sytrd_hetrd_sizes.toList]

/-- Witness of C18: the allocator requests of the three sample calls, whose
kernel invocations are in their logs. -/
theorem workspace_slots_correspond_witness :
    malloc_sizes (rocsolver_geblttrf_npvt_batched_impl sample_geblttrf_npvt_hpp ScalarType.double
        (some handle_normal) 2 3 1 2 1 2 1 2 1 4 (0 : Nat)).log
      = [[3, 24, 24, 24, 24, 24, 24, 24, 24, 24]]
    ∧ malloc_sizes (rocsolver_geblttrs_npvt_impl sample_geblttrs_npvt_hpp ScalarType.double
        (some handle_normal) 2 3 2 1 2 1 2 1 2 1 6 (0 : Nat)).log
      = [[12, 12, 12, 12]]
    ∧ malloc_sizes (rocsolver_sytrd_hetrd_impl sample_sytrd_hetrd_hpp ScalarType.double
        (some handle_normal) rocblas_fill.rocblas_fill_upper 4 1 2 1 1 1 (0 : Nat)).log
      = [[3, 4, 4, 4, 0]] :=
  have w := workspace_slots_correspond sample_geblttrf_npvt_hpp sample_geblttrs_npvt_hpp
    sample_sytrd_hetrd_hpp ScalarType.double (some handle_normal)
    rocblas_fill.rocblas_fill_upper 2 3 2 4 2 2 2 6 4 1 1 1 1 1 1 1 1 (0 : Nat)
  ⟨(w.1 _ sample_geblttrf_npvt_args rfl (by decide)).1,
    (w.2.1 _ sample_geblttrs_npvt_args rfl (by decide)).1,
    (w.2.2 _ sample_sytrd_hetrd_args rfl (by decide)).1⟩

/-- C19: in each driver, whenever the kernel is invoked, the log holds a planner
call with the same batch-mode flags and the same shape values as the kernel
invocation (geblttrf_npvt_batched: BATCHED = true, STRIDED = false, shape nb,
nblocks, batch_count; geblttrs_npvt: false, false, shape nb, nblocks, nrhs,
batch_count; sytrd/hetrd: BATCHED = false, shape n, batch_count); the shape
values are those of the call; and the `optim_mem` flag given to the
geblttrf/geblttrs kernel is the one the planner produced for these flags and
this shape. -/
theorem planner_and_kernel_agree {σ : Type} (hf : geblttrf_npvt_hpp σ)
    (hs : geblttrs_npvt_hpp σ) (hy : sytrd_hetrd_hpp σ) (T : ScalarType)
    (handle : rocblas_handle)
    (uplo : rocblas_fill) (nb nblocks nrhs n lda ldb ldc ldx batch_count : Int)
    (A B C X D E tau info : Ptr) (dev : σ) :
    (∀ a, Event.geblttrf_npvt_template a
          ∈ (rocsolver_geblttrf_npvt_batched_impl hf T handle nb nblocks A lda B ldb C ldc info
            batch_count dev).log →
        Event.getMemorySize [a.BATCHED, a.STRIDED] [a.nb, a.nblocks, a.batch_count]
          ∈ (rocsolver_geblttrf_npvt_batched_impl hf T handle nb nblocks A lda B ldb C ldc info
            batch_count dev).log
        ∧ a.BATCHED = true ∧ a.STRIDED = false
        ∧ a.nb = nb ∧ a.nblocks = nblocks ∧ a.batch_count = batch_count
        ∧ a.optim_mem
          = (hf.getMemorySize a.BATCHED a.STRIDED T a.nb a.nblocks a.batch_count).optim_mem)
    ∧ (∀ a, Event.geblttrs_npvt_template a
          ∈ (rocsolver_geblttrs_npvt_impl hs T handle nb nblocks nrhs A lda B ldb C ldc X ldx
            dev).log →
        Event.getMemorySize [a.BATCHED, a.STRIDED] [a.nb, a.nblocks, a.nrhs, a.batch_count]
          ∈ (rocsolver_geblttrs_npvt_impl hs T handle nb nblocks nrhs A lda B ldb C ldc X ldx
            dev).log
        ∧ a.BATCHED = false ∧ a.STRIDED = false
        ∧ a.nb = nb ∧ a.nblocks = nblocks ∧ a.nrhs = nrhs
        ∧ a.optim_mem
          = (hs.getMemorySize a.BATCHED a.STRIDED T a.nb a.nblocks a.nrhs
              a.batch_count).optim_mem)
    ∧ (∀ a, Event.sytrd_hetrd_template a
          ∈ (rocsolver_sytrd_hetrd_impl hy T handle uplo n A lda D E tau dev).log →
        Event.getMemorySize [a.BATCHED] [a.n, a.batch_count]
          ∈ (rocsolver_sytrd_hetrd_impl hy T handle uplo n A lda D E tau dev).log
        ∧ a.BATCHED = false ∧ a.n = n) := by
  refine ⟨fun a ha => ?_, fun a ha => ?_, fun a ha => ?_⟩
  · obtain ⟨ea, h, _, _, _, _, hl⟩ := geblttrf_npvt_kernel_mem hf T handle nb nblocks lda ldb ldc
      batch_count A B C info dev a ha
    rw [hl, ea]
    simp
  · obtain ⟨ea, h, _, _, _, _, hl⟩ := geblttrs_npvt_kernel_mem hs T handle nb nblocks nrhs lda ldb
      ldc ldx A B C X dev a ha
    rw [hl, ea]
    simp
  · obtain ⟨ea, h, _, _, _, _, hl⟩ := sytrd_hetrd_kernel_mem hy T handle uplo n lda A D E tau dev
      a ha
    rw [hl, ea]
    simp

/-- Witness of C19: the planner calls that match the kernel invocations of the
three sample calls are in their logs. -/
theorem planner_and_kernel_agree_witness :
    Event.getMemorySize [true, false] [2, 3, 4] ∈ (rocsolver_geblttrf_npvt_batched_impl sample_geblttrf_npvt_hpp ScalarType.double
        (some handle_normal) 2 3 1 2 1 2 1 2 1 4 (0 : Nat)).log
    ∧ Event.getMemorySize [false, false] [2, 3, 2, 1] ∈ (rocsolver_geblttrs_npvt_impl sample_geblttrs_npvt_hpp ScalarType.double
        (some handle_normal) 2 3 2 1 2 1 2 1 2 1 6 (0 : Nat)).log
    ∧ Event.getMemorySize [false] [4, 1] ∈ (rocsolver_sytrd_hetrd_impl sample_sytrd_hetrd_hpp ScalarType.double
        (some handle_normal) rocblas_fill.rocblas_fill_upper 4 1 2 1 1 1 (0 : Nat)).log :=
  have w := planner_and_kernel_agree sample_geblttrf_npvt_hpp sample_geblttrs_npvt_hpp
    sample_sytrd_hetrd_hpp ScalarType.double (some handle_normal)
    rocblas_fill.rocblas_fill_upper 2 3 2 4 2 2 2 6 4 1 1 1 1 1 1 1 1 (0 : Nat)
  ⟨(w.1 sample_geblttrf_npvt_args (by decide)).1,
    (w.2.1 sample_geblttrs_npvt_args (by decide)).1,
    (w.2.2 sample_sytrd_hetrd_args (by decide)).1⟩

/-! ## Column-major addressing -/

/-- The index of an entry of the matrix is below the buffer size. -/
theorem col_major_index_lt (m n lda i j : Nat) (hlda : m ≤ lda) (hi : i < m) (hj : j < n) :
    col_major_index i j lda < size_A lda n := by
  unfold col_major_index size_A
  calc i + j * lda < lda + j * lda := by omega
    _ = lda * (j + 1) := by ring
    _ ≤ lda * n := Nat.mul_le_mul_left lda hj

/-- Two entries with the same index are the same entry. -/
theorem col_major_index_inj (m lda i j i2 j2 : Nat) (hlda : m ≤ lda) (hi : i < m) (hi2 : i2 < m)
    (h : col_major_index i j lda = col_major_index i2 j2 lda) : i = i2 ∧ j = j2 := by
  unfold col_major_index at h
  have hl : 0 < lda := by omega
  have h1 : (i + j * lda) / lda = j := by
    rw [Nat.add_mul_div_right _ _ hl, Nat.div_eq_of_lt (by omega)]; simp
  have h2 : (i2 + j2 * lda) / lda = j2 := by
    rw [Nat.add_mul_div_right _ _ hl, Nat.div_eq_of_lt (by omega)]; simp
  have hj : j = j2 := by rw [← h1, ← h2, h]
  subst hj
  exact ⟨by omega, rfl⟩

/-- A natural number below 2^31 is its own `rocblas_int` value. -/
theorem rocblas_int_wrap_of_lt (x : Nat) (h : x < 2 ^ 31) : rocblas_int_wrap x = x := by
  unfold rocblas_int_wrap
  omega

/-- Within the `rocblas_int` range the index expression does not wrap. -/
theorem col_major_index_rocblas_int_eq (m n lda i j : Nat) (hlda : m ≤ lda) (hi : i < m)
    (hj : j < n) (hsize : size_A lda n < 2 ^ 31) :
    col_major_index_rocblas_int i j lda = col_major_index i j lda := by
  have hb := col_major_index_lt m n lda i j hlda hi hj
  unfold col_major_index at hb
  unfold col_major_index_rocblas_int col_major_index
  have e1 : (j : Int) * (lda : Int) = ((j * lda : Nat) : Int) := by push_cast; rfl
  rw [e1, rocblas_int_wrap_of_lt _ (by omega)]
  have e2 : (i : Int) + ((j * lda : Nat) : Int) = ((i + j * lda : Nat) : Int) := by push_cast; rfl
  rw [e2, rocblas_int_wrap_of_lt _ (by omega)]

/-- Within the `rocblas_int` range column-major addressing is in bounds and
alias-free.  For a matrix with m rows, n columns and leading dimension lda ≥ m
whose buffer size lda·n is below 2^31, the element index `i + j * lda` of entry
(i, j), evaluated in `rocblas_int`, lies in [0, lda·n), and two different
entries never have the same index.  `create_example_matrix`, whose index is
formed in `size_t`, stores without leaving its buffer of lda·N = 9 cells and
returns M = N = lda = 3 with `hA[i + j·lda]` holding `A[i][j]` for every
i, j < 3. -/
theorem column_major_in_bounds_within_rocblas_int_range :
    (∀ m n lda i j : Nat, m ≤ lda → i < m → j < n → size_A lda n < 2 ^ 31 →
        0 ≤ col_major_index_rocblas_int i j lda
        ∧ col_major_index_rocblas_int i j lda < size_A lda n)
    ∧ (∀ m n lda i j i2 j2 : Nat, m ≤ lda → i < m → j < n → i2 < m → j2 < n →
        size_A lda n < 2 ^ 31 → (i, j) ≠ (i2, j2) →
        col_major_index_rocblas_int i j lda ≠ col_major_index_rocblas_int i2 j2 lda)
    ∧ ∃ hA, create_example_matrix = some (3, 3, 3, hA)
        ∧ hA.length = size_A 3 3
        ∧ ∀ i j : Nat, i < 3 → j < 3 →
          hA[col_major_index i j 3]? = some (some ((example_A.getD i []).getD j 0)) := by
  refine ⟨?_, ?_, ?_⟩
  · intro m n lda i j hlda hi hj hsize
    rw [col_major_index_rocblas_int_eq m n lda i j hlda hi hj hsize]
    have := col_major_index_lt m n lda i j hlda hi hj
    exact ⟨by positivity, by exact_mod_cast this⟩
  · intro m n lda i j i2 j2 hlda hi hj hi2 hj2 hsize hne h
    rw [col_major_index_rocblas_int_eq m n lda i j hlda hi hj hsize,
      col_major_index_rocblas_int_eq m n lda i2 j2 hlda hi2 hj2 hsize] at h
    obtain ⟨h1, h2⟩ := col_major_index_inj m lda i j i2 j2 hlda hi hi2 (by exact_mod_cast h)
    exact hne (by rw [h1, h2])
  · refine ⟨_, rfl, by decide, ?_⟩
    intro i j hi hj
    interval_cases i <;> interval_cases j <;> rfl

/-- C14: the test header forms the element index `i + j * lda` in `rocblas_int`,
and there column-major addressing is not in bounds and alias-free for every
matrix with lda ≥ m.  At m = 1, n = 32769, lda = 65536 (a valid shape of
`rocblas_int` values) the index of entry (0, 32768) is 2^31, which no
`rocblas_int` holds: the scaling loops issue their store to that entry with the
index -2^31, outside the buffer of lda·n elements.  At m = 1, n = 65537,
lda = 65536 the entries (0, 0) and (0, 65536) get the same index 0. -/
theorem column_major_index_overflows_at_two_to_31 :
    is_rocblas_int 1 ∧ is_rocblas_int 32769 ∧ is_rocblas_int 65536
      ∧ invalid_size 1 32769 65536 1 = false
      ∧ size_A_size_t 65536 32769 = 2147549184
      ∧ col_major_index_rocblas_int 0 32768 65536 = -2147483648
      ∧ ¬ (0 ≤ col_major_index_rocblas_int 0 32768 65536
          ∧ col_major_index_rocblas_int 0 32768 65536 < size_A_size_t 65536 32769)
      ∧ (∀ v : Int, is_rocblas_int v → v ≠ ((col_major_index 0 32768 65536 : Nat) : Int))
      ∧ (⟨0, -2147483648, HostWriteKind.sub_4⟩ : HostWrite)
          ∈ getf2_getrf_npvt_initData_scale_writes 1 32769 65536 0
      ∧ is_rocblas_int 65537
      ∧ invalid_size 1 65537 65536 1 = false
      ∧ col_major_index_rocblas_int 0 0 65536 = col_major_index_rocblas_int 0 65536 65536 := by
  have hs : size_A_size_t 65536 32769 = 2147549184 := by
    unfold size_A_size_t
    have h1 : ((65536 : Int) % 2 ^ 64).toNat = 65536 := by omega
    have h2 : ((32769 : Int) % 2 ^ 64).toNat = 32769 := by omega
    rw [h1, h2]
    norm_num
  have hi : col_major_index_rocblas_int 0 32768 65536 = -2147483648 := by decide
  refine ⟨by decide, by decide, by decide, by decide, hs, hi, ?_, ?_, ?_, by decide, by decide,
    by decide⟩
  · rw [hi]
    intro h
    exact absurd h.1 (by decide)
  · intro v hv
    unfold is_rocblas_int at hv
    unfold col_major_index
    omega
  · simp only [getf2_getrf_npvt_initData_scale_writes, List.mem_flatMap, List.mem_map,
      List.mem_range]
    exact ⟨0, by decide, 32768, by decide, by decide⟩

/-! ## Scaling of the test data -/

/-- The loop body writes the scaled value at the index of its entry. -/
theorem scale_entry_self (lda i j : Nat) (buf : Nat → ℚ) :
    getf2_getrf_npvt_initData_scale_entry lda i j buf (i + j * lda)
      = scaled_value i j (buf (i + j * lda)) := by
  unfold getf2_getrf_npvt_initData_scale_entry scaled_value
  split_ifs <;> simp

/-- The loop body leaves every other cell alone. -/
theorem scale_entry_other (lda i j k : Nat) (buf : Nat → ℚ) (hk : k ≠ i + j * lda) :
    getf2_getrf_npvt_initData_scale_entry lda i j buf k = buf k := by
  unfold getf2_getrf_npvt_initData_scale_entry
  split_ifs <;> simp [Function.update_noteq hk]

/-- The inner loop over the columns of row `i`. -/
theorem scale_row (lda i : Nat) (hl : 0 < lda) (n : Nat) (buf : Nat → ℚ) :
    (∀ j, j < n →
      (List.range n).foldl (fun buf j => getf2_getrf_npvt_initData_scale_entry lda i j buf) buf
          (i + j * lda) = scaled_value i j (buf (i + j * lda)))
    ∧ ∀ k, (∀ j, j < n → k ≠ i + j * lda) →
      (List.range n).foldl (fun buf j => getf2_getrf_npvt_initData_scale_entry lda i j buf) buf k
        = buf k := by
  induction n with
  | zero => simp
  | succ n ih =>
    rw [List.range_succ, List.foldl_append]
    simp only [List.foldl_cons, List.foldl_nil]
    constructor
    · intro j hj
      by_cases hjn : j = n
      · subst hjn
        rw [scale_entry_self, ih.2]
        intro j2 hj2 h
        have : j * lda = j2 * lda := by omega
        have := Nat.eq_of_mul_eq_mul_right hl this
        omega
      · rw [scale_entry_other, ih.1 j (by omega)]
        intro h
        have : j * lda = n * lda := by omega
        have := Nat.eq_of_mul_eq_mul_right hl this
        omega
    · intro k hk
      rw [scale_entry_other _ _ _ _ _ (hk n (by omega)), ih.2 k (fun j hj => hk j (by omega))]

/-- What the scaling loops do to the buffer: entry (i, j) of the m×n matrix gets
its scaled value, every other cell keeps its value. -/
theorem scale_apply (n lda : Nat) (m : Nat) (hlda : m ≤ lda) (buf : Nat → ℚ) :
    (∀ i j, i < m → j < n →
      getf2_getrf_npvt_initData_scale m n lda buf (i + j * lda)
        = scaled_value i j (buf (i + j * lda)))
    ∧ ∀ k, (∀ i j, i < m → j < n → k ≠ i + j * lda) →
      getf2_getrf_npvt_initData_scale m n lda buf k = buf k := by
  unfold getf2_getrf_npvt_initData_scale
  induction m with
  | zero => simp
  | succ m ih =>
    have ihm := ih (by omega)
    rw [List.range_succ, List.foldl_append]
    simp only [List.foldl_cons, List.foldl_nil]
    have hl : 0 < lda := by omega
    constructor
    · intro i j hi hj
      by_cases him : i = m
      · subst him
        rw [(scale_row lda i hl n _).1 j hj, ihm.2]
        intro i2 j2 hi2 _ h
        have := (col_major_index_inj (i + 1) lda i j i2 j2 hlda (by omega) (by omega) h).1
        omega
      · rw [(scale_row lda m hl n _).2, ihm.1 i j (by omega) hj]
        intro j2 _ h
        have := (col_major_index_inj (m + 1) lda i j m j2 hlda (by omega) (by omega) h).1
        omega
    · intro k hk
      rw [(scale_row lda m hl n _).2 k (fun j hj => hk m j (by omega) hj),
        ihm.2 k (fun i j hi hj => hk i j (by omega) hj)]

/-- Every cell of the sample buffer lies in [1, 10]. -/
theorem hA_68_range (k : Nat) : 1 ≤ hA_68 k ∧ hA_68 k ≤ 10 := by
  unfold hA_68
  split_ifs <;> norm_num

/-- C20 at a failing input: a 68×68 matrix with lda = 68 whose entries all lie in
[1, 10] (diagonal 1, elsewhere 10).  After the scaling loops row 0 has the
diagonal entry 401 and 67 off-diagonal entries 6, so |A[0][0]| = 401 is not
greater than Σ_{j ≠ 0} |A[0][j]| = 402: the row is not diagonally dominant. -/
theorem scaling_not_dominant_for_68_columns :
    (∀ k, 1 ≤ hA_68 k ∧ hA_68 k ≤ 10)
    ∧ ¬ row_dominant 68 68 (getf2_getrf_npvt_initData_scale 68 68 68 hA_68) 0 := by
  refine ⟨hA_68_range, ?_⟩
  unfold row_dominant col_major_index
  have hs := scale_apply 68 68 68 (le_refl _) hA_68
  have h0 : getf2_getrf_npvt_initData_scale 68 68 68 hA_68 (0 + 0 * 68) = 401 := by
    rw [hs.1 0 0 (by decide) (by decide)]
    norm_num [scaled_value, hA_68]
  have hj : ∀ j ∈ (Finset.range 68).erase 0,
      |getf2_getrf_npvt_initData_scale 68 68 68 hA_68 (0 + j * 68)| = 6 := by
    intro j hj
    rw [Finset.mem_erase, Finset.mem_range] at hj
    rw [hs.1 0 j (by decide) hj.2]
    have h1 : ¬ (0 = j) := fun h => hj.1 h.symm
    have h2 : ¬ ((0 + j * 68) % 69 = 0) := by omega
    simp only [scaled_value, hA_68, h1, h2, if_false]
    norm_num
  rw [h0, Finset.sum_congr rfl hj]
  simp
  norm_num

/-- For matrices with at most 67 columns, lda ≥ m and entries in [1, 10], the
scaling loops do leave every row i < min(m, n) strictly diagonally dominant. -/
theorem scaling_dominant_up_to_67_columns (m n lda : Nat) (hAb : Nat → ℚ) (hlda : m ≤ lda)
    (hn : n ≤ 67) (hrange : ∀ i j, i < m → j < n →
      1 ≤ hAb (col_major_index i j lda) ∧ hAb (col_major_index i j lda) ≤ 10)
    (i : Nat) (hi : i < min m n) :
    row_dominant n lda (getf2_getrf_npvt_initData_scale m n lda hAb) i := by
  have him : i < m := by omega
  have hin : i < n := by omega
  unfold row_dominant
  have hs := scale_apply n lda m hlda hAb
  unfold col_major_index at *
  have hd : (401 : ℚ) ≤ |getf2_getrf_npvt_initData_scale m n lda hAb (i + i * lda)| := by
    rw [hs.1 i i him hin]
    have := (hrange i i him hin).1
    simp only [scaled_value, if_true]
    rw [abs_of_nonneg (by linarith)]
    linarith
  have ho : ∀ j ∈ (Finset.range n).erase i,
      |getf2_getrf_npvt_initData_scale m n lda hAb (i + j * lda)| ≤ 6 := by
    intro j hj
    rw [Finset.mem_erase, Finset.mem_range] at hj
    rw [hs.1 i j him hj.2]
    have h1 : ¬ (i = j) := fun h => hj.1 h.symm
    have := hrange i j him hj.2
    simp only [scaled_value, h1, if_false]
    rw [abs_le]
    constructor <;> linarith
  have hsum := Finset.sum_le_card_nsmul _ _ _ ho
  have hcard : ((Finset.range n).erase i).card ≤ 66 := by
    rw [Finset.card_erase_of_mem (Finset.mem_range.mpr hin), Finset.card_range]
    omega
  have : (((Finset.range n).erase i).card : ℚ) ≤ 66 := by exact_mod_cast hcard
  rw [nsmul_eq_mul] at hsum
  linarith

/-! ## The no-pivot LU kernel -/

/-! ### Frame lemmas of one step -/

/-- A step does not touch the rows up to its own. -/
theorem getf2_npvt_step_row_le (m n k : Nat) (A : Mat) (i j : Nat) (h : ¬ k < i) :
    getf2_npvt_step m n k A i j = A i j := by
  simp [getf2_npvt_step, h]

/-- A step does not touch the columns before its own. -/
theorem getf2_npvt_step_col_lt (m n k : Nat) (A : Mat) (i j : Nat) (h : j < k) :
    getf2_npvt_step m n k A i j = A i j := by
  unfold getf2_npvt_step
  have h1 : ¬ j = k := by omega
  have h2 : ¬ (k < j ∧ j < n) := by omega
  simp [h1, h2]

/-- A step divides its column below the diagonal by a non-zero pivot. -/
theorem getf2_npvt_step_col (m n k : Nat) (A : Mat) (i : Nat) (h1 : k < i) (h2 : i < m) :
    getf2_npvt_step m n k A i k = if A k k = 0 then A i k else A i k / A k k := by
  simp [getf2_npvt_step, h1, h2]

/-- A step updates the trailing block with the multipliers and the pivot row. -/
theorem getf2_npvt_step_trailing (m n k : Nat) (A : Mat) (i j : Nat) (h1 : k < i) (h2 : i < m)
    (h3 : k < j) (h4 : j < n) :
    getf2_npvt_step m n k A i j
      = A i j - (if A k k = 0 then A i k else A i k / A k k) * A k j := by
  have h5 : ¬ j = k := by omega
  simp [getf2_npvt_step, h1, h2, h3, h4, h5]

/-! ### The status entry -/

/-- After `k` steps the status entry is 0 and no pivot so far was zero, or it is
the 1-indexed number of the first step whose pivot was zero. -/
theorem getf2_npvt_steps_info (m n : Nat) (A : Mat) (k : Nat) :
    ((getf2_npvt_steps m n A k).2 = 0 ∧ ∀ q, q < k → getf2_npvt_pivot m n A q ≠ 0)
    ∨ ∃ q, q < k ∧ (getf2_npvt_steps m n A k).2 = q + 1 ∧ getf2_npvt_pivot m n A q = 0
        ∧ ∀ q2, q2 < q → getf2_npvt_pivot m n A q2 ≠ 0 := by
  induction k with
  | zero => exact Or.inl ⟨rfl, fun q hq => absurd hq (Nat.not_lt_zero q)⟩
  | succ k ih =>
    rcases ih with ⟨h0, hp⟩ | ⟨q, hq, hi, hz, hp⟩
    · by_cases hk : getf2_npvt_pivot m n A k = 0
      · right
        refine ⟨k, by omega, ?_, hk, hp⟩
        unfold getf2_npvt_pivot at hk
        simp [getf2_npvt_steps, hk, h0]
      · left
        constructor
        · unfold getf2_npvt_pivot at hk
          simp [getf2_npvt_steps, hk, h0]
        · intro q hq
          by_cases hqk : q = k
          · rw [hqk]; exact hk
          · exact hp q (by omega)
    · right
      refine ⟨q, by omega, ?_, hz, hp⟩
      simp [getf2_npvt_steps, hi]

/-! ### A zero column stays zero -/

/-- Loop invariant of the elimination while no zero diagonal entry is met: after
`k` steps an entry of the finished part of L (column `j < k`, below the
diagonal) times its pivot, and every other entry, are the input entry minus
the products of the multipliers and pivot rows already formed. -/
theorem getf2_npvt_invariant (m n : Nat) (A : Mat) (k : Nat)
    (hp : ∀ q, q < k → getf2_npvt_pivot m n A q ≠ 0) :
    ∀ i j, i < m → j < n →
      ((j < i ∧ j < k) →
        (getf2_npvt_steps m n A k).1 i j * (getf2_npvt_steps m n A k).1 j j
          = A i j - ∑ p ∈ Finset.range j,
              (getf2_npvt_steps m n A k).1 i p * (getf2_npvt_steps m n A k).1 p j)
      ∧ (¬ (j < i ∧ j < k) →
        (getf2_npvt_steps m n A k).1 i j
          = A i j - ∑ p ∈ Finset.range (min k i),
              (getf2_npvt_steps m n A k).1 i p * (getf2_npvt_steps m n A k).1 p j) := by
  induction k with
  | zero =>
    intro i j _ _
    refine ⟨fun h => absurd h.2 (Nat.not_lt_zero j), fun _ => ?_⟩
    simp [getf2_npvt_steps]
  | succ k ih =>
    have ihk := ih (fun q hq => hp q (by omega))
    have hd : (getf2_npvt_steps m n A k).1 k k ≠ 0 := hp k (by omega)
    intro i j hi hj
    -- the entries of the columns and rows before `k` are not touched by step `k`
    have hcol : ∀ a b, b < k →
        (getf2_npvt_steps m n A (k + 1)).1 a b = (getf2_npvt_steps m n A k).1 a b :=
      fun a b hb => getf2_npvt_step_col_lt m n k _ a b hb
    have hrow : ∀ a b, a ≤ k →
        (getf2_npvt_steps m n A (k + 1)).1 a b = (getf2_npvt_steps m n A k).1 a b :=
      fun a b ha => getf2_npvt_step_row_le m n k _ a b (by omega)
    constructor
    · rintro ⟨hji, hjk⟩
      by_cases hjk2 : j < k
      · rw [hcol i j hjk2, hcol j j hjk2, (ihk i j hi hj).1 ⟨hji, hjk2⟩]
        congr 1
        apply Finset.sum_congr rfl
        intro p hp2
        rw [Finset.mem_range] at hp2
        rw [hcol i p (by omega), hrow p j (by omega)]
      · have hjk3 : j = k := by omega
        subst hjk3
        have e1 : (getf2_npvt_steps m n A (j + 1)).1 i j
            = (getf2_npvt_steps m n A j).1 i j / (getf2_npvt_steps m n A j).1 j j := by
          show getf2_npvt_step m n j _ i j = _
          rw [getf2_npvt_step_col m n j _ i hji hi, if_neg hd]
        rw [e1, hrow j j (le_refl _), div_mul_cancel₀ _ hd,
          (ihk i j hi hj).2 (by omega), Nat.min_eq_left (by omega)]
        congr 1
        apply Finset.sum_congr rfl
        intro p hp2
        rw [Finset.mem_range] at hp2
        rw [hcol i p (by omega), hrow p j (by omega)]
    · intro hnot
      by_cases hik : i ≤ k
      · rw [hrow i j hik, (ihk i j hi hj).2 (by omega), Nat.min_eq_right hik,
          Nat.min_eq_right (by omega)]
        congr 1
        apply Finset.sum_congr rfl
        intro p hp2
        rw [Finset.mem_range] at hp2
        rw [hcol i p (by omega), hrow p j (by omega)]
      · have hki : k < i := by omega
        have hkj : k < j := by omega
        have e1 : (getf2_npvt_steps m n A (k + 1)).1 i j
            = (getf2_npvt_steps m n A k).1 i j
              - (getf2_npvt_steps m n A k).1 i k / (getf2_npvt_steps m n A k).1 k k
                * (getf2_npvt_steps m n A k).1 k j := by
          show getf2_npvt_step m n k _ i j = _
          rw [getf2_npvt_step_trailing m n k _ i j hki hi hkj hj, if_neg hd]
        have e2 : (getf2_npvt_steps m n A (k + 1)).1 i k
            = (getf2_npvt_steps m n A k).1 i k / (getf2_npvt_steps m n A k).1 k k := by
          show getf2_npvt_step m n k _ i k = _
          rw [getf2_npvt_step_col m n k _ i hki hi, if_neg hd]
        rw [e1, (ihk i j hi hj).2 (by omega), Nat.min_eq_left (by omega),
          Nat.min_eq_left (by omega), Finset.sum_range_succ, e2, hrow k j (le_refl _)]
        have e3 : ∑ p ∈ Finset.range k,
              (getf2_npvt_steps m n A (k + 1)).1 i p * (getf2_npvt_steps m n A (k + 1)).1 p j
            = ∑ p ∈ Finset.range k,
              (getf2_npvt_steps m n A k).1 i p * (getf2_npvt_steps m n A k).1 p j := by
          apply Finset.sum_congr rfl
          intro p hp2
          rw [Finset.mem_range] at hp2
          rw [hcol i p (by omega), hrow p j (by omega)]
        rw [e3]
        ring

/-- A sum over `range r` whose terms vanish from `t` on is the sum over `range t`. -/
theorem sum_range_eq_of_zero (f : Nat → ℚ) (t r : Nat) (htr : t ≤ r)
    (hz : ∀ p, t ≤ p → f p = 0) :
    ∑ p ∈ Finset.range r, f p = ∑ p ∈ Finset.range t, f p := by
  symm
  apply Finset.sum_subset
  · intro x hx
    rw [Finset.mem_range] at *
    omega
  · intro x _ hx
    rw [Finset.mem_range] at hx
    exact hz x (by omega)

/-- The in-place result of a factorization that met no zero diagonal entry, read as
unit lower triangular L and upper triangular U, multiplies back to the input. -/
theorem getf2_npvt_factors (m n : Nat) (A : Mat) (h0 : (getf2_npvt m n A).2 = 0) :
    ∀ i j, i < m → j < n →
      mat_mul (min m n) (unit_lower (getf2_npvt m n A).1) (upper (getf2_npvt m n A).1) i j
        = A i j := by
  have hp : ∀ q, q < min m n → getf2_npvt_pivot m n A q ≠ 0 := by
    rcases getf2_npvt_steps_info m n A (min m n) with ⟨_, hp⟩ | ⟨q, _, hi, _, _⟩
    · exact hp
    · unfold getf2_npvt at h0
      omega
  have inv := getf2_npvt_invariant m n A (min m n) hp
  intro i j hi hj
  unfold mat_mul getf2_npvt
  by_cases hij : i ≤ j
  · have hir : i < min m n := by omega
    rw [sum_range_eq_of_zero _ (i + 1) (min m n) (by omega), Finset.sum_range_succ]
    · have e := (inv i j hi hj).2 (by omega)
      rw [Nat.min_eq_right (show i ≤ min m n by omega)] at e
      have e2 : ∑ p ∈ Finset.range i, unit_lower (getf2_npvt_steps m n A (min m n)).1 i p
            * upper (getf2_npvt_steps m n A (min m n)).1 p j
          = ∑ p ∈ Finset.range i, (getf2_npvt_steps m n A (min m n)).1 i p
            * (getf2_npvt_steps m n A (min m n)).1 p j := by
        apply Finset.sum_congr rfl
        intro p hp2
        rw [Finset.mem_range] at hp2
        have h1 : ¬ i = p := by omega
        have h2 : p ≤ j := by omega
        simp [unit_lower, upper, h1, hp2, h2]
      rw [e2]
      simp only [unit_lower, upper, if_true, hij, one_mul]
      rw [e]
      ring
    · intro p hp2
      have h1 : ¬ i = p := by omega
      have h2 : ¬ p < i := by omega
      simp [unit_lower, h1, h2]
  · have hji : j < i := by omega
    have hjr : j < min m n := by omega
    rw [sum_range_eq_of_zero _ (j + 1) (min m n) (by omega), Finset.sum_range_succ]
    · have e := (inv i j hi hj).1 ⟨hji, hjr⟩
      have e2 : ∑ p ∈ Finset.range j, unit_lower (getf2_npvt_steps m n A (min m n)).1 i p
            * upper (getf2_npvt_steps m n A (min m n)).1 p j
          = ∑ p ∈ Finset.range j, (getf2_npvt_steps m n A (min m n)).1 i p
            * (getf2_npvt_steps m n A (min m n)).1 p j := by
        apply Finset.sum_congr rfl
        intro p hp2
        rw [Finset.mem_range] at hp2
        have h1 : ¬ i = p := by omega
        have h2 : p < i := by omega
        have h3 : p ≤ j := by omega
        simp [unit_lower, upper, h1, h2, h3]
      rw [e2]
      have h1 : ¬ i = j := by omega
      simp only [unit_lower, upper, h1, hji, if_true, if_false, le_refl]
      rw [e]
      ring
    · intro p hp2
      have h1 : ¬ p ≤ j := by omega
      simp [upper, h1]

/-! ### The claims on the no-pivot LU kernel -/

/-- C12: for every m×n input matrix that the no-pivot LU kernel factors with
status 0 (no step meets a zero diagonal entry), the in-place result, read as a
unit lower triangular L and an upper triangular U, satisfies L·U = A entry for
entry in exact arithmetic; hence the squared Frobenius norm of the residual
A − L·U, the numerator of the relative residual, is zero. -/
theorem getf2_npvt_factors_reproduce_input (m n : Nat) (A : Mat)
    (h0 : (getf2_npvt m n A).2 = 0) :
    (∀ i j, i < m → j < n →
      mat_mul (min m n) (unit_lower (getf2_npvt m n A).1) (upper (getf2_npvt m n A).1) i j
        = A i j)
    ∧ frobenius_residual_sq m n A
        (mat_mul (min m n) (unit_lower (getf2_npvt m n A).1) (upper (getf2_npvt m n A).1)) = 0 := by
  have h := getf2_npvt_factors m n A h0
  refine ⟨h, ?_⟩
  unfold frobenius_residual_sq
  apply Finset.sum_eq_zero
  intro i hi
  apply Finset.sum_eq_zero
  intro j hj
  rw [Finset.mem_range] at hi hj
  rw [h i j hi hj]
  ring

/-- Witness of C12: the sample 3×3 matrix is factored with status 0, and entry
(2, 1) of L·U is entry (2, 1) of the input. -/
theorem getf2_npvt_factors_reproduce_input_witness :
    mat_mul (min 3 3) (unit_lower (getf2_npvt 3 3 sample_A).1) (upper (getf2_npvt 3 3 sample_A).1)
      2 1 = sample_A 2 1 :=
  (getf2_npvt_factors_reproduce_input 3 3 sample_A
    (by norm_num [getf2_npvt, getf2_npvt_steps, getf2_npvt_step, sample_A])).1 2 1
    (by decide) (by decide)

/-! ### Triangular solves -/

/-- Loop invariant of forward substitution: the first `i` rows are solved, the
others still hold the right-hand side. -/
theorem trsm_lower_unit_invariant (F R : Mat) (i : Nat) :
    (∀ a c, a < i →
      trsm_lower_unit_steps F R i a c
        = R a c - ∑ p ∈ Finset.range a, F a p * trsm_lower_unit_steps F R i p c)
    ∧ ∀ a c, i ≤ a → trsm_lower_unit_steps F R i a c = R a c := by
  induction i with
  | zero => exact ⟨fun a c h => absurd h (Nat.not_lt_zero a), fun _ _ _ => rfl⟩
  | succ i ih =>
    have hold : ∀ a c, a ≠ i →
        trsm_lower_unit_steps F R (i + 1) a c = trsm_lower_unit_steps F R i a c := by
      intro a c ha
      simp [trsm_lower_unit_steps, ha]
    constructor
    · intro a c ha
      have hsum : ∑ p ∈ Finset.range a, F a p * trsm_lower_unit_steps F R (i + 1) p c
          = ∑ p ∈ Finset.range a, F a p * trsm_lower_unit_steps F R i p c := by
        apply Finset.sum_congr rfl
        intro p hp
        rw [Finset.mem_range] at hp
        rw [hold p c (by omega)]
      rw [hsum]
      by_cases hai : a = i
      · subst hai
        simp only [trsm_lower_unit_steps, if_true]
        rw [ih.2 a c (le_refl _)]
      · rw [hold a c hai, ih.1 a c (by omega)]
    · intro a c ha
      rw [hold a c (by omega), ih.2 a c (by omega)]

/-- Forward substitution solves `L · Y = R` on the rows below `nb`. -/
theorem trsm_lower_unit_solves (nb : Nat) (F R : Mat) (a c : Nat) (ha : a < nb) :
    mat_mul nb (unit_lower F) (trsm_lower_unit_steps F R nb) a c = R a c := by
  have h := (trsm_lower_unit_invariant F R nb).1 a c ha
  unfold mat_mul
  rw [sum_range_eq_of_zero _ (a + 1) nb (by omega), Finset.sum_range_succ]
  · have e2 : ∑ p ∈ Finset.range a, unit_lower F a p * trsm_lower_unit_steps F R nb p c
        = ∑ p ∈ Finset.range a, F a p * trsm_lower_unit_steps F R nb p c := by
      apply Finset.sum_congr rfl
      intro p hp
      rw [Finset.mem_range] at hp
      have h1 : ¬ a = p := by omega
      simp [unit_lower, h1, hp]
    rw [e2]
    simp only [unit_lower, if_true, one_mul]
    rw [h]
    ring
  · intro p hp
    have h1 : ¬ a = p := by omega
    have h2 : ¬ p < a := by omega
    simp [unit_lower, h1, h2]

/-- Loop invariant of backward substitution: the last `s` rows are solved, the
others still hold the right-hand side. -/
theorem trsm_upper_invariant (nb : Nat) (F Y : Mat) (hd : ∀ a, a < nb → F a a ≠ 0) (s : Nat)
    (hs : s ≤ nb) :
    (∀ a c, a < nb → nb - s ≤ a →
      trsm_upper_steps nb F Y s a c * F a a
        = Y a c - ∑ p ∈ Finset.range nb,
            if a < p then F a p * trsm_upper_steps nb F Y s p c else 0)
    ∧ ∀ a c, a < nb - s → trsm_upper_steps nb F Y s a c = Y a c := by
  induction s with
  | zero =>
    exact ⟨fun a c h1 h2 => absurd h2 (by omega), fun _ _ _ => rfl⟩
  | succ s ih =>
    have ihs := ih (by omega)
    have hold : ∀ a c, a ≠ nb - 1 - s →
        trsm_upper_steps nb F Y (s + 1) a c = trsm_upper_steps nb F Y s a c := by
      intro a c ha
      simp [trsm_upper_steps, ha]
    constructor
    · intro a c ha1 ha2
      have hsum : (∑ p ∈ Finset.range nb,
            if a < p then F a p * trsm_upper_steps nb F Y (s + 1) p c else 0)
          = ∑ p ∈ Finset.range nb,
            if a < p then F a p * trsm_upper_steps nb F Y s p c else 0 := by
        apply Finset.sum_congr rfl
        intro p _
        by_cases hap : a < p
        · rw [if_pos hap, if_pos hap, hold p c (by omega)]
        · rw [if_neg hap, if_neg hap]
      rw [hsum]
      by_cases hai : a = nb - 1 - s
      · have e : trsm_upper_steps nb F Y (s + 1) a c
            = (trsm_upper_steps nb F Y s a c - ∑ p ∈ Finset.range nb,
                if a < p then F a p * trsm_upper_steps nb F Y s p c else 0) / F a a := by
          subst hai
          simp [trsm_upper_steps]
        rw [e, div_mul_cancel₀ _ (hd a ha1), ihs.2 a c (by omega)]
      · rw [hold a c hai, ihs.1 a c ha1 (by omega)]
    · intro a c ha
      rw [hold a c (by omega), ihs.2 a c (by omega)]

/-- Backward substitution solves `U · X = Y` on the rows below `nb` when the
diagonal of `U` has no zero. -/
theorem trsm_upper_solves (nb : Nat) (F Y : Mat) (hd : ∀ a, a < nb → F a a ≠ 0) (a c : Nat)
    (ha : a < nb) :
    mat_mul nb (upper F) (trsm_upper_steps nb F Y nb) a c = Y a c := by
  have h := (trsm_upper_invariant nb F Y hd nb (le_refl _)).1 a c ha (by omega)
  unfold mat_mul
  have e : ∀ p ∈ Finset.range nb, upper F a p * trsm_upper_steps nb F Y nb p c
      = (if p = a then trsm_upper_steps nb F Y nb a c * F a a else 0)
        + (if a < p then F a p * trsm_upper_steps nb F Y nb p c else 0) := by
    intro p _
    rcases Nat.lt_trichotomy a p with h1 | h1 | h1
    · have h2 : ¬ p = a := by omega
      simp [upper, h1, h2, le_of_lt h1]
    · subst h1
      simp [upper]
      ring
    · have h2 : ¬ p = a := by omega
      have h3 : ¬ a ≤ p := by omega
      have h4 : ¬ a < p := by omega
      simp [upper, h2, h3, h4]
  rw [Finset.sum_congr rfl e, Finset.sum_add_distrib, Finset.sum_ite_eq', h]
  simp [ha]

/-! ### The solve call on the factors of a block -/

/-- The matrix product is associative. -/
theorem mat_mul_assoc (r : Nat) (X Y Z : Mat) (i j : Nat) :
    mat_mul r (mat_mul r X Y) Z i j = mat_mul r X (mat_mul r Y Z) i j := by
  unfold mat_mul
  simp_rw [Finset.sum_mul, Finset.mul_sum]
  rw [Finset.sum_comm]
  apply Finset.sum_congr rfl
  intro q _
  apply Finset.sum_congr rfl
  intro p _
  ring

/-- The product reads only the first `r` columns of row `i` of its left factor. -/
theorem mat_mul_congr_left (r : Nat) (X X2 Y : Mat) (i j : Nat)
    (h : ∀ p, p < r → X i p = X2 i p) : mat_mul r X Y i j = mat_mul r X2 Y i j := by
  unfold mat_mul
  apply Finset.sum_congr rfl
  intro p hp
  rw [Finset.mem_range] at hp
  rw [h p hp]

/-- The product reads only the first `r` rows of column `j` of its right factor. -/
theorem mat_mul_congr_right (r : Nat) (X Y Y2 : Mat) (i j : Nat)
    (h : ∀ p, p < r → Y p j = Y2 p j) : mat_mul r X Y i j = mat_mul r X Y2 i j := by
  unfold mat_mul
  apply Finset.sum_congr rfl
  intro p hp
  rw [Finset.mem_range] at hp
  rw [h p hp]

/-- The product distributes over a difference on the right. -/
theorem mat_mul_sub_right (r : Nat) (X Y Z : Mat) (i j : Nat) :
    mat_mul r X (fun a c => Y a c - Z a c) i j = mat_mul r X Y i j - mat_mul r X Z i j := by
  unfold mat_mul
  rw [← Finset.sum_sub_distrib]
  apply Finset.sum_congr rfl
  intro p _
  ring

/-- Rows up to `k` are final after `k` steps: later steps do not touch them. -/
theorem getf2_npvt_steps_row_final (m n : Nat) (A : Mat) (a j k : Nat) (hk : a ≤ k) :
    (getf2_npvt_steps m n A k).1 a j = (getf2_npvt_steps m n A a).1 a j := by
  induction k with
  | zero =>
    have : a = 0 := by omega
    rw [this]
  | succ k ih =>
    by_cases hak : a = k + 1
    · rw [hak]
    · have e : (getf2_npvt_steps m n A (k + 1)).1 a j = (getf2_npvt_steps m n A k).1 a j :=
        getf2_npvt_step_row_le m n k _ a j (by omega)
      rw [e, ih (by omega)]

/-- The diagonal of the result of a factorization with status 0 has no zero. -/
theorem getf2_npvt_diag_ne_zero (m n : Nat) (A : Mat) (h0 : (getf2_npvt m n A).2 = 0) (a : Nat)
    (ha : a < min m n) : (getf2_npvt m n A).1 a a ≠ 0 := by
  have hp : ∀ q, q < min m n → getf2_npvt_pivot m n A q ≠ 0 := by
    rcases getf2_npvt_steps_info m n A (min m n) with ⟨_, hp⟩ | ⟨q, _, hi, _, _⟩
    · exact hp
    · unfold getf2_npvt at h0
      omega
  unfold getf2_npvt
  rw [getf2_npvt_steps_row_final m n A a a (min m n) (by omega)]
  exact hp a ha

/-- The solve call on the factors of a block `D` factored with status 0 solves
`D · X = R`. -/
theorem getrs_npvt_solves (nb : Nat) (D R : Mat) (h0 : (getf2_npvt nb nb D).2 = 0) (a c : Nat)
    (ha : a < nb) :
    mat_mul nb D (getrs_npvt nb (getf2_npvt nb nb D).1 R) a c = R a c := by
  have hd : ∀ q, q < nb → (getf2_npvt nb nb D).1 q q ≠ 0 :=
    fun q hq => getf2_npvt_diag_ne_zero nb nb D h0 q (by simpa using hq)
  have hlu := getf2_npvt_factors nb nb D h0
  rw [Nat.min_self] at hlu
  rw [mat_mul_congr_left nb D
    (mat_mul nb (unit_lower (getf2_npvt nb nb D).1) (upper (getf2_npvt nb nb D).1)) _ a c
    (fun p hp => (hlu a p ha hp).symm)]
  rw [mat_mul_assoc]
  unfold getrs_npvt
  rw [mat_mul_congr_right nb _ _ (trsm_lower_unit_steps (getf2_npvt nb nb D).1 R nb) a c
    (fun p hp => trsm_upper_solves nb _ _ hd p c hp)]
  exact trsm_lower_unit_solves nb _ R a c ha

/-! ### The block-tridiagonal factorization -/

/-- The diagonal blocks after one more block step. -/
theorem geblttrf_npvt_steps_succ_B (nb nblocks : Nat) (A B C : Nat → Mat) (k : Nat) :
    (geblttrf_npvt_steps nb nblocks A B C (k + 1)).1
      = Function.update (geblttrf_npvt_steps nb nblocks A B C k).1 k
          (getf2_npvt nb nb (eliminate_coupling nb A (geblttrf_npvt_steps nb nblocks A B C k).1
            (geblttrf_npvt_steps nb nblocks A B C k).2.1 k)).1 := rfl

/-- The super-diagonal blocks after one more block step. -/
theorem geblttrf_npvt_steps_succ_C (nb nblocks : Nat) (A B C : Nat → Mat) (k : Nat) :
    (geblttrf_npvt_steps nb nblocks A B C (k + 1)).2.1
      = if k + 1 < nblocks then
          Function.update (geblttrf_npvt_steps nb nblocks A B C k).2.1 k
            (getrs_npvt nb
              (getf2_npvt nb nb (eliminate_coupling nb A
                (geblttrf_npvt_steps nb nblocks A B C k).1
                (geblttrf_npvt_steps nb nblocks A B C k).2.1 k)).1
              ((geblttrf_npvt_steps nb nblocks A B C k).2.1 k))
        else (geblttrf_npvt_steps nb nblocks A B C k).2.1 := rfl

/-- The status entry after one more block step. -/
theorem geblttrf_npvt_steps_succ_info (nb nblocks : Nat) (A B C : Nat → Mat) (k : Nat) :
    (geblttrf_npvt_steps nb nblocks A B C (k + 1)).2.2
      = if (geblttrf_npvt_steps nb nblocks A B C k).2.2 = 0
          ∧ (getf2_npvt nb nb (eliminate_coupling nb A (geblttrf_npvt_steps nb nblocks A B C k).1
            (geblttrf_npvt_steps nb nblocks A B C k).2.1 k)).2 ≠ 0
        then k * nb + (getf2_npvt nb nb (eliminate_coupling nb A
            (geblttrf_npvt_steps nb nblocks A B C k).1
            (geblttrf_npvt_steps nb nblocks A B C k).2.1 k)).2
        else (geblttrf_npvt_steps nb nblocks A B C k).2.2 := rfl

/-- Blocks from `k` on are untouched by the first `k` block steps. -/
theorem geblttrf_npvt_steps_untouched (nb nblocks : Nat) (A B C : Nat → Mat) (k j : Nat)
    (h : k ≤ j) :
    (geblttrf_npvt_steps nb nblocks A B C k).1 j = B j
    ∧ (geblttrf_npvt_steps nb nblocks A B C k).2.1 j = C j := by
  induction k with
  | zero => exact ⟨rfl, rfl⟩
  | succ k ih =>
    have ihk := ih (by omega)
    have hne : j ≠ k := by omega
    constructor
    · rw [geblttrf_npvt_steps_succ_B, Function.update_noteq hne, ihk.1]
    · rw [geblttrf_npvt_steps_succ_C]
      split_ifs
      · rw [Function.update_noteq hne, ihk.2]
      · exact ihk.2

/-- Block `j` is final once step `j` is done. -/
theorem geblttrf_npvt_steps_final (nb nblocks : Nat) (A B C : Nat → Mat) (k j : Nat)
    (h : j < k) :
    (geblttrf_npvt_steps nb nblocks A B C k).1 j
      = (geblttrf_npvt_steps nb nblocks A B C (j + 1)).1 j
    ∧ (geblttrf_npvt_steps nb nblocks A B C k).2.1 j
      = (geblttrf_npvt_steps nb nblocks A B C (j + 1)).2.1 j := by
  induction k with
  | zero => omega
  | succ k ih =>
    by_cases hjk : j = k
    · subst hjk
      exact ⟨rfl, rfl⟩
    · have ihk := ih (by omega)
      constructor
      · rw [← ihk.1, geblttrf_npvt_steps_succ_B, Function.update_noteq hjk]
      · rw [← ihk.2, geblttrf_npvt_steps_succ_C]
        split_ifs
        · rw [Function.update_noteq hjk]
        · rfl

/-- A zero status after `k + 1` block steps: the status was zero after `k` steps
and the factorization of the diagonal block of step `k` met no zero pivot. -/
theorem geblttrf_npvt_steps_status (nb nblocks : Nat) (A B C : Nat → Mat) (k : Nat)
    (h0 : (geblttrf_npvt_steps nb nblocks A B C (k + 1)).2.2 = 0) :
    (geblttrf_npvt_steps nb nblocks A B C k).2.2 = 0
    ∧ (getf2_npvt nb nb (eliminate_coupling nb A (geblttrf_npvt_steps nb nblocks A B C k).1
        (geblttrf_npvt_steps nb nblocks A B C k).2.1 k)).2 = 0 := by
  rw [geblttrf_npvt_steps_succ_info] at h0
  split_ifs at h0 with h1
  · omega
  · by_cases hs : (geblttrf_npvt_steps nb nblocks A B C k).2.2 = 0
    · refine ⟨hs, ?_⟩
      by_contra hf
      exact h1 ⟨hs, hf⟩
    · exact absurd h0 hs

/-- With a zero final status, every block step met no zero pivot. -/
theorem geblttrf_npvt_steps_all_status (nb nblocks : Nat) (A B C : Nat → Mat) (K : Nat)
    (h0 : (geblttrf_npvt_steps nb nblocks A B C K).2.2 = 0) (k : Nat) (hk : k < K) :
    (getf2_npvt nb nb (eliminate_coupling nb A (geblttrf_npvt_steps nb nblocks A B C k).1
        (geblttrf_npvt_steps nb nblocks A B C k).2.1 k)).2 = 0 := by
  induction K with
  | zero => omega
  | succ K ih =>
    have h := geblttrf_npvt_steps_status nb nblocks A B C K h0
    by_cases hkK : k = K
    · rw [hkK]
      exact h.2
    · exact ih h.1 (by omega)

/-- The block that block step `k` factors is made of the input diagonal block and
the final factored super-diagonal block of the previous block row. -/
theorem geblttrf_npvt_factored_block (nb nblocks : Nat) (A B C : Nat → Mat) (k : Nat)
    (hk : k < nblocks) :
    eliminate_coupling nb A (geblttrf_npvt_steps nb nblocks A B C k).1
        (geblttrf_npvt_steps nb nblocks A B C k).2.1 k
      = eliminate_coupling nb A B (geblttrf_npvt nb nblocks A B C).2.1 k := by
  unfold eliminate_coupling geblttrf_npvt
  rw [(geblttrf_npvt_steps_untouched nb nblocks A B C k k (le_refl _)).1]
  by_cases h : k = 0
  · simp [h]
  · rw [if_neg h, if_neg h]
    have e1 := (geblttrf_npvt_steps_final nb nblocks A B C k (k - 1) (by omega)).2
    have e2 := (geblttrf_npvt_steps_final nb nblocks A B C nblocks (k - 1) (by omega)).2
    rw [e1, e2]

/-- What a factorization with status 0 leaves: every diagonal block holds the
no-pivot LU factors, computed with status 0, of the input diagonal block with
its sub-diagonal coupling eliminated, and every super-diagonal block holds the
solve call on these factors applied to the input super-diagonal block. -/
theorem geblttrf_npvt_spec (nb nblocks : Nat) (A B C : Nat → Mat)
    (h0 : (geblttrf_npvt nb nblocks A B C).2.2 = 0) (k : Nat) (hk : k < nblocks) :
    (geblttrf_npvt nb nblocks A B C).1 k
        = (getf2_npvt nb nb
            (eliminate_coupling nb A B (geblttrf_npvt nb nblocks A B C).2.1 k)).1
    ∧ (getf2_npvt nb nb
        (eliminate_coupling nb A B (geblttrf_npvt nb nblocks A B C).2.1 k)).2 = 0
    ∧ (k + 1 < nblocks →
      (geblttrf_npvt nb nblocks A B C).2.1 k
        = getrs_npvt nb ((geblttrf_npvt nb nblocks A B C).1 k) (C k)) := by
  have hD := geblttrf_npvt_factored_block nb nblocks A B C k hk
  have hB : (geblttrf_npvt nb nblocks A B C).1 k
      = (getf2_npvt nb nb
          (eliminate_coupling nb A B (geblttrf_npvt nb nblocks A B C).2.1 k)).1 := by
    rw [← hD]
    unfold geblttrf_npvt
    rw [(geblttrf_npvt_steps_final nb nblocks A B C nblocks k hk).1, geblttrf_npvt_steps_succ_B,
      Function.update_same]
  refine ⟨hB, ?_, fun hk1 => ?_⟩
  · rw [← hD]
    exact geblttrf_npvt_steps_all_status nb nblocks A B C nblocks h0 k hk
  · rw [hB, ← hD]
    unfold geblttrf_npvt
    rw [(geblttrf_npvt_steps_final nb nblocks A B C nblocks k hk).2, geblttrf_npvt_steps_succ_C,
      if_pos hk1, Function.update_same,
      (geblttrf_npvt_steps_untouched nb nblocks A B C k k (le_refl _)).2]

/-! ### The block-tridiagonal solve -/

/-- Block row 0 has no coupling to eliminate. -/
theorem eliminate_coupling_zero (nb : Nat) (A P Q : Nat → Mat) :
    eliminate_coupling nb A P Q 0 = P 0 := by
  simp [eliminate_coupling]

/-- The entries of a block with its sub-diagonal coupling eliminated. -/
theorem eliminate_coupling_pos (nb : Nat) (A P Q : Nat → Mat) (k : Nat) (hk : 0 < k)
    (i j : Nat) :
    eliminate_coupling nb A P Q k i j = P k i j - mat_mul nb (A (k - 1)) (Q (k - 1)) i j := by
  have h : ¬ k = 0 := by omega
  simp [eliminate_coupling, h]

/-- Blocks from `k` on are untouched by the first `k` forward steps. -/
theorem geblttrs_npvt_forward_untouched (nb : Nat) (A Bf X : Nat → Mat) (k j : Nat)
    (h : k ≤ j) : geblttrs_npvt_forward nb A Bf X k j = X j := by
  induction k with
  | zero => rfl
  | succ k ih =>
    have hne : j ≠ k := by omega
    simp only [geblttrs_npvt_forward]
    rw [Function.update_noteq hne, ih (by omega)]

/-- Block `j` is final once forward step `j` is done. -/
theorem geblttrs_npvt_forward_final (nb : Nat) (A Bf X : Nat → Mat) (k j : Nat) (h : j < k) :
    geblttrs_npvt_forward nb A Bf X k j = geblttrs_npvt_forward nb A Bf X (j + 1) j := by
  induction k with
  | zero => omega
  | succ k ih =>
    by_cases hjk : j = k
    · rw [hjk]
    · rw [← ih (by omega)]
      simp only [geblttrs_npvt_forward]
      rw [Function.update_noteq hjk]

/-- What forward substitution leaves in block `k`. -/
theorem geblttrs_npvt_forward_spec (nb : Nat) (A Bf X : Nat → Mat) (K k : Nat) (hk : k < K) :
    geblttrs_npvt_forward nb A Bf X K k
      = getrs_npvt nb (Bf k)
          (eliminate_coupling nb A X (geblttrs_npvt_forward nb A Bf X K) k) := by
  rw [geblttrs_npvt_forward_final nb A Bf X K k hk]
  simp only [geblttrs_npvt_forward]
  rw [Function.update_same]
  unfold eliminate_coupling
  rw [geblttrs_npvt_forward_untouched nb A Bf X k k (le_refl _)]
  by_cases h : k = 0
  · simp [h]
  · rw [if_neg h, if_neg h]
    have e1 := geblttrs_npvt_forward_final nb A Bf X k (k - 1) (by omega)
    have e2 := geblttrs_npvt_forward_final nb A Bf X K (k - 1) (by omega)
    rw [e1, e2]

/-- Blocks above the ones processed, and the last block, are untouched by the
first `s` backward steps. -/
theorem geblttrs_npvt_backward_untouched (nb nblocks : Nat) (Cf Y : Nat → Mat) (s j : Nat)
    (hs : s + 1 ≤ nblocks) (h : j + s + 1 < nblocks ∨ nblocks ≤ j + 1) :
    geblttrs_npvt_backward nb nblocks Cf Y s j = Y j := by
  induction s with
  | zero => rfl
  | succ s ih =>
    have hne : j ≠ nblocks - 2 - s := by omega
    simp only [geblttrs_npvt_backward]
    rw [Function.update_noteq hne, ih (by omega) (by omega)]

/-- What backward substitution leaves in the blocks it has processed. -/
theorem geblttrs_npvt_backward_spec (nb nblocks : Nat) (Cf Y : Nat → Mat) (s : Nat)
    (hs : s + 1 ≤ nblocks) (j : Nat) (hj1 : nblocks ≤ j + s + 1) (hj2 : j + 1 < nblocks) :
    geblttrs_npvt_backward nb nblocks Cf Y s j
      = fun i c => Y j i c
          - mat_mul nb (Cf j) (geblttrs_npvt_backward nb nblocks Cf Y s (j + 1)) i c := by
  induction s with
  | zero => omega
  | succ s ih =>
    have hnext : geblttrs_npvt_backward nb nblocks Cf Y (s + 1) (j + 1)
        = geblttrs_npvt_backward nb nblocks Cf Y s (j + 1) := by
      have hne : j + 1 ≠ nblocks - 2 - s := by omega
      simp only [geblttrs_npvt_backward]
      rw [Function.update_noteq hne]
    rw [hnext]
    by_cases hjk : j = nblocks - 2 - s
    · simp only [geblttrs_npvt_backward]
      rw [← hjk, Function.update_same,
        geblttrs_npvt_backward_untouched nb nblocks Cf Y s j (by omega) (Or.inl (by omega))]
    · have e : geblttrs_npvt_backward nb nblocks Cf Y (s + 1) j
          = geblttrs_npvt_backward nb nblocks Cf Y s j := by
        simp only [geblttrs_npvt_backward]
        rw [Function.update_noteq hjk]
      rw [e, ih (by omega) (by omega)]

/-! ### Factor, then solve -/

/-- The product distributes over a sum on the left. -/
theorem mat_mul_add_left (r : Nat) (P Q Y : Mat) (i j : Nat) :
    mat_mul r (fun a p => P a p + Q a p) Y i j = mat_mul r P Y i j + mat_mul r Q Y i j := by
  unfold mat_mul
  rw [← Finset.sum_add_distrib]
  apply Finset.sum_congr rfl
  intro p _
  ring

/-- The algebra of one block row: from the relations that the factorization and
the two substitution sweeps establish, block row `k` of the product of the
input system with the computed solution is block `k` of the right-hand side. -/
theorem block_row_identity (nb nblocks : Nat) (A B C X D Cf Y Z : Nat → Mat)
    (hB0 : ∀ a p, B 0 a p = D 0 a p)
    (hB : ∀ k, 0 < k → ∀ a p, B k a p = D k a p + mat_mul nb (A (k - 1)) (Cf (k - 1)) a p)
    (hC : ∀ k, k + 1 < nblocks → ∀ a c, a < nb → mat_mul nb (D k) (Cf k) a c = C k a c)
    (hY0 : ∀ a c, a < nb → mat_mul nb (D 0) (Y 0) a c = X 0 a c)
    (hY : ∀ k, 0 < k → k < nblocks → ∀ a c, a < nb →
      mat_mul nb (D k) (Y k) a c = X k a c - mat_mul nb (A (k - 1)) (Y (k - 1)) a c)
    (hZlast : Z (nblocks - 1) = Y (nblocks - 1))
    (hZ : ∀ k, k + 1 < nblocks → ∀ a c,
      Z k a c = Y k a c - mat_mul nb (Cf k) (Z (k + 1)) a c)
    (k : Nat) (hk : k < nblocks) (a c : Nat) (ha : a < nb) :
    block_tridiagonal_mul nb nblocks A B C Z k a c = X k a c := by
  -- the diagonal block row of the factored system applied to the solution
  have hDZ : mat_mul nb (D k) (Z k) a c
      = mat_mul nb (D k) (Y k) a c
        - (if k + 1 < nblocks then mat_mul nb (C k) (Z (k + 1)) a c else 0) := by
    by_cases h : k + 1 < nblocks
    · rw [if_pos h, mat_mul_congr_right nb (D k) (Z k)
        (fun a c => Y k a c - mat_mul nb (Cf k) (Z (k + 1)) a c) a c (fun p _ => hZ k h p c),
        mat_mul_sub_right, ← mat_mul_assoc,
        mat_mul_congr_left nb (mat_mul nb (D k) (Cf k)) (C k) (Z (k + 1)) a c
          (fun p _ => hC k h a p ha)]
    · have e : k = nblocks - 1 := by omega
      rw [if_neg h, e, hZlast]
      simp
  unfold block_tridiagonal_mul
  by_cases h0 : k = 0
  · subst h0
    rw [if_neg (Nat.lt_irrefl 0), mat_mul_congr_left nb (B 0) (D 0) (Z 0) a c (fun p _ => hB0 a p),
      hDZ, hY0 a c ha]
    ring
  · have hpos : 0 < k := by omega
    have hprev : (k - 1) + 1 = k := by omega
    have hZp : ∀ p, p < nb → Z (k - 1) p c
        = Y (k - 1) p c - mat_mul nb (Cf (k - 1)) (Z k) p c := by
      intro p _
      have := hZ (k - 1) (by omega) p c
      rw [hprev] at this
      exact this
    rw [if_pos hpos, mat_mul_congr_right nb (A (k - 1)) (Z (k - 1))
        (fun a c => Y (k - 1) a c - mat_mul nb (Cf (k - 1)) (Z k) a c) a c hZp,
      mat_mul_sub_right, ← mat_mul_assoc,
      mat_mul_congr_left nb (B k)
        (fun a p => D k a p + mat_mul nb (A (k - 1)) (Cf (k - 1)) a p) (Z k) a c
        (fun p _ => hB k hpos a p),
      mat_mul_add_left, hDZ, hY k hpos hk a c ha]
    ring

/-- C13: for every block-tridiagonal system (A, B, C) of nblocks blocks of size
nb×nb whose factorization by `geblttrf_npvt` reports status 0, and every
right-hand side X with nrhs columns, `geblttrs_npvt` on the factored system
overwrites X with a solution of (A, B, C)·X = RHS: every block row of the
product of the input system with the result is the corresponding block of the
right-hand side, exactly. -/
theorem geblttrs_npvt_solves_factored_system (nb nblocks nrhs : Nat) (A B C X : Nat → Mat)
    (h0 : (geblttrf_npvt nb nblocks A B C).2.2 = 0) :
    ∀ k i c, k < nblocks → i < nb → c < nrhs →
      block_tridiagonal_mul nb nblocks A B C
          (geblttrs_npvt nb nblocks nrhs A (geblttrf_npvt nb nblocks A B C).1
            (geblttrf_npvt nb nblocks A B C).2.1 X) k i c
        = X k i c := by
  intro k i c hk hi hc
  have hspec := geblttrf_npvt_spec nb nblocks A B C h0
  -- the column `c < nrhs` of the result is the one the two sweeps computed
  have hcol : ∀ q p, geblttrs_npvt nb nblocks nrhs A (geblttrf_npvt nb nblocks A B C).1
        (geblttrf_npvt nb nblocks A B C).2.1 X q p c
      = geblttrs_npvt_backward nb nblocks (geblttrf_npvt nb nblocks A B C).2.1
          (geblttrs_npvt_forward nb A (geblttrf_npvt nb nblocks A B C).1 X nblocks)
          (nblocks - 1) q p c := by
    intro q p
    simp [geblttrs_npvt, hc]
  have hmul : block_tridiagonal_mul nb nblocks A B C
        (geblttrs_npvt nb nblocks nrhs A (geblttrf_npvt nb nblocks A B C).1
          (geblttrf_npvt nb nblocks A B C).2.1 X) k i c
      = block_tridiagonal_mul nb nblocks A B C
        (geblttrs_npvt_backward nb nblocks (geblttrf_npvt nb nblocks A B C).2.1
          (geblttrs_npvt_forward nb A (geblttrf_npvt nb nblocks A B C).1 X nblocks)
          (nblocks - 1)) k i c := by
    unfold block_tridiagonal_mul
    rw [mat_mul_congr_right nb (A (k - 1)) _ _ i c (fun p _ => hcol (k - 1) p),
      mat_mul_congr_right nb (B k) _ _ i c (fun p _ => hcol k p),
      mat_mul_congr_right nb (C k) _ _ i c (fun p _ => hcol (k + 1) p)]
  rw [hmul]
  apply block_row_identity nb nblocks A B C X
    (eliminate_coupling nb A B (geblttrf_npvt nb nblocks A B C).2.1)
    (geblttrf_npvt nb nblocks A B C).2.1
    (geblttrs_npvt_forward nb A (geblttrf_npvt nb nblocks A B C).1 X nblocks)
  · intro a p
    rw [eliminate_coupling_zero]
  · intro q hq a p
    rw [eliminate_coupling_pos nb A B _ q hq]
    ring
  · intro q hq a c2 ha
    rw [(hspec q (by omega)).2.2 hq, (hspec q (by omega)).1]
    exact getrs_npvt_solves nb _ (C q) (hspec q (by omega)).2.1 a c2 ha
  · intro a c2 ha
    rw [geblttrs_npvt_forward_spec nb A _ X nblocks 0 (by omega), (hspec 0 (by omega)).1,
      getrs_npvt_solves nb _ _ (hspec 0 (by omega)).2.1 a c2 ha, eliminate_coupling_zero]
  · intro q hq hqn a c2 ha
    rw [geblttrs_npvt_forward_spec nb A _ X nblocks q hqn, (hspec q hqn).1,
      getrs_npvt_solves nb _ _ (hspec q hqn).2.1 a c2 ha, eliminate_coupling_pos nb A X _ q hq]
  · exact geblttrs_npvt_backward_untouched nb nblocks _ _ (nblocks - 1) (nblocks - 1) (by omega)
      (Or.inr (by omega))
  · intro q hq a c2
    rw [geblttrs_npvt_backward_spec nb nblocks _ _ (nblocks - 1) (by omega) q (by omega) hq]
  · exact hk
  · exact hi

/-- Witness of C13: the sample system with two 1×1 blocks is factored with status
0, and block row 1 of the product with the computed solution is block 1 of the
right-hand side. -/
theorem geblttrs_npvt_solves_factored_system_witness :
    block_tridiagonal_mul 1 2 sample_blocks_A sample_blocks_B sample_blocks_C
        (geblttrs_npvt 1 2 1 sample_blocks_A
          (geblttrf_npvt 1 2 sample_blocks_A sample_blocks_B sample_blocks_C).1
          (geblttrf_npvt 1 2 sample_blocks_A sample_blocks_B sample_blocks_C).2.1
          sample_blocks_X) 1 0 0
      = sample_blocks_X 1 0 0 :=
  geblttrs_npvt_solves_factored_system 1 2 1 sample_blocks_A sample_blocks_B sample_blocks_C
    sample_blocks_X
    (by
      norm_num [geblttrf_npvt, geblttrf_npvt_steps, eliminate_coupling, getf2_npvt,
        getf2_npvt_steps, getf2_npvt_step, getrs_npvt, trsm_upper_steps,
        trsm_lower_unit_steps, mat_mul,
        Function.update, sample_blocks_A, sample_blocks_B, sample_blocks_C])
    1 0 0 (by decide) (by decide) (by decide)

/-! ## When the bad-argument test of sygvd/hegvd runs -/

/-- On a well-formed parameter `run_tests` returns, and its calls are the
bad-argument test when the tuple asks for it, the test with the singular flag
when `singular = 1`, and the test with `singular = 0`. -/
theorem run_tests_eq (B S : Bool) (T : ScalarType) (arg0 : Arguments)
    (n lda ldb singular : Int) (itype evect uplo : Char) :
    run_tests B S T arg0 ([n, lda, ldb, singular], [itype, evect, uplo])
      = some ((if itype = '1' ∧ evect = 'N' ∧ uplo = 'U' ∧ n = 0 then
            [TestCall.testing_sygvd_hegvd_bad_arg B S T] else [])
          ++ (if singular = 1 then
            [TestCall.testing_sygvd_hegvd B S T
              { arg0 with n := n, lda := lda, ldb := ldb, itype := itype, evect := evect,
                          uplo := uplo, timing := 0, singular := singular,
                          batch_count := if B || S then 3 else 1 }] else [])
          ++ [TestCall.testing_sygvd_hegvd B S T
              { arg0 with n := n, lda := lda, ldb := ldb, itype := itype, evect := evect,
                          uplo := uplo, timing := 0, singular := 0,
                          batch_count := if B || S then 3 else 1 }]) := by
  simp [run_tests, sygvd_setup_arguments]
  split_ifs <;> simp_all

/-- On a well-formed parameter the bad-argument test is called exactly when the
condition of `run_tests` holds. -/
theorem runs_bad_arg_eq (B S : Bool) (T : ScalarType) (arg0 : Arguments)
    (n lda ldb singular : Int) (itype evect uplo : Char) :
    runs_bad_arg B S T arg0 ([n, lda, ldb, singular], [itype, evect, uplo])
      = decide (itype = '1' ∧ evect = 'N' ∧ uplo = 'U' ∧ n = 0) := by
  unfold runs_bad_arg
  rw [run_tests_eq]
  by_cases h : itype = '1' ∧ evect = 'N' ∧ uplo = 'U' ∧ n = 0
  · simp [h]
  · rw [if_neg h]
    split_ifs <;> simp [h]

/-- On a size of four entries and a type of three entries `run_tests` returns. -/
theorem run_tests_isSome (B S : Bool) (T : ScalarType) (arg0 : Arguments) (p : sygvd_tuple)
    (h1 : p.1.length = 4) (h2 : p.2.length = 3) : (run_tests B S T arg0 p).isSome = true := by
  obtain ⟨s, t⟩ := p
  rcases s with _ | ⟨a, _ | ⟨b, _ | ⟨c, _ | ⟨d, _ | ⟨e, s⟩⟩⟩⟩⟩ <;> simp at h1
  rcases t with _ | ⟨x, _ | ⟨y, _ | ⟨z, _ | ⟨w, t⟩⟩⟩⟩ <;> simp at h2
  rw [run_tests_eq]
  rfl

/-- C21: the sygvd/hegvd bad-argument test runs if and only if the parameter
tuple has n = 0, itype = '1', evect = 'N' and uplo = 'U' (on every well-formed
tuple `run_tests` returns, and the bad-argument test is among its calls exactly
then); every tuple of the two parameter spaces is well-formed; over the checkin
parameter space (matrix_size_range × type_range) exactly one tuple triggers it,
the tuple ({0, 1, 1, 0}, {'1', 'N', 'U'}); and over the daily parameter space
(large_matrix_size_range × type_range) none does.  This holds for every
instantiation of the test template and every default `Arguments`. -/
theorem bad_arg_test_runs_iff_first_tuple (B S : Bool) (T : ScalarType) (arg0 : Arguments) :
    (∀ (n lda ldb singular : Int) (itype evect uplo : Char),
      ∃ calls, run_tests B S T arg0 ([n, lda, ldb, singular], [itype, evect, uplo]) = some calls
        ∧ (TestCall.testing_sygvd_hegvd_bad_arg B S T ∈ calls
            ↔ n = 0 ∧ itype = '1' ∧ evect = 'N' ∧ uplo = 'U'))
    ∧ (∀ p, p ∈ checkin_lapack ++ daily_lapack → (run_tests B S T arg0 p).isSome = true)
    ∧ checkin_lapack.length = 42
    ∧ checkin_lapack.filter (runs_bad_arg B S T arg0) = [([0, 1, 1, 0], ['1', 'N', 'U'])]
    ∧ daily_lapack.length = 18
    ∧ daily_lapack.filter (runs_bad_arg B S T arg0) = [] := by
  refine ⟨?_, ?_, by decide, ?_, by decide, ?_⟩
  · intro n lda ldb singular itype evect uplo
    refine ⟨_, run_tests_eq B S T arg0 n lda ldb singular itype evect uplo, ?_⟩
    by_cases h : itype = '1' ∧ evect = 'N' ∧ uplo = 'U' ∧ n = 0
    · simp [h]
    · rw [if_neg h]
      have h2 : ¬ (n = 0 ∧ itype = '1' ∧ evect = 'N' ∧ uplo = 'U') := by tauto
      split_ifs <;> simp [h2]
  · intro p hp
    have hwf : ∀ q ∈ checkin_lapack ++ daily_lapack, q.1.length = 4 ∧ q.2.length = 3 := by decide
    exact run_tests_isSome B S T arg0 p (hwf p hp).1 (hwf p hp).2
  · simp [checkin_lapack, Combine, matrix_size_range, type_range, runs_bad_arg_eq, List.filter]
  · simp [daily_lapack, Combine, large_matrix_size_range, type_range, runs_bad_arg_eq, List.filter]

/-- Witness of C21: for the batched float instantiation, the one tuple of the
checkin parameter space that runs the bad-argument test. -/
theorem bad_arg_test_runs_iff_first_tuple_witness :
    checkin_lapack.filter (runs_bad_arg true true ScalarType.float sample_Arguments)
      = [([0, 1, 1, 0], ['1', 'N', 'U'])] :=
  (bad_arg_test_runs_iff_first_tuple true true ScalarType.float sample_Arguments).2.2.2.1

/-! ## The default stride of the no-pivot LU tests -/

/-- For non-negative `rocblas_int` operands the 64-bit product does not wrap:
`size_t(lda) * n` is the mathematical product. -/
theorem size_A_size_t_eq (lda n : Nat) (hlda : lda < 2 ^ 31) (hn : n < 2 ^ 31) :
    size_A_size_t lda n = size_A lda n := by
  unfold size_A_size_t size_A
  have h1 : ((lda : Int) % 2 ^ 64).toNat = lda := by omega
  have h2 : ((n : Int) % 2 ^ 64).toNat = n := by omega
  rw [h1, h2]
  have : lda * n < 2 ^ 31 * 2 ^ 31 := Nat.mul_lt_mul'' hlda hn
  omega

/-- While the product `lda * n` stays in the `rocblas_int` range, the default
stride is the buffer size and is at least rows × cols. -/
theorem default_strideA_in_range (m n lda : Nat) (hm : m ≤ lda) (h : lda * n < 2 ^ 31)
    (hlda : lda < 2 ^ 31) (hn : n < 2 ^ 31) :
    default_strideA lda n = size_A_size_t lda n
      ∧ (m : Int) * n ≤ default_strideA lda n := by
  have e : (lda : Int) * (n : Int) = ((lda * n : Nat) : Int) := by push_cast; rfl
  have hs : default_strideA lda n = ((lda * n : Nat) : Int) := by
    unfold default_strideA
    rw [e, rocblas_int_wrap_of_lt _ h]
  rw [hs, size_A_size_t_eq lda n hlda hn]
  refine ⟨rfl, ?_⟩
  have : m * n ≤ lda * n := Nat.mul_le_mul_right n hm
  exact_mod_cast this

/-- C22: the default stride `lda * n` of the no-pivot LU tests, formed in
`rocblas_int` arithmetic, is not the buffer size for every valid shape.  At
m = lda = 65536, n = 32768, bc = 1 (a valid shape of `rocblas_int` values) the
buffer size `size_t(lda) * n` is 2^31, which no `rocblas_int` holds; the default
stride is -2^31, so it differs from the buffer size and is below
rows × cols. -/
theorem default_stride_overflows_at_two_to_31 :
    is_rocblas_int 65536 ∧ is_rocblas_int 32768
      ∧ invalid_size 65536 32768 65536 1 = false
      ∧ size_A_size_t 65536 32768 = 2147483648
      ∧ (∀ v : Int, is_rocblas_int v → v ≠ size_A_size_t 65536 32768)
      ∧ default_strideA 65536 32768 = -2147483648
      ∧ default_strideA 65536 32768 ≠ size_A_size_t 65536 32768
      ∧ default_strideA 65536 32768 < 65536 * 32768 := by
  have hs : size_A_size_t 65536 32768 = 2147483648 := by
    unfold size_A_size_t
    have h1 : ((65536 : Int) % 2 ^ 64).toNat = 65536 := by omega
    have h2 : ((32768 : Int) % 2 ^ 64).toNat = 32768 := by omega
    rw [h1, h2]
    norm_num
  have hd : default_strideA 65536 32768 = -2147483648 := by
    norm_num [default_strideA, rocblas_int_wrap]
  refine ⟨by decide, by decide, by decide, hs, ?_, hd, ?_, ?_⟩
  · intro v hv
    rw [hs]
    unfold is_rocblas_int at hv
    omega
  · rw [hs, hd]; decide
  · rw [hd]; decide

/-! ## Singular test matrices -/

/-- Within the `rocblas_int` range the three starting values are formed without
wrap-around. -/
theorem getf2_getrf_npvt_initData_starts_rocblas_int_eq (n b : Nat) (hn : 1 ≤ n)
    (h : n + b < 2 ^ 31) :
    getf2_getrf_npvt_initData_starts_rocblas_int n b
      = [((n / 4 + b : Nat) : Int), ((n / 2 + b : Nat) : Int), ((n - 1 + b : Nat) : Int)] := by
  have t4 : Int.tdiv (n : Int) 4 = ((n / 4 : Nat) : Int) := by
    rw [Int.tdiv_eq_ediv (by omega) (by omega)]; omega
  have t2 : Int.tdiv (n : Int) 2 = ((n / 2 : Nat) : Int) := by
    rw [Int.tdiv_eq_ediv (by omega) (by omega)]; omega
  have t1 : (n : Int) - 1 = ((n - 1 : Nat) : Int) := by omega
  have c (x : Nat) : ((x : Nat) : Int) + (b : Int) = ((x + b : Nat) : Int) := by push_cast; rfl
  unfold getf2_getrf_npvt_initData_starts_rocblas_int
  rw [t4, t2, t1, rocblas_int_wrap_of_lt _ (by omega), rocblas_int_wrap_of_lt _ (by omega),
    rocblas_int_wrap_of_lt _ (by omega), c, c, c, rocblas_int_wrap_of_lt _ (by omega),
    rocblas_int_wrap_of_lt _ (by omega), rocblas_int_wrap_of_lt _ (by omega)]

/-- On a starting value within the `rocblas_int` range the statement
`j -= (j / n) * n` is evaluated without wrap-around and leaves the remainder
modulo `n`. -/
theorem getf2_getrf_npvt_initData_reduce_rocblas_int_eq (n start : Nat) (h : start < 2 ^ 31) :
    getf2_getrf_npvt_initData_reduce_rocblas_int n start = ((start % n : Nat) : Int) := by
  unfold getf2_getrf_npvt_initData_reduce_rocblas_int
  have hle : start / n * n ≤ start := Nat.div_mul_le_self start n
  have hq : start / n ≤ start := Nat.div_le_self start n
  rw [← Int.ofNat_tdiv, rocblas_int_wrap_of_lt _ (by omega)]
  have e1 : ((start / n : Nat) : Int) * (n : Int) = ((start / n * n : Nat) : Int) := by
    push_cast; rfl
  rw [e1, rocblas_int_wrap_of_lt _ (by omega)]
  have e2 : (start : Int) - ((start / n * n : Nat) : Int) = ((start - start / n * n : Nat) : Int) := by
    rw [Nat.cast_sub hle]
  rw [e2, rocblas_int_wrap_of_lt _ (by omega)]
  congr 1
  have := Nat.div_add_mod start n
  have : start / n * n = n * (start / n) := Nat.mul_comm _ _
  omega

/-- While the sizes stay in the `rocblas_int` range (lda·n < 2^31 and
n + bc ≤ 2^31), every store of `getf2_getrf_npvt_initData` on a shape the test
calls it with (n ≥ 1, lda ≥ m) goes to a batch entry below `bc` and falls inside
its buffer of size_A = lda·n elements. -/
theorem getf2_getrf_npvt_initData_writes_in_bounds (m n lda bc : Nat) (singular : Bool)
    (hm : m ≤ lda) (hn : 1 ≤ n) (hsize : size_A lda n < 2 ^ 31) (hbc : n + bc ≤ 2 ^ 31)
    (w : HostWrite) (hw : w ∈ getf2_getrf_npvt_initData_writes m n lda bc singular) :
    w.b < bc ∧ w.in_bounds (size_A lda n) := by
  have key : ∀ i j : Nat, i < m → j < n →
      0 ≤ col_major_index_rocblas_int (i : Int) (j : Int) lda
        ∧ col_major_index_rocblas_int (i : Int) (j : Int) lda < size_A lda n := by
    intro i j hi hj
    rw [col_major_index_rocblas_int_eq m n lda i j hm hi hj hsize]
    have := col_major_index_lt m n lda i j hm hi hj
    exact ⟨by positivity, by exact_mod_cast this⟩
  simp only [getf2_getrf_npvt_initData_writes, List.mem_flatMap, List.mem_range,
    List.mem_append, Int.toNat_ofNat] at hw
  obtain ⟨b, hb, hw | hw⟩ := hw
  · simp only [getf2_getrf_npvt_initData_scale_writes, List.mem_flatMap, List.mem_map,
      List.mem_range, Int.toNat_ofNat] at hw
    obtain ⟨i, hi, j, hj, rfl⟩ := hw
    unfold HostWrite.in_bounds
    split_ifs <;> exact ⟨hb, key i j hi hj⟩
  · unfold getf2_getrf_npvt_initData_singular_writes at hw
    split_ifs at hw
    · rw [getf2_getrf_npvt_initData_starts_rocblas_int_eq n b hn (by omega)] at hw
      simp only [List.mem_flatMap, getf2_getrf_npvt_initData_zero_column_writes, List.mem_map,
        List.mem_range, Int.toNat_ofNat, List.mem_cons, List.mem_nil_iff, or_false] at hw
      obtain ⟨start, hs, i, hi, rfl⟩ := hw
      unfold HostWrite.in_bounds
      refine ⟨hb, ?_⟩
      rcases hs with rfl | rfl | rfl <;>
        (rw [getf2_getrf_npvt_initData_reduce_rocblas_int_eq n _ (by omega)]
         exact key i _ hi (Nat.mod_lt _ hn))
    · simp at hw

/-- C24: at m = 1, n = 32769, lda = 65536, bc = 1 with `singular` set (a valid
shape of `rocblas_int` values), the block that adds singularities is entered
for b = 0 and its three columns are 8192, 16384 and 32768, all in [0, n); but
the index `i + j * lda` of the store into column 32768 is 2^31, which no
`rocblas_int` holds: the store `hA[0][i + j * lda] = 0` is issued with the
index -2^31 and does not fall inside the buffer of size_A = lda·n elements.
The column itself leaves [0, n) where `n - 1 + b` leaves the range: at
n = 2^31 - 1 and b = 2 the third column is -1. -/
theorem zeroing_store_out_of_bounds_at_two_to_31 :
    is_rocblas_int 1 ∧ is_rocblas_int 32769 ∧ is_rocblas_int 65536
      ∧ invalid_size 1 32769 65536 1 = false
      ∧ size_A_size_t 65536 32769 = 2147549184
      ∧ getf2_getrf_npvt_initData_adds_singularities 1 0 = true
      ∧ (getf2_getrf_npvt_initData_starts_rocblas_int 32769 0).map
          (getf2_getrf_npvt_initData_reduce_rocblas_int 32769) = [8192, 16384, 32768]
      ∧ getf2_getrf_npvt_initData_singular_writes 1 32769 65536 1 0 true
          = [⟨0, 536870912, HostWriteKind.set_0⟩, ⟨0, 1073741824, HostWriteKind.set_0⟩,
             ⟨0, -2147483648, HostWriteKind.set_0⟩]
      ∧ (⟨0, -2147483648, HostWriteKind.set_0⟩ : HostWrite)
          ∈ getf2_getrf_npvt_initData_writes 1 32769 65536 1 true
      ∧ ¬ HostWrite.in_bounds (size_A_size_t 65536 32769)
          ⟨0, -2147483648, HostWriteKind.set_0⟩
      ∧ (∀ v : Int, is_rocblas_int v → v ≠ (0 : Int) + 32768 * 65536)
      ∧ (getf2_getrf_npvt_initData_starts_rocblas_int 2147483647 2).map
          (getf2_getrf_npvt_initData_reduce_rocblas_int 2147483647)
          = [536870913, 1073741825, -1] := by
  have hs : size_A_size_t 65536 32769 = 2147549184 := by
    unfold size_A_size_t
    have h1 : ((65536 : Int) % 2 ^ 64).toNat = 65536 := by omega
    have h2 : ((32769 : Int) % 2 ^ 64).toNat = 32769 := by omega
    rw [h1, h2]
    norm_num
  have hw : getf2_getrf_npvt_initData_singular_writes 1 32769 65536 1 0 true
      = [⟨0, 536870912, HostWriteKind.set_0⟩, ⟨0, 1073741824, HostWriteKind.set_0⟩,
         ⟨0, -2147483648, HostWriteKind.set_0⟩] := by decide
  refine ⟨by decide, by decide, by decide, by decide, hs, by decide, by decide, hw, ?_, ?_, ?_,
    by decide⟩
  · simp only [getf2_getrf_npvt_initData_writes, List.mem_flatMap, List.mem_range,
      List.mem_append]
    exact ⟨0, by decide, Or.inr (by rw [hw]; simp)⟩
  · rw [hs]
    unfold HostWrite.in_bounds
    simp
  · intro v hv
    unfold is_rocblas_int at hv
    omega

/-! ## The hipGraph sample: capture once, launch every iteration -/

/-- Once `graph_ready` is set, an iteration only launches the graph. -/
theorem main_loop_body_ready (st : GraphState) (i : Nat) (h : st.graph_ready ≠ 0) :
    main_loop_body st i
      = { st with calls := st.calls ++ [GraphCall.hipGraphLaunch i st.exec] } := by
  simp [main_loop_body, h]

/-- The loop with at least one iteration, from the initial state: the capture
block in iteration 0, then one launch of that graph per iteration. -/
theorem main_loop_spec (n : Nat) :
    main_loop (n + 1) { graph_ready := 0, exec := none, calls := [] }
      = { graph_ready := 1,
          exec := some 0,
          calls :=
            [GraphCall.hipStreamBeginCapture 0,
             GraphCall.rocsolver_dgeqrf 0,
             GraphCall.hipStreamEndCapture 0,
             GraphCall.hipGraphInstantiate 0,
             GraphCall.hipGraphDestroy 0]
            ++ (List.range (n + 1)).map fun i => GraphCall.hipGraphLaunch i (some 0) } := by
  unfold main_loop
  induction n with
  | zero => rfl
  | succ n ih =>
    rw [List.range_succ, List.foldl_append, ih]
    simp only [List.foldl_cons, List.foldl_nil]
    rw [main_loop_body_ready _ _ (by simp)]
    simp [List.range_succ]

/-- The calls of `main` for any positive number of iterations: the capture block
once, in iteration 0, one launch per iteration, then the clean-up with
`hipGraphExecDestroy` on the instantiated graph. -/
theorem example_graph_main_spec (n : Nat) :
    example_graph_main (n + 1)
      = [GraphCall.hipStreamBeginCapture 0,
         GraphCall.rocsolver_dgeqrf 0,
         GraphCall.hipStreamEndCapture 0,
         GraphCall.hipGraphInstantiate 0,
         GraphCall.hipGraphDestroy 0]
        ++ ((List.range (n + 1)).map fun i => GraphCall.hipGraphLaunch i (some 0))
        ++ [GraphCall.free_hIpiv,
            GraphCall.hipFree_dA,
            GraphCall.hipFree_dIpiv,
            GraphCall.free_hA,
            GraphCall.hipGraphExecDestroy (some 0),
            GraphCall.rocblas_destroy_handle,
            GraphCall.hipStreamDestroy] := by
  unfold example_graph_main
  simp only [main_loop_spec]

/-- C25: in the main loop of the hipGraph sample, with ITER_COUNT = 10
iterations, the stream capture, the `rocsolver_dgeqrf` call and the graph
instantiation happen exactly once, in iteration 0, and never again once
`graph_ready` is 1 (an iteration that finds it set only launches); the
instantiated graph is launched exactly once per iteration, 10 launches in all,
each on the graph instantiated in iteration 0; and every launch and the final
`hipGraphExecDestroy` come after the call of `hipGraphInstantiate` in the order
of the calls, and are given the instantiated `exec`. -/
theorem graph_captured_once_launched_every_iteration :
    example_graph_main ITER_COUNT
      = [GraphCall.hipStreamBeginCapture 0,
         GraphCall.rocsolver_dgeqrf 0,
         GraphCall.hipStreamEndCapture 0,
         GraphCall.hipGraphInstantiate 0,
         GraphCall.hipGraphDestroy 0]
        ++ (List.range 10).map (fun i => GraphCall.hipGraphLaunch i (some 0))
        ++ [GraphCall.free_hIpiv,
            GraphCall.hipFree_dA,
            GraphCall.hipFree_dIpiv,
            GraphCall.free_hA,
            GraphCall.hipGraphExecDestroy (some 0),
            GraphCall.rocblas_destroy_handle,
            GraphCall.hipStreamDestroy]
    ∧ (example_graph_main ITER_COUNT).filter GraphCall.isCapture
        = [GraphCall.hipStreamBeginCapture 0,
           GraphCall.rocsolver_dgeqrf 0,
           GraphCall.hipStreamEndCapture 0,
           GraphCall.hipGraphInstantiate 0,
           GraphCall.hipGraphDestroy 0]
    ∧ (∀ (st : GraphState) (i : Nat), st.graph_ready ≠ 0 →
        main_loop_body st i
          = { st with calls := st.calls ++ [GraphCall.hipGraphLaunch i st.exec] })
    ∧ (example_graph_main ITER_COUNT).filter GraphCall.isLaunch
        = (List.range 10).map (fun i => GraphCall.hipGraphLaunch i (some 0))
    ∧ ((example_graph_main ITER_COUNT).filter GraphCall.isLaunch).length = 10
    ∧ (example_graph_main ITER_COUNT).filter GraphCall.usesExec
        = (List.range 10).map (fun i => GraphCall.hipGraphLaunch i (some 0))
          ++ [GraphCall.hipGraphExecDestroy (some 0)]
    ∧ ∀ (k : Nat) (c : GraphCall), (example_graph_main ITER_COUNT)[k]? = some c →
        c.usesExec = true →
        ∃ k0, k0 < k
          ∧ (example_graph_main ITER_COUNT)[k0]? = some (GraphCall.hipGraphInstantiate 0) := by
  refine ⟨by decide, by decide, main_loop_body_ready, by decide, by decide, by decide, ?_⟩
  intro k c hk hu
  have hfirst : ∀ k, k < 4 →
      (example_graph_main ITER_COUNT)[k]?.map GraphCall.usesExec = some false := by decide
  by_cases h4 : k < 4
  · have h := hfirst k h4
    rw [hk, Option.map_some', hu] at h
    exact absurd h (by decide)
  · exact ⟨3, by omega, by decide⟩

/-- Witness of C25: the ten launches of the sample. -/
theorem graph_captured_once_launched_every_iteration_witness :
    ((example_graph_main ITER_COUNT).filter GraphCall.isLaunch).length = 10 :=
  graph_captured_once_launched_every_iteration.2.2.2.2.1

end RocSolver
